import Mathlib

/-!
CHIP-8 interpreter core of `KOBZ_CHIP8PLUS.cpp`.

A shallow embedding of the machine state (`CHIP_8`), of the instruction engine
(`emulate_instructions`), of the timer tick, of `init_chip8`, of `handle_input`
and of the emulator loop of `main`, followed by the properties proved about
them.

Conventions of the embedding.

* The fixed-width unsigned integers of the source (`uint8_t`, `uint16_t`,
  `uint32_t`) are natural numbers; every place where the C++ arithmetic
  truncates is written with an explicit `%`.
* The C++ arrays (`ram`, `display`, `stack`, `V`, `keypad`) are functions from
  an index to a value.  The source never checks an index.  An index outside
  the declared array has no meaning in C++, so the embedding stops at the first
  such access and returns it as an `Undefined` value.  This is *not* a status
  the engine reports (`emulate_instructions` returns `void`); it records that
  the source performs that access.
* `stack_ptr` is the pointer `chip8->stack_ptr` held as its element offset
  from `&chip8->stack[0]`.
* The two `static` locals of the `0xFX0A` case (`anykey_pressed`, `key`) live
  across calls; they are fields of the state.
* `rand()` is an argument of the engine (`rand_value`).
* `SDL_Log` calls have no effect on the machine and are left out, as is the
  `rom_name` pointer.
* The host side is input data: the events `SDL_PollEvent` delivers are a list,
  and the file `fopen` finds is an optional list of bytes.
-/

namespace KOBZ

/-! ## Data model -/

/-- The enumeration `EXTENSION_T`, held as its integer value. -/
abbrev EXTENSION_T := Nat

/-- The only enumerator of `EXTENSION_T`. -/
def CHIP8 : EXTENSION_T := 0

/-- The configuration record `CONFIG_T`. -/
structure CONFIG_T where
  window_width : Nat
  window_height : Nat
  fg_color : Nat
  bg_color : Nat
  scale_factor : Nat
  clock_rate : Nat
  current_ex : EXTENSION_T

/-- The enumeration `EMULATOR_STATE_T`. -/
inductive EMULATOR_STATE_T where
  | QUIT
  | RUNNING
  | PAUSED
  deriving DecidableEq, Repr

/-- The decoded instruction `INSTRUCTION_T`. -/
structure INSTRUCTION_T where
  opcode : Nat
  NNN : Nat
  NN : Nat
  N : Nat
  X : Nat
  Y : Nat
  deriving DecidableEq, Repr

/-- The machine `CHIP_8`, with the two `static` locals of the `0xFX0A` case. -/
structure CHIP_8 where
  state : EMULATOR_STATE_T
  ram : Nat → Nat
  display : Nat → Bool
  stack : Nat → Nat
  stack_ptr : Nat
  V : Nat → Nat
  I : Nat
  PC : Nat
  delay_timer : Nat
  keypad : Nat → Bool
  inst : INSTRUCTION_T
  anykey_pressed : Bool
  key : Nat

/-- An array access of the source that falls outside the declared array, or a
remainder by zero: the places where the C++ program has no defined behaviour.
The index is the one the source computes. -/
inductive Undefined where
  | ram_read (addr : Nat)
  | ram_write (addr : Nat)
  | stack_read (slot : Int)
  | stack_write (slot : Int)
  | display_access (index : Nat)
  | keypad_read (index : Nat)
  | remainder_by_zero
  deriving DecidableEq, Repr

/-- Array assignment `a[i] = v`. -/
def store {α : Type} (a : Nat → α) (i : Nat) (v : α) : Nat → α :=
  fun k => if k = i then v else a k

/-- Conversion of a C++ `int` to `uint8_t`. -/
def to_u8 (z : Int) : Nat := (z % 256).toNat

/-- Conversion of a C++ `int` to `uint16_t`. -/
def to_u16 (z : Int) : Nat := (z % 65536).toNat

/-- Default configuration written by `set_config_from_args`. -/
def default_config : CONFIG_T :=
  { window_width := 64
    window_height := 32
    fg_color := 0xFFFFFFFF
    bg_color := 0x000000FF
    scale_factor := 15
    clock_rate := 750
    current_ex := CHIP8 }

/-! ## Array accesses -/

/-- Read of `chip8->ram[addr]`; `ram` has 4096 bytes. -/
def ram_read (chip8 : CHIP_8) (addr : Nat) : Except Undefined Nat :=
  if addr < 4096 then .ok (chip8.ram addr) else .error (.ram_read addr)

/-- Assignment `chip8->ram[addr] = v`. -/
def ram_write (chip8 : CHIP_8) (addr v : Nat) : Except Undefined CHIP_8 :=
  if addr < 4096 then .ok { chip8 with ram := store chip8.ram addr v }
  else .error (.ram_write addr)

/-- Read of `chip8->keypad[index]`; `keypad` has 16 entries. -/
def keypad_read (chip8 : CHIP_8) (index : Nat) : Except Undefined Bool :=
  if index < 16 then .ok (chip8.keypad index) else .error (.keypad_read index)

/-! ## Timer tick -/

/-- The function `update_timers`. -/
def update_timers (chip8 : CHIP_8) : CHIP_8 :=
  if chip8.delay_timer > 0 then { chip8 with delay_timer := chip8.delay_timer - 1 } else chip8

/-! ## Loops of the instruction engine -/

/-- Inner loop of `0xDXYN` (`for (int8_t j = 7; j >= 0; j--)`): the first
argument is `j + 1`, so the loop ends at `0`. -/
def draw_row (config : CONFIG_T) (sprite_data Y_coord : Nat) :
    Nat → Nat → CHIP_8 → Except Undefined CHIP_8
  | 0, _, chip8 => .ok chip8
  | j + 1, X_coord, chip8 =>
    let index := (Y_coord * config.window_width + X_coord) % 4294967296
    if index < 2048 then
      let pixel := chip8.display index
      let sprite_bit := decide (sprite_data &&& (1 <<< j) ≠ 0)
      let chip8 :=
        if sprite_bit && pixel then { chip8 with V := store chip8.V 0xF 1 } else chip8
      let chip8 := { chip8 with display := store chip8.display index (xor pixel sprite_bit) }
      let X_coord := (X_coord + 1) % 256
      if X_coord ≥ config.window_width then .ok chip8
      else draw_row config sprite_data Y_coord j X_coord chip8
    else .error (.display_access index)

/-- Outer loop of `0xDXYN` (`for (uint8_t i = 0; i < N; i++)`): the first
argument is the number `N - i` of rows still to draw. -/
def draw_rows (config : CONFIG_T) (orig_X : Nat) :
    Nat → Nat → Nat → CHIP_8 → Except Undefined CHIP_8
  | 0, _, _, chip8 => .ok chip8
  | n + 1, i, Y_coord, chip8 =>
    match ram_read chip8 (chip8.I + i) with
    | .error e => .error e
    | .ok sprite_data =>
      match draw_row config sprite_data Y_coord 8 orig_X chip8 with
      | .error e => .error e
      | .ok chip8 =>
        let Y_coord := (Y_coord + 1) % 256
        if Y_coord ≥ config.window_height then .ok chip8
        else draw_rows config orig_X n (i + 1) Y_coord chip8

/-- Body of `case 0x0D`. -/
def draw_sprite (config : CONFIG_T) (chip8 : CHIP_8) : Except Undefined CHIP_8 :=
  if config.window_width = 0 ∨ config.window_height = 0 then .error .remainder_by_zero
  else
    let X_coord := (chip8.V chip8.inst.X % config.window_width) % 256
    let Y_coord := (chip8.V chip8.inst.Y % config.window_height) % 256
    let orig_X := X_coord
    let chip8 := { chip8 with V := store chip8.V 0xF 0 }
    draw_rows config orig_X chip8.inst.N 0 Y_coord chip8

/-- Scan loop of `0xFX0A`
(`for (uint8_t i = 0; key == 0xFF && i < sizeof chip8->keypad; i++)`): the first
argument is the number `16 - i` of keys still to scan. -/
def await_key_scan : Nat → Nat → CHIP_8 → CHIP_8
  | 0, _, chip8 => chip8
  | n + 1, i, chip8 =>
    if chip8.key = 0xFF then
      let chip8 :=
        if chip8.keypad i then
          { chip8 with V := store chip8.V chip8.inst.X i, anykey_pressed := true }
        else chip8
      await_key_scan n (i + 1) chip8
    else chip8

/-- Body of `case 0x0A` of the `0xF` family. -/
def await_key (chip8 : CHIP_8) : Except Undefined CHIP_8 :=
  let chip8 := await_key_scan 16 0 chip8
  if !chip8.anykey_pressed then
    .ok { chip8 with PC := to_u16 ((chip8.PC : Int) - 2) }
  else
    match keypad_read chip8 chip8.key with
    | .error e => .error e
    | .ok pressed =>
      if pressed then .ok { chip8 with PC := to_u16 ((chip8.PC : Int) - 2) }
      else .ok { chip8 with V := store chip8.V chip8.inst.X chip8.key,
                            key := 0xFF, anykey_pressed := false }

/-- Loop of `0xFX55` (`for (uint8_t i = 0; i <= X; i++)`): the first argument is
the number `X + 1 - i` of registers still to dump. -/
def register_dump (config : CONFIG_T) : Nat → Nat → CHIP_8 → Except Undefined CHIP_8
  | 0, _, chip8 => .ok chip8
  | n + 1, i, chip8 =>
    if config.current_ex = CHIP8 then
      match ram_write chip8 chip8.I (chip8.V i) with
      | .error e => .error e
      | .ok chip8 => register_dump config n (i + 1) { chip8 with I := (chip8.I + 1) % 65536 }
    else
      match ram_write chip8 (chip8.I + i) (chip8.V i) with
      | .error e => .error e
      | .ok chip8 => register_dump config n (i + 1) chip8

/-- Loop of `0xFX65` (`for (uint8_t i = 0; i <= X; i++)`): the first argument is
the number `X + 1 - i` of registers still to load. -/
def register_load (config : CONFIG_T) : Nat → Nat → CHIP_8 → Except Undefined CHIP_8
  | 0, _, chip8 => .ok chip8
  | n + 1, i, chip8 =>
    if config.current_ex = CHIP8 then
      match ram_read chip8 chip8.I with
      | .error e => .error e
      | .ok b =>
        register_load config n (i + 1)
          { chip8 with V := store chip8.V i b, I := (chip8.I + 1) % 65536 }
    else
      match ram_read chip8 (chip8.I + i) with
      | .error e => .error e
      | .ok b => register_load config n (i + 1) { chip8 with V := store chip8.V i b }

/-- Body of `case 0x33` of the `0xF` family. -/
def store_bcd (chip8 : CHIP_8) : Except Undefined CHIP_8 :=
  let bcd := chip8.V chip8.inst.X
  match ram_write chip8 (chip8.I + 2) (bcd % 10) with
  | .error e => .error e
  | .ok chip8 =>
    let bcd := bcd / 10
    match ram_write chip8 (chip8.I + 1) (bcd % 10) with
    | .error e => .error e
    | .ok chip8 =>
      let bcd := bcd / 10
      ram_write chip8 chip8.I bcd

/-! ## The instruction engine -/

/-- Fetch and decode: the head of `emulate_instructions`, up to the `switch`. -/
def fetch_decode (chip8 : CHIP_8) : Except Undefined CHIP_8 :=
  match ram_read chip8 chip8.PC with
  | .error e => .error e
  | .ok hi =>
    match ram_read chip8 (chip8.PC + 1) with
    | .error e => .error e
    | .ok lo =>
      let opcode := ((hi <<< 8) ||| lo) % 65536
      .ok { chip8 with
            PC := (chip8.PC + 2) % 65536
            inst :=
              { opcode := opcode
                NNN := opcode &&& 0x0FFF
                NN := (opcode &&& 0x0FF) % 256
                N := (opcode &&& 0x0F) % 256
                X := ((opcode >>> 8) &&& 0x0F) % 256
                Y := ((opcode >>> 4) &&& 0x0F) % 256 } }

/-- The inner `switch (chip8->inst.N)` of `case 0x08`. -/
def execute_8 (config : CONFIG_T) (chip8 : CHIP_8) : Except Undefined CHIP_8 :=
  let X := chip8.inst.X
  let Y := chip8.inst.Y
  match chip8.inst.N with
  | 0 => .ok { chip8 with V := store chip8.V X (chip8.V Y) }
  | 1 =>
    let chip8 := { chip8 with V := store chip8.V X (chip8.V X ||| chip8.V Y) }
    if config.current_ex = CHIP8 then .ok { chip8 with V := store chip8.V 0xF 0 }
    else .ok chip8
  | 2 =>
    let chip8 := { chip8 with V := store chip8.V X (chip8.V X &&& chip8.V Y) }
    if config.current_ex = CHIP8 then .ok { chip8 with V := store chip8.V 0xF 0 }
    else .ok chip8
  | 3 =>
    let chip8 := { chip8 with V := store chip8.V X (chip8.V X ^^^ chip8.V Y) }
    if config.current_ex = CHIP8 then .ok { chip8 with V := store chip8.V 0xF 0 }
    else .ok chip8
  | 4 =>
    let carry : Nat := if (chip8.V X + chip8.V Y) % 65536 > 255 then 1 else 0
    let chip8 := { chip8 with V := store chip8.V X ((chip8.V X + chip8.V Y) % 256) }
    .ok { chip8 with V := store chip8.V 0xF carry }
  | 5 =>
    let carry : Nat := if chip8.V Y ≤ chip8.V X then 1 else 0
    let chip8 :=
      { chip8 with V := store chip8.V X (to_u8 ((chip8.V X : Int) - (chip8.V Y : Int))) }
    .ok { chip8 with V := store chip8.V 0xF carry }
  | 6 =>
    if config.current_ex = CHIP8 then
      let carry : Nat := if chip8.V Y &&& 1 ≠ 0 then 1 else 0
      let chip8 := { chip8 with V := store chip8.V X (chip8.V Y >>> 1) }
      .ok { chip8 with V := store chip8.V 0xF carry }
    else
      let carry : Nat := if chip8.V X &&& 1 ≠ 0 then 1 else 0
      let chip8 := { chip8 with V := store chip8.V X (chip8.V X >>> 1) }
      .ok { chip8 with V := store chip8.V 0xF carry }
  | 7 =>
    let carry : Nat := if chip8.V X ≤ chip8.V Y then 1 else 0
    let chip8 :=
      { chip8 with V := store chip8.V X (to_u8 ((chip8.V Y : Int) - (chip8.V X : Int))) }
    .ok { chip8 with V := store chip8.V 0xF carry }
  | 0xE =>
    if config.current_ex = CHIP8 then
      let carry : Nat := if (chip8.V Y &&& 0x80) >>> 7 ≠ 0 then 1 else 0
      let chip8 := { chip8 with V := store chip8.V X ((chip8.V Y <<< 1) % 256) }
      .ok { chip8 with V := store chip8.V 0xF carry }
    else
      let carry : Nat := if (chip8.V X &&& 0x80) >>> 7 ≠ 0 then 1 else 0
      let chip8 := { chip8 with V := store chip8.V X ((chip8.V X <<< 1) % 256) }
      .ok { chip8 with V := store chip8.V 0xF carry }
  | _ => .ok chip8

/-- The inner `switch (chip8->inst.NN)` of `case 0x0F`. -/
def execute_F (config : CONFIG_T) (chip8 : CHIP_8) : Except Undefined CHIP_8 :=
  let X := chip8.inst.X
  match chip8.inst.NN with
  | 0x0A => await_key chip8
  | 0x1E => .ok { chip8 with I := (chip8.I + chip8.V X) % 65536 }
  | 0x07 => .ok { chip8 with V := store chip8.V X chip8.delay_timer }
  | 0x15 => .ok { chip8 with delay_timer := chip8.V X }
  | 0x29 => .ok { chip8 with I := (chip8.V X * 5) % 65536 }
  | 0x33 => store_bcd chip8
  | 0x55 => register_dump config (X + 1) 0 chip8
  | 0x65 => register_load config (X + 1) 0 chip8
  | _ => .ok chip8

/-- The `switch ((chip8->inst.opcode >> 12) & 0x0F)` of `emulate_instructions`. -/
def execute (config : CONFIG_T) (rand_value : Nat) (chip8 : CHIP_8) :
    Except Undefined CHIP_8 :=
  let X := chip8.inst.X
  let Y := chip8.inst.Y
  let NN := chip8.inst.NN
  let NNN := chip8.inst.NNN
  match (chip8.inst.opcode >>> 12) &&& 0x0F with
  | 0x00 =>
    if NN = 0xE0 then .ok { chip8 with display := fun _ => false }
    else if NN = 0xEE then
      if chip8.stack_ptr = 0 then .error (.stack_read (-1))
      else if chip8.stack_ptr - 1 < 12 then
        .ok { chip8 with stack_ptr := chip8.stack_ptr - 1
                         PC := chip8.stack (chip8.stack_ptr - 1) }
      else .error (.stack_read ((chip8.stack_ptr : Int) - 1))
    else .ok chip8
  | 0x01 => .ok { chip8 with PC := NNN }
  | 0x02 =>
    if chip8.stack_ptr < 12 then
      .ok { chip8 with stack := store chip8.stack chip8.stack_ptr chip8.PC
                       stack_ptr := chip8.stack_ptr + 1
                       PC := NNN }
    else .error (.stack_write chip8.stack_ptr)
  | 0x03 => if chip8.V X = NN then .ok { chip8 with PC := (chip8.PC + 2) % 65536 } else .ok chip8
  | 0x04 => if chip8.V X ≠ NN then .ok { chip8 with PC := (chip8.PC + 2) % 65536 } else .ok chip8
  | 0x05 =>
    if chip8.inst.N ≠ 0 then .ok chip8
    else if chip8.V X = chip8.V Y then .ok { chip8 with PC := (chip8.PC + 2) % 65536 }
    else .ok chip8
  | 0x06 => .ok { chip8 with V := store chip8.V X NN }
  | 0x07 => .ok { chip8 with V := store chip8.V X ((chip8.V X + NN) % 256) }
  | 0x08 => execute_8 config chip8
  | 0x09 =>
    if chip8.V X ≠ chip8.V Y then .ok { chip8 with PC := (chip8.PC + 2) % 65536 } else .ok chip8
  | 0x0A => .ok { chip8 with I := NNN }
  | 0x0B => .ok { chip8 with PC := (chip8.V 0 + NNN) % 65536 }
  | 0x0C => .ok { chip8 with V := store chip8.V X (((rand_value % 256) &&& NN) % 256) }
  | 0x0D => draw_sprite config chip8
  | 0x0E =>
    if NN = 0x9E then
      match keypad_read chip8 (chip8.V X) with
      | .error e => .error e
      | .ok pressed => if pressed then .ok { chip8 with PC := (chip8.PC + 2) % 65536 } else .ok chip8
    else if NN = 0xA1 then
      match keypad_read chip8 (chip8.V X) with
      | .error e => .error e
      | .ok pressed => if !pressed then .ok { chip8 with PC := (chip8.PC + 2) % 65536 } else .ok chip8
    else .ok chip8
  | 0x0F => execute_F config chip8
  | _ => .ok chip8

/-- One call of `emulate_instructions`: fetch, decode, execute. -/
def emulate_instructions (config : CONFIG_T) (rand_value : Nat) (chip8 : CHIP_8) :
    Except Undefined CHIP_8 :=
  match fetch_decode chip8 with
  | .error e => .error e
  | .ok chip8 => execute config rand_value chip8

/-- The loop `for (...) emulate_instructions(&chip8, config);` of `main`, for `n`
iterations; `rand_values k` is what `rand()` returns in iteration `k`. -/
def emulate_cycles (config : CONFIG_T) (rand_values : Nat → Nat) :
    Nat → CHIP_8 → Except Undefined CHIP_8
  | 0, chip8 => .ok chip8
  | n + 1, chip8 =>
    match emulate_instructions config (rand_values 0) chip8 with
    | .error e => .error e
    | .ok chip8 => emulate_cycles config (fun k => rand_values (k + 1)) n chip8

/-! ## Statements about machine states -/

/-- Memory holds the two bytes `b0 b1` of an instruction at the program counter,
both inside `ram`. -/
def holds_instruction (chip8 : CHIP_8) (b0 b1 : Nat) : Prop :=
  chip8.PC + 1 < 4096 ∧ chip8.ram chip8.PC = b0 ∧ chip8.ram (chip8.PC + 1) = b1

instance (chip8 : CHIP_8) (b0 b1 : Nat) : Decidable (holds_instruction chip8 b0 b1) := by
  unfold holds_instruction
  infer_instance

/-- Every data register holds a value of its type `uint8_t`. -/
def registers_in_range (chip8 : CHIP_8) : Prop :=
  ∀ r, chip8.V r < 256

/-- A machine at the entry point with everything else zero: the `CHIP_8 chip8 = {}`
of `main` after the defaults of `init_chip8`, with `ram` still empty. -/
def blank : CHIP_8 :=
  { state := .RUNNING
    ram := fun _ => 0
    display := fun _ => false
    stack := fun _ => 0
    stack_ptr := 0
    V := fun _ => 0
    I := 0
    PC := 0x200
    delay_timer := 0
    keypad := fun _ => false
    inst := ⟨0, 0, 0, 0, 0, 0⟩
    anykey_pressed := false
    key := 0xFF }

/-- Writes the two bytes of an opcode into `ram` at `addr`, big-endian. -/
def with_opcode (chip8 : CHIP_8) (addr opcode : Nat) : CHIP_8 :=
  { chip8 with ram := store (store chip8.ram addr (opcode / 256)) (addr + 1) (opcode % 256) }

/-- Example machine for ADD and SUB: `8AB4` then `8AB5` style operands,
`V[10] = 200`, `V[11] = 100`. -/
def arith_example (opcode : Nat) : CHIP_8 :=
  { with_opcode blank 0x200 opcode with
    V := fun r => if r = 10 then 200 else if r = 11 then 100 else 0 }
/-- Example machine for store-bcd: `FA33` at the entry point, `V[10] = 215`,
`I = 0x300`. -/
def bcd_example : CHIP_8 :=
  { with_opcode blank 0x200 0xFA33 with
    V := fun r => if r = 10 then 215 else 0
    I := 0x300 }
/-- Example machine for call and return: `2300` at the entry point and `00EE` at
`0x300`. -/
def call_return_example : CHIP_8 :=
  with_opcode (with_opcode blank 0x200 0x2300) 0x300 0x00EE

/-- Example machine whose every byte of `ram` is `byte`. -/
def filled (byte pc : Nat) : CHIP_8 :=
  { blank with ram := fun _ => byte, PC := pc }
/-- Example machine for register dump and load: `F355` at the entry point, `F365`
right after it, `I = 0x300`, and `V[r] = 10 * r + 7`. -/
def dump_load_example : CHIP_8 :=
  { with_opcode (with_opcode blank 0x200 0xF355) 0x202 0xF365 with
    V := fun r => 10 * r + 7
    I := 0x300 }

/-- The machine right after the fetch and decode of the instruction with nibbles
`op X Y N`: the program counter advanced and `inst` filled in. -/
def fetched (chip8 : CHIP_8) (op X Y N : Nat) : CHIP_8 :=
  { chip8 with
    PC := chip8.PC + 2
    inst := { opcode := op * 4096 + X * 256 + Y * 16 + N
              NNN := X * 256 + Y * 16 + N
              NN := Y * 16 + N
              N := N
              X := X
              Y := Y } }
/-! ## Description of a sprite draw -/

/-- Bit `j` of a sprite byte, as `0xDXYN` tests it: `sprite_data & (1 << j)`. -/
def sprite_bit (sprite_data j : Nat) : Bool :=
  decide (sprite_data &&& (1 <<< j) ≠ 0)

/-- The cell `index` alone, when `b` is set. -/
def pixel_mask (index : Nat) (b : Bool) (i : Nat) : Bool :=
  decide (i = index) && b

/-- Cells of row `Y_coord` that the last `k` bits of a sprite byte flip when the first of
them lands on column `X_coord`, on the 64-wide display. -/
def row_mask (sprite_data Y_coord k X_coord i : Nat) : Bool :=
  decide (i / 64 = Y_coord ∧ X_coord ≤ i % 64 ∧ i % 64 < X_coord + k) &&
    sprite_bit sprite_data (k - 1 - (i % 64 - X_coord))

/-- Cells that `n` sprite rows flip, the first of them being byte `ram[I + row]` drawn on
display row `Y_coord` from column `orig_X`, on the 64 by 32 display: cell `i` lies at
column `i % 64` of row `i / 64`. -/
def rows_mask (ram : Nat → Nat) (I orig_X n row Y_coord i : Nat) : Bool :=
  decide (Y_coord ≤ i / 64 ∧ i / 64 < Y_coord + n ∧ i / 64 < 32 ∧
      orig_X ≤ i % 64 ∧ i % 64 < orig_X + 8) &&
    sprite_bit (ram (I + row + (i / 64 - Y_coord))) (7 - (i % 64 - orig_X))

/-- The effect of XOR-ing the cells of `mask` into the display: `t` is `s` with the
display flipped on `mask`, and with `V[15]` set to 1 exactly when a lit cell lies in
`mask`; nothing else differs. -/
structure Blit (s t : CHIP_8) (mask : Nat → Bool) : Prop where
  frame : t = { s with display := t.display, V := t.V }
  display : ∀ i, t.display i = xor (s.display i) (mask i)
  hit : (∃ i, s.display i = true ∧ mask i = true) → t.V = store s.V 0xF 1
  miss : (¬ ∃ i, s.display i = true ∧ mask i = true) → t.V = s.V
/-- Cells that the instruction `DXYN` flips when executed on `chip8`: the sprite is the
`N` bytes from `ram[I]` on, its top-left corner the cell at column `V[X] % 64` of row
`V[Y] % 32`; what passes the right or the bottom edge is left out. -/
def sprite_cells (chip8 : CHIP_8) (X Y N : Nat) (i : Nat) : Bool :=
  rows_mask chip8.ram chip8.I (chip8.V X % 64) N 0 (chip8.V Y % 32) i

/-- Example machine for draw-sprite: `D012` at `0x200` and again at `0x202`, the sprite
bytes `F0 90` at `I = 0x300`, `V[0] = 62`, `V[1] = 31` (so the sprite is clipped at both
edges) and the single cell at column 62 of row 31 lit. -/
def draw_example : CHIP_8 :=
  { with_opcode (with_opcode (with_opcode blank 0x200 0xD012) 0x202 0xD012) 0x300 0xF090 with
    V := fun r => if r = 0 then 62 else if r = 1 then 31 else 0
    I := 0x300
    display := fun i => decide (i = 2046) }
/-- Example machine for the skip instructions: the given opcode at the entry point,
`V[2] = 7`, `V[3] = 7`, `V[4] = 9`. -/
def skip_example (opcode : Nat) : CHIP_8 :=
  { with_opcode blank 0x200 opcode with
    V := fun r => if r = 2 then 7 else if r = 3 then 7 else if r = 4 then 9 else 0 }
/-- Example machine for the key instructions: the given opcode at the entry point,
`V[3] = key_register`, and exactly the key 5 held down; the two `static` locals of `0xFX0A`
have their initial values. -/
def key_example (opcode key_register : Nat) : CHIP_8 :=
  { with_opcode blank 0x200 opcode with
    V := fun r => if r = 3 then key_register else 0
    keypad := fun k => decide (k = 5) }
/-- Example machine for await-key with no key held: `F30A` at the entry point and the two
`static` locals of `0xFX0A` at their initial values. -/
def await_idle_example : CHIP_8 :=
  with_opcode blank 0x200 0xF30A
/-- Example machine with the given opcode at the entry point and the first framebuffer
cell lit. -/
def lit_example (opcode : Nat) : CHIP_8 :=
  { with_opcode blank 0x200 opcode with display := fun i => decide (i = 0) }
/-! ## Machine construction -/

/-- The array `font` of `init_chip8`: 16 glyphs of 5 bytes. -/
def font : List Nat :=
  [0xF0, 0x90, 0x90, 0x90, 0xF0,
   0x20, 0x60, 0x20, 0x20, 0x70,
   0xF0, 0x10, 0xF0, 0x80, 0xF0,
   0xF0, 0x10, 0xF0, 0x10, 0xF0,
   0x90, 0x90, 0xF0, 0x10, 0x10,
   0xF0, 0x80, 0xF0, 0x10, 0xF0,
   0xF0, 0x80, 0xF0, 0x90, 0xF0,
   0xF0, 0x10, 0x20, 0x40, 0x40,
   0xF0, 0x90, 0xF0, 0x90, 0xF0,
   0xF0, 0x90, 0xF0, 0x10, 0xF0,
   0xF0, 0x90, 0xF0, 0x90, 0x90,
   0xE0, 0x90, 0xE0, 0x90, 0xE0,
   0xF0, 0x80, 0x80, 0x80, 0xF0,
   0xE0, 0x90, 0x90, 0x90, 0xE0,
   0xF0, 0x80, 0xF0, 0x80, 0xF0,
   0xF0, 0x80, 0xF0, 0x80, 0x80]

/-- Copy of `bytes` into `ram` from address `dst` on (`memcpy`, and the transfer of
`fread`). -/
def copy_bytes (ram : Nat → Nat) (dst : Nat) (bytes : List Nat) : Nat → Nat :=
  fun a => if dst ≤ a ∧ a < dst + bytes.length then bytes.getD (a - dst) 0 else ram a

/-- Return value of the C library call `fread(buffer, size, nmemb, stream)` on a stream
with `available` bytes left: the number of complete elements read, which is zero when
`size` or `nmemb` is zero. -/
def fread_count (size nmemb available : Nat) : Nat :=
  if size = 0 ∨ nmemb = 0 then 0 else min nmemb (available / size)

/-- The function `init_chip8`.  `rom` is what `fopen(rom_name, "rb")` finds: `none` when
the file cannot be opened, otherwise the bytes of the file.  The result pairs the returned
`bool` with the machine as the call leaves it. -/
def init_chip8 (chip8 : CHIP_8) (rom : Option (List Nat)) : Bool × CHIP_8 :=
  let entry_point := 0x200
  let chip8 := { chip8 with ram := copy_bytes chip8.ram 0 font }
  match rom with
  | none => (false, chip8)
  | some image =>
    let rom_size := image.length
    let max_size := 4096 - entry_point
    if rom_size > max_size then (false, chip8)
    else
      let count := fread_count rom_size 1 image.length
      let chip8 :=
        { chip8 with
          ram := copy_bytes chip8.ram entry_point (image.take (count * rom_size)) }
      if count ≠ 1 then (false, chip8)
      else (true, { chip8 with state := .RUNNING, PC := entry_point, stack_ptr := 0 })
/-- Example machine with the index register at the last byte of `ram`: the given opcode
at the entry point, `I = 4095`, all registers zero. -/
def edge_example (opcode : Nat) : CHIP_8 :=
  { with_opcode blank 0x200 opcode with I := 4095 }
/-- Example machine for the font region: the machine `init_chip8` returns for a program
image of the two bytes `F0 55` (register dump of `V[0]`), so `I = 0` and `V[0] = 0`. -/
def font_example : CHIP_8 :=
  (init_chip8 blank (some [0xF0, 0x55])).2
/-- Whether an outcome is an access to `ram` outside its 4096 bytes. -/
def ram_fault : Except Undefined CHIP_8 → Bool
  | .error (.ram_read _) => true
  | .error (.ram_write _) => true
  | _ => false
/-- Example machine for the fetch: the jump `1FFF` at the entry point, which sets the
program counter to the last byte of `ram`. -/
def jump_example : CHIP_8 :=
  with_opcode blank 0x200 0x1FFF
/-! ## Host input and the loop of `main` -/

/-- The key symbols `handle_input` distinguishes; `other` stands for every other value of
`event.key.keysym.sym`. -/
inductive SDL_Keycode where
  | SDLK_ESCAPE
  | SDLK_SPACE
  | SDLK_1
  | SDLK_2
  | SDLK_3
  | SDLK_4
  | SDLK_q
  | SDLK_w
  | SDLK_e
  | SDLK_r
  | SDLK_a
  | SDLK_s
  | SDLK_d
  | SDLK_f
  | SDLK_z
  | SDLK_x
  | SDLK_c
  | SDLK_v
  | other
  deriving DecidableEq, Repr

/-- The events `handle_input` distinguishes by `event.type`; `other` stands for every other
event type. -/
inductive SDL_Event where
  | SDL_QUIT
  | SDL_KEYDOWN (sym : SDL_Keycode)
  | SDL_KEYUP (sym : SDL_Keycode)
  | other
  deriving DecidableEq, Repr

/-- The keypad entry the `switch (event.key.keysym.sym)` of `handle_input` maps a key
symbol to, if any. -/
def keypad_index : SDL_Keycode → Option Nat
  | .SDLK_1 => some 0x1
  | .SDLK_2 => some 0x2
  | .SDLK_3 => some 0x3
  | .SDLK_4 => some 0xC
  | .SDLK_q => some 0x4
  | .SDLK_w => some 0x5
  | .SDLK_e => some 0x6
  | .SDLK_r => some 0xD
  | .SDLK_a => some 0x7
  | .SDLK_s => some 0x8
  | .SDLK_d => some 0x9
  | .SDLK_f => some 0xE
  | .SDLK_z => some 0xA
  | .SDLK_x => some 0x0
  | .SDLK_c => some 0xB
  | .SDLK_v => some 0xF
  | _ => none

/-- Body of the loop `while (SDL_PollEvent(&event))` of `handle_input`, for one event. -/
def handle_event (chip8 : CHIP_8) : SDL_Event → CHIP_8
  | .SDL_QUIT => { chip8 with state := .QUIT }
  | .SDL_KEYDOWN .SDLK_ESCAPE => { chip8 with state := .QUIT }
  | .SDL_KEYDOWN .SDLK_SPACE =>
    if chip8.state = .RUNNING then { chip8 with state := .PAUSED }
    else { chip8 with state := .RUNNING }
  | .SDL_KEYDOWN sym =>
    match keypad_index sym with
    | some k => { chip8 with keypad := store chip8.keypad k true }
    | none => chip8
  | .SDL_KEYUP sym =>
    match keypad_index sym with
    | some k => { chip8 with keypad := store chip8.keypad k false }
    | none => chip8
  | .other => chip8

/-- The function `handle_input`; `events` is what `SDL_PollEvent` delivers, in order,
until it returns zero. -/
def handle_input (chip8 : CHIP_8) (events : List SDL_Event) : CHIP_8 :=
  events.foldl handle_event chip8

/-- One pass through the body of the loop `while (chip8.state != QUIT)` of `main`, as far
as the machine is concerned: `events` are the events pending at `handle_input`, and
`rand_values k` is what `rand()` returns in the `k`-th call of `emulate_instructions`.
The timing and the calls `clear_screen` and `update_screen`, which take the machine by
value, are left out. -/
def main_loop_body (config : CONFIG_T) (events : List SDL_Event) (rand_values : Nat → Nat)
    (chip8 : CHIP_8) : Except Undefined CHIP_8 :=
  let chip8 := handle_input chip8 events
  if chip8.state = .PAUSED then .ok chip8
  else
    match emulate_cycles config rand_values (config.clock_rate / 60) chip8 with
    | .error e => .error e
    | .ok chip8 => .ok (update_timers chip8)

/-- The loop `while (chip8.state != QUIT)` of `main`, run until it exits or until the
given list of per-pass inputs is used up. -/
def main_loop (config : CONFIG_T) :
    List (List SDL_Event × (Nat → Nat)) → CHIP_8 → Except Undefined CHIP_8
  | [], chip8 => .ok chip8
  | pass :: rest, chip8 =>
    if chip8.state = .QUIT then .ok chip8
    else
      match main_loop_body config pass.1 pass.2 chip8 with
      | .error e => .error e
      | .ok chip8 => main_loop config rest chip8

/-- The machine with `state` replaced. -/
def set_state (st : EMULATOR_STATE_T) (chip8 : CHIP_8) : CHIP_8 :=
  { chip8 with state := st }
/-- Example machine that is not running: `3207` at the entry point with `V[2] = 7`, in
the given state. -/
def stopped_example (st : EMULATOR_STATE_T) : CHIP_8 :=
  { skip_example 0x3207 with state := st }
/-- Example machine for the timer tick: the blank machine with the given delay timer. -/
def timer_example (ticks : Nat) : CHIP_8 :=
  { blank with delay_timer := ticks }
/-- Example machine for jump-plus-v0: `BFFF` at the entry point and `V[0] = 0xFF`. -/
def jump_v0_example : CHIP_8 :=
  { with_opcode blank 0x200 0xBFFF with V := fun r => if r = 0 then 0xFF else 0 }
/-- Example machine for the shifts and the bitwise operations: the given opcode at the
entry point, `V[10] = 0xC5`, `V[11] = 0xA3`, `V[15] = 0x5A`. -/
def logic_example (opcode : Nat) : CHIP_8 :=
  { with_opcode blank 0x200 opcode with
    V := fun r => if r = 10 then 0xC5 else if r = 11 then 0xA3 else if r = 15 then 0x5A else 0 }
/-- A configuration whose `current_ex` is not `CHIP8`: the default one with the integer
value 1 in that field. -/
def other_config : CONFIG_T :=
  { default_config with current_ex := 1 }
/-- Example machine for register load: `F165` at the entry point, the bytes `12 34` at
`I = 0x300`, `V[5] = 9`. -/
def load_example : CHIP_8 :=
  { with_opcode (with_opcode blank 0x200 0xF165) 0x300 0x1234 with
    V := fun r => if r = 5 then 9 else 0
    I := 0x300 }
/-- Reference definition of draw-sprite `DXYN`, after the specification: the bit that is
XOR-ed into the framebuffer cell at column `x` of row `y`.  With `x0 = V[X] mod 64` and
`y0 = V[Y] mod 32` it is bit `7 - (x - x0)` of `memory[I + (y - y0)]` when
`x0 ≤ x < min (x0 + 8) 64` and `y0 ≤ y < min (y0 + N) 32`, and false otherwise. -/
def reference_sprite_bit (chip8 : CHIP_8) (X Y N x y : Nat) : Bool :=
  let x0 := chip8.V X % 64
  let y0 := chip8.V Y % 32
  if x0 ≤ x ∧ x < min (x0 + 8) 64 ∧ y0 ≤ y ∧ y < min (y0 + N) 32 then
    (chip8.ram (chip8.I + (y - y0))).testBit (7 - (x - x0))
  else false

/-! ## Properties -/

/-! ## Decoding -/

theorem opcode_of_bytes (b0 b1 : Nat) (h0 : b0 < 256) (h1 : b1 < 256) :
    ((b0 <<< 8) ||| b1) % 65536 = b0 * 256 + b1 := by
  have h : b0 <<< 8 ||| b1 = 2 ^ 8 * b0 + b1 := by
    rw [Nat.mul_add_lt_is_or (by omega) b0, Nat.shiftLeft_eq, Nat.mul_comm]
  rw [h]; omega

theorem land_0FFF (n : Nat) : n &&& 0x0FFF = n % 4096 :=
  Nat.and_pow_two_sub_one_eq_mod n 12

theorem land_0FF (n : Nat) : n &&& 0x0FF = n % 256 :=
  Nat.and_pow_two_sub_one_eq_mod n 8

theorem land_0F (n : Nat) : n &&& 0x0F = n % 16 :=
  Nat.and_pow_two_sub_one_eq_mod n 4

theorem fetch_decode_eq (chip8 : CHIP_8) (op X Y N : Nat)
    (hop : op < 16) (hX : X < 16) (hY : Y < 16) (hN : N < 16)
    (h : holds_instruction chip8 (op * 16 + X) (Y * 16 + N)) :
    fetch_decode chip8 = .ok { chip8 with
      PC := chip8.PC + 2
      inst := { opcode := op * 4096 + X * 256 + Y * 16 + N
                NNN := X * 256 + Y * 16 + N
                NN := Y * 16 + N
                N := N
                X := X
                Y := Y } } := by
  obtain ⟨hpc, hb0, hb1⟩ := h
  have hpc0 : chip8.PC < 4096 := by omega
  have hop : ((chip8.ram chip8.PC <<< 8) ||| chip8.ram (chip8.PC + 1)) % 65536
      = op * 4096 + X * 256 + Y * 16 + N := by
    rw [opcode_of_bytes _ _ (by omega) (by omega), hb0, hb1]; omega
  simp only [fetch_decode, ram_read, hpc, hpc0, if_true, hop, land_0FFF, land_0FF, land_0F,
    Nat.shiftRight_eq_div_pow]
  congr 2
  · omega
  · congr 1 <;> omega

theorem opcode_family (op X Y N : Nat) (hop : op < 16) (hX : X < 16) (hY : Y < 16)
    (hN : N < 16) : ((op * 4096 + X * 256 + Y * 16 + N) >>> 12) &&& 0x0F = op := by
  rw [land_0F, Nat.shiftRight_eq_div_pow]; omega

theorem emulate_instructions_eq (config : CONFIG_T) (rand_value : Nat) (chip8 : CHIP_8)
    (op X Y N : Nat) (hop : op < 16) (hX : X < 16) (hY : Y < 16) (hN : N < 16)
    (h : holds_instruction chip8 (op * 16 + X) (Y * 16 + N)) :
    emulate_instructions config rand_value chip8 =
      execute config rand_value { chip8 with
        PC := chip8.PC + 2
        inst := { opcode := op * 4096 + X * 256 + Y * 16 + N
                  NNN := X * 256 + Y * 16 + N
                  NN := Y * 16 + N
                  N := N
                  X := X
                  Y := Y } } := by
  simp only [emulate_instructions, fetch_decode_eq chip8 op X Y N hop hX hY hN h]

@[simp] theorem store_same {α : Type} (a : Nat → α) (i : Nat) (v : α) : store a i v i = v := by
  simp [store]

theorem store_other {α : Type} (a : Nat → α) (i k : Nat) (v : α) (h : k ≠ i) :
    store a i v k = a k := by
  simp [store, h]

/-- C1: ADD (`8XY4`) sets `V[15]` to 1 when the unsigned sum of the old `V[X]` and old
`V[Y]` exceeds 255 and to 0 otherwise; when `X` is not 15, `V[X]` becomes the sum
modulo 256. -/
theorem C1_add_sets_carry_and_sum (config : CONFIG_T) (rand_value : Nat) (chip8 : CHIP_8)
    (X Y : Nat) (hX : X < 16) (hY : Y < 16) (hV : registers_in_range chip8)
    (h : holds_instruction chip8 (0x80 + X) (Y * 16 + 4)) :
    ∃ s, emulate_instructions config rand_value chip8 = .ok s ∧
      s.V 15 = (if chip8.V X + chip8.V Y > 255 then 1 else 0) ∧
      (X ≠ 15 → s.V X = (chip8.V X + chip8.V Y) % 256) := by
  have hx := hV X
  have hy := hV Y
  rw [emulate_instructions_eq config rand_value chip8 8 X Y 4 (by omega) hX hY (by omega) h]
  simp only [execute, opcode_family 8 X Y 4 (by omega) hX hY (by omega), execute_8]
  refine ⟨_, rfl, ?_, ?_⟩
  · simp only [store_same]
    rw [Nat.mod_eq_of_lt (by omega)]
  · intro hne
    simp only [store_other _ _ _ _ hne, store_same]

theorem arith_example_in_range (opcode : Nat) : registers_in_range (arith_example opcode) := by
  intro r
  simp only [arith_example]
  split_ifs <;> omega

/-- C1 witness: `200 + 100` overflows, so the flag is 1 and `V[10]` is 44. -/
theorem C1_add_sets_carry_and_sum_witness :
    ∃ s, emulate_instructions default_config 0 (arith_example 0x8AB4) = .ok s ∧
      s.V 15 = 1 ∧ s.V 10 = 44 := by
  obtain ⟨s, hs, hflag, hsum⟩ :=
    C1_add_sets_carry_and_sum default_config 0 (arith_example 0x8AB4) 10 11 (by decide)
      (by decide) (arith_example_in_range _) (by decide)
  exact ⟨s, hs, hflag, hsum (by decide)⟩

/-- C2: SUB (`8XY5`) sets `V[15]` to 1 exactly when no borrow occurs, that is when the
old `V[X]` is at least the old `V[Y]`, and to 0 otherwise; when `X` is not 15, `V[X]`
becomes the difference modulo 256. -/
theorem C2_sub_sets_no_borrow_and_difference (config : CONFIG_T) (rand_value : Nat)
    (chip8 : CHIP_8) (X Y : Nat) (hX : X < 16) (hY : Y < 16)
    (h : holds_instruction chip8 (0x80 + X) (Y * 16 + 5)) :
    ∃ s, emulate_instructions config rand_value chip8 = .ok s ∧
      (s.V 15 = 1 ↔ chip8.V X ≥ chip8.V Y) ∧
      (s.V 15 = if chip8.V X ≥ chip8.V Y then 1 else 0) ∧
      (X ≠ 15 → (s.V X : Int) = ((chip8.V X : Int) - (chip8.V Y : Int)) % 256) := by
  rw [emulate_instructions_eq config rand_value chip8 8 X Y 5 (by omega) hX hY (by omega) h]
  simp only [execute, opcode_family 8 X Y 5 (by omega) hX hY (by omega), execute_8]
  refine ⟨_, rfl, ?_, ?_, ?_⟩
  · simp only [store_same]
    split_ifs with hle
    · simp [hle]
    · simp [hle]
  · simp only [store_same, ge_iff_le]
  · intro hne
    simp only [store_other _ _ _ _ hne, store_same, to_u8]
    exact Int.toNat_of_nonneg (Int.emod_nonneg _ (by norm_num))

/-- C2 witness: `200 - 100` does not borrow, so the flag is 1 and `V[10]` is 100. -/
theorem C2_sub_sets_no_borrow_and_difference_witness :
    ∃ s, emulate_instructions default_config 0 (arith_example 0x8AB5) = .ok s ∧
      s.V 15 = 1 ∧ (s.V 10 : Int) = 100 := by
  obtain ⟨s, hs, _, hflag, hdiff⟩ :=
    C2_sub_sets_no_borrow_and_difference default_config 0 (arith_example 0x8AB5) 10 11
      (by decide) (by decide) (by decide)
  exact ⟨s, hs, hflag, hdiff (by decide)⟩

/-- C10: store-bcd (`FX33`) of a register value `v` writes `v / 100`, `(v / 10) % 10`
and `v % 10` to `ram[I]`, `ram[I + 1]`, `ram[I + 2]`; the three bytes are decimal digits
that recompose `v`, and no other byte of `ram` changes. -/
theorem C10_store_bcd_digits (config : CONFIG_T) (rand_value : Nat) (chip8 : CHIP_8)
    (X : Nat) (hX : X < 16) (hv : chip8.V X < 256) (hI : chip8.I + 2 ≤ 4095)
    (h : holds_instruction chip8 (0xF0 + X) 0x33) :
    ∃ s, emulate_instructions config rand_value chip8 = .ok s ∧
      s.ram chip8.I = chip8.V X / 100 ∧
      s.ram (chip8.I + 1) = (chip8.V X / 10) % 10 ∧
      s.ram (chip8.I + 2) = chip8.V X % 10 ∧
      100 * s.ram chip8.I + 10 * s.ram (chip8.I + 1) + s.ram (chip8.I + 2) = chip8.V X ∧
      s.ram chip8.I ≤ 9 ∧ s.ram (chip8.I + 1) ≤ 9 ∧ s.ram (chip8.I + 2) ≤ 9 ∧
      (∀ a, a ≠ chip8.I → a ≠ chip8.I + 1 → a ≠ chip8.I + 2 → s.ram a = chip8.ram a) := by
  rw [emulate_instructions_eq config rand_value chip8 15 X 3 3 (by omega) hX (by omega)
    (by omega) h]
  have h2 : chip8.I + 2 < 4096 := by omega
  have h1 : chip8.I + 1 < 4096 := by omega
  have h0 : chip8.I < 4096 := by omega
  simp only [execute, opcode_family 15 X 3 3 (by omega) hX (by omega) (by omega), execute_F,
    store_bcd, ram_write, h2, h1, h0, if_true]
  have e0 : store (store (store chip8.ram (chip8.I + 2) (chip8.V X % 10)) (chip8.I + 1)
      (chip8.V X / 10 % 10)) chip8.I (chip8.V X / 10 / 10) chip8.I = chip8.V X / 100 := by
    rw [store_same]; omega
  have e1 : store (store (store chip8.ram (chip8.I + 2) (chip8.V X % 10)) (chip8.I + 1)
      (chip8.V X / 10 % 10)) chip8.I (chip8.V X / 10 / 10) (chip8.I + 1)
      = chip8.V X / 10 % 10 := by
    rw [store_other _ _ _ _ (by omega), store_same]
  have e2 : store (store (store chip8.ram (chip8.I + 2) (chip8.V X % 10)) (chip8.I + 1)
      (chip8.V X / 10 % 10)) chip8.I (chip8.V X / 10 / 10) (chip8.I + 2)
      = chip8.V X % 10 := by
    rw [store_other _ _ _ _ (by omega), store_other _ _ _ _ (by omega), store_same]
  refine ⟨_, rfl, e0, e1, e2, ?_, ?_, ?_, ?_, ?_⟩
  · simp only [e0, e1, e2]; omega
  · simp only [e0]; omega
  · simp only [e1]; omega
  · simp only [e2]; omega
  · intro a ha0 ha1 ha2
    simp only [store_other _ _ _ _ ha0, store_other _ _ _ _ ha1, store_other _ _ _ _ ha2]

/-- C10 witness: the value 215 is stored as the digits 2, 1, 5. -/
theorem C10_store_bcd_digits_witness :
    ∃ s, emulate_instructions default_config 0 bcd_example = .ok s ∧
      s.ram 0x300 = 2 ∧ s.ram 0x301 = 1 ∧ s.ram 0x302 = 5 := by
  obtain ⟨s, hs, h0, h1, h2, _⟩ :=
    C10_store_bcd_digits default_config 0 bcd_example 10 (by decide) (by decide) (by decide)
      (by decide)
  exact ⟨s, hs, h0, h1, h2⟩

theorem emulate_instructions_eq_NNN (config : CONFIG_T) (rand_value : Nat) (chip8 : CHIP_8)
    (op NNN : Nat) (hop : op < 16) (hNNN : NNN < 4096)
    (h : holds_instruction chip8 (op * 16 + NNN / 256) (NNN % 256)) :
    emulate_instructions config rand_value chip8 =
      execute config rand_value { chip8 with
        PC := chip8.PC + 2
        inst := { opcode := op * 4096 + NNN
                  NNN := NNN
                  NN := NNN % 256
                  N := NNN % 16
                  X := NNN / 256
                  Y := NNN % 256 / 16 } } := by
  have e : NNN % 256 = NNN % 256 / 16 * 16 + NNN % 16 := by omega
  have h2 : holds_instruction chip8 (op * 16 + NNN / 256) (NNN % 256 / 16 * 16 + NNN % 16) := by
    rw [← e]; exact h
  rw [emulate_instructions_eq config rand_value chip8 op (NNN / 256) (NNN % 256 / 16) (NNN % 16)
    hop (by omega) (by omega) (by omega) h2]
  have e1 : NNN / 256 * 256 + NNN % 256 / 16 * 16 + NNN % 16 = NNN := by omega
  have e2 : op * 4096 + NNN / 256 * 256 + NNN % 256 / 16 * 16 + NNN % 16 = op * 4096 + NNN := by
    omega
  rw [← e, e1, e2]

theorem opcode_family_NNN (op NNN : Nat) (hop : op < 16) (hNNN : NNN < 4096) :
    ((op * 4096 + NNN) >>> 12) &&& 0x0F = op := by
  rw [land_0F, Nat.shiftRight_eq_div_pow]; omega

/-- One call instruction `2NNN` executed with fewer than 12 stack entries: the return
address is pushed at the slot the stack pointer names and control moves to `NNN`. -/
theorem call_step (config : CONFIG_T) (rand_value : Nat) (chip8 : CHIP_8) (NNN : Nat)
    (hNNN : NNN < 4096) (hsp : chip8.stack_ptr < 12)
    (h : holds_instruction chip8 (0x20 + NNN / 256) (NNN % 256)) :
    emulate_instructions config rand_value chip8 =
      .ok { chip8 with
        stack := store chip8.stack chip8.stack_ptr (chip8.PC + 2)
        stack_ptr := chip8.stack_ptr + 1
        PC := NNN
        inst := { opcode := 2 * 4096 + NNN
                  NNN := NNN
                  NN := NNN % 256
                  N := NNN % 16
                  X := NNN / 256
                  Y := NNN % 256 / 16 } } := by
  rw [emulate_instructions_eq_NNN config rand_value chip8 2 NNN (by omega) hNNN h]
  simp only [execute, opcode_family_NNN 2 NNN (by omega) hNNN, hsp, if_true]

/-- The return case of `execute`, for a decoded instruction of family 0 with
`NN = 0xEE`. -/
theorem execute_return (config : CONFIG_T) (rand_value : Nat) (chip8 : CHIP_8)
    (hfam : (chip8.inst.opcode >>> 12) &&& 0x0F = 0) (hNN : chip8.inst.NN = 0xEE) :
    execute config rand_value chip8 =
      if chip8.stack_ptr = 0 then .error (.stack_read (-1))
      else if chip8.stack_ptr - 1 < 12 then
        .ok { chip8 with stack_ptr := chip8.stack_ptr - 1
                         PC := chip8.stack (chip8.stack_ptr - 1) }
      else .error (.stack_read ((chip8.stack_ptr : Int) - 1)) := by
  unfold execute
  rw [hfam]
  simp only [hNN]
  rfl

/-- One cycle on a return instruction, the literal kept symbolic (`NNN = 0xEE`). -/
theorem return_cycle (config : CONFIG_T) (rand_value : Nat) (chip8 : CHIP_8) (NNN : Nat)
    (hN : NNN = 0xEE) (h : holds_instruction chip8 (0 * 16 + NNN / 256) (NNN % 256)) :
    emulate_instructions config rand_value chip8 =
      if chip8.stack_ptr = 0 then .error (.stack_read (-1))
      else if chip8.stack_ptr - 1 < 12 then
        .ok { chip8 with
          stack_ptr := chip8.stack_ptr - 1
          PC := chip8.stack (chip8.stack_ptr - 1)
          inst := { opcode := 0 * 4096 + NNN
                    NNN := NNN
                    NN := NNN % 256
                    N := NNN % 16
                    X := NNN / 256
                    Y := NNN % 256 / 16 } }
      else .error (.stack_read ((chip8.stack_ptr : Int) - 1)) := by
  rw [emulate_instructions_eq_NNN config rand_value chip8 0 NNN (by omega) (by omega) h]
  refine (execute_return config rand_value _ ?_ ?_).trans rfl
  · exact opcode_family_NNN 0 NNN (by omega) (by omega)
  · show NNN % 256 = 0xEE
    omega

/-- One return instruction `00EE` executed with a non-empty stack of at most 12 entries:
the top entry becomes the program counter and the depth drops by one. -/
theorem return_step (config : CONFIG_T) (rand_value : Nat) (chip8 : CHIP_8)
    (hsp0 : 0 < chip8.stack_ptr) (hsp : chip8.stack_ptr ≤ 12)
    (h : holds_instruction chip8 0x00 0xEE) :
    ∃ s, emulate_instructions config rand_value chip8 = .ok s ∧
      s.stack_ptr = chip8.stack_ptr - 1 ∧ s.PC = chip8.stack (chip8.stack_ptr - 1) := by
  rw [return_cycle config rand_value chip8 0xEE rfl h, if_neg (by omega), if_pos (by omega)]
  exact ⟨_, rfl, rfl, rfl⟩

/-- A return `00EE` executed with the stack pointer at slot 0: the pre-decrement of
`*--chip8->stack_ptr` leaves the array. -/
theorem return_step_empty (config : CONFIG_T) (rand_value : Nat)
    (chip8 : CHIP_8) (hsp : chip8.stack_ptr = 0) (h : holds_instruction chip8 0x00 0xEE) :
    emulate_instructions config rand_value chip8 = .error (.stack_read (-1)) := by
  rw [return_cycle config rand_value chip8 0xEE rfl h, if_pos hsp]

/-- C6: with fewer than 12 stack entries, a call `2NNN` at the program counter followed by
the return `00EE` held at `NNN` leaves, after two engine cycles, the program counter at
the address right after the call and the stack depth as it was. -/
theorem C6_call_then_return (config : CONFIG_T) (rand_values : Nat → Nat) (chip8 : CHIP_8)
    (NNN : Nat) (hNNN : NNN < 4096) (hsp : chip8.stack_ptr < 12)
    (hcall : holds_instruction chip8 (0x20 + NNN / 256) (NNN % 256))
    (hret : NNN + 1 < 4096 ∧ chip8.ram NNN = 0x00 ∧ chip8.ram (NNN + 1) = 0xEE) :
    ∃ s, emulate_cycles config rand_values 2 chip8 = .ok s ∧
      s.PC = chip8.PC + 2 ∧ s.stack_ptr = chip8.stack_ptr := by
  obtain ⟨s1, hs1, hpc, hram, hsp1, hstk⟩ :
      ∃ s1, emulate_instructions config (rand_values 0) chip8 = .ok s1 ∧ s1.PC = NNN ∧
        s1.ram = chip8.ram ∧ s1.stack_ptr = chip8.stack_ptr + 1 ∧
        s1.stack chip8.stack_ptr = chip8.PC + 2 :=
    ⟨_, call_step config _ chip8 NNN hNNN hsp hcall, rfl, rfl, rfl, by simp⟩
  have hret1 : holds_instruction s1 0x00 0xEE := by
    unfold holds_instruction
    rw [hpc, hram]
    exact hret
  obtain ⟨s2, hs2, hsp2, hpc2⟩ :=
    return_step config (rand_values 1) s1 (by omega) (by omega) hret1
  refine ⟨s2, ?_, ?_, ?_⟩
  · simp only [emulate_cycles, hs1, hs2]
  · rw [hpc2, hsp1, Nat.add_sub_cancel, hstk]
  · rw [hsp2, hsp1, Nat.add_sub_cancel]

/-- C6 witness: `2300` at `0x200`, `00EE` at `0x300`; two cycles end at `0x202` with an
empty stack. -/
theorem C6_call_then_return_witness :
    ∃ s, emulate_cycles default_config (fun _ => 0) 2 call_return_example = .ok s ∧
      s.PC = 0x202 ∧ s.stack_ptr = 0 :=
  C6_call_then_return default_config (fun _ => 0) call_return_example 0x300 (by decide)
    (by decide) (by decide) (by decide)

/-- One call instruction `2NNN` executed with 12 or more stack entries: the source makes
no capacity check, and the push `*chip8->stack_ptr++ = chip8->PC` addresses the slot the
stack pointer names, outside the 12-slot array. -/
theorem call_step_full (config : CONFIG_T) (rand_value : Nat) (chip8 : CHIP_8) (NNN : Nat)
    (hNNN : NNN < 4096) (hsp : 12 ≤ chip8.stack_ptr)
    (h : holds_instruction chip8 (0x20 + NNN / 256) (NNN % 256)) :
    emulate_instructions config rand_value chip8 = .error (.stack_write chip8.stack_ptr) := by
  rw [emulate_instructions_eq_NNN config rand_value chip8 2 NNN (by omega) hNNN h]
  have h1 : ¬ chip8.stack_ptr < 12 := by omega
  simp only [execute, opcode_family_NNN 2 NNN (by omega) hNNN, h1, if_false]

/-- A chain of call instructions: the instruction at `p k` is a call to `p (k + 1)`. -/
theorem calls_succeed (config : CONFIG_T) (ram0 : Nat → Nat) (p : Nat → Nat)
    (hchain : ∀ k, k ≤ 12 → p k + 1 < 4096 ∧ ram0 (p k) = 0x20 + p (k + 1) / 256 ∧
      ram0 (p k + 1) = p (k + 1) % 256 ∧ p (k + 1) < 4096) :
    ∀ (n : Nat) (rand_values : Nat → Nat) (chip8 : CHIP_8) (d : Nat), d + n ≤ 12 →
      chip8.ram = ram0 → chip8.stack_ptr = d → chip8.PC = p d →
      ∃ s, emulate_cycles config rand_values n chip8 = .ok s ∧ s.ram = ram0 ∧
        s.stack_ptr = d + n ∧ s.PC = p (d + n) ∧
        (∀ j, d ≤ j → j < d + n → s.stack j = p j + 2) ∧
        (∀ j, j < d → s.stack j = chip8.stack j) := by
  intro n
  induction n with
  | zero =>
    intro rand_values chip8 d _ hram hsp hpc
    exact ⟨chip8, rfl, hram, hsp, hpc, fun j h1 h2 => by omega, fun _ _ => rfl⟩
  | succ n ih =>
    intro rand_values chip8 d hd hram hsp hpc
    obtain ⟨h1, h2, h3, h4⟩ := hchain d (by omega)
    have hcall : holds_instruction chip8 (0x20 + p (d + 1) / 256) (p (d + 1) % 256) := by
      unfold holds_instruction
      rw [hpc, hram]
      exact ⟨h1, h2, h3⟩
    obtain ⟨s1, hs1, hram1, hsp1, hpc1, hstk1⟩ :
        ∃ s1, emulate_instructions config (rand_values 0) chip8 = .ok s1 ∧
          s1.ram = chip8.ram ∧ s1.stack_ptr = chip8.stack_ptr + 1 ∧ s1.PC = p (d + 1) ∧
          s1.stack = store chip8.stack chip8.stack_ptr (chip8.PC + 2) :=
      ⟨_, call_step config (rand_values 0) chip8 (p (d + 1)) h4 (by omega) hcall,
        rfl, rfl, rfl, rfl⟩
    simp only [emulate_cycles, hs1]
    obtain ⟨s, hs, hsram, hssp, hspc, hsnew, hsold⟩ :=
      ih (fun k => rand_values (k + 1)) s1 (d + 1) (by omega) (hram1.trans hram)
        (by omega) hpc1
    refine ⟨s, hs, hsram, by omega, ?_, ?_, ?_⟩
    · rw [hspc]; congr 1; omega
    · intro j hj1 hj2
      by_cases hjd : j = d
      · rw [hsold j (by omega), hjd, hstk1, hsp, store_same, hpc]
      · exact hsnew j (by omega) (by omega)
    · intro j hj
      rw [hsold j (by omega), hstk1, hsp]
      exact store_other _ _ _ _ (by omega)

theorem call_past_capacity (config : CONFIG_T) (ram0 : Nat → Nat) (p : Nat → Nat)
    (hchain : ∀ k, k ≤ 12 → p k + 1 < 4096 ∧ ram0 (p k) = 0x20 + p (k + 1) / 256 ∧
      ram0 (p k + 1) = p (k + 1) % 256 ∧ p (k + 1) < 4096) :
    ∀ (n : Nat) (rand_values : Nat → Nat) (chip8 : CHIP_8) (d : Nat), d + n = 12 →
      chip8.ram = ram0 → chip8.stack_ptr = d → chip8.PC = p d →
      emulate_cycles config rand_values (n + 1) chip8 = .error (.stack_write 12) := by
  intro n
  induction n with
  | zero =>
    intro rand_values chip8 d hd hram hsp hpc
    obtain ⟨h1, h2, h3, h4⟩ := hchain d (by omega)
    have hcall : holds_instruction chip8 (0x20 + p (d + 1) / 256) (p (d + 1) % 256) := by
      unfold holds_instruction
      rw [hpc, hram]
      exact ⟨h1, h2, h3⟩
    have hstep := call_step_full config (rand_values 0) chip8 (p (d + 1)) h4 (by omega) hcall
    have hd12 : chip8.stack_ptr = 12 := by omega
    simp only [emulate_cycles, hstep, hd12, Nat.cast_ofNat]
  | succ n ih =>
    intro rand_values chip8 d hd hram hsp hpc
    obtain ⟨h1, h2, h3, h4⟩ := hchain d (by omega)
    have hcall : holds_instruction chip8 (0x20 + p (d + 1) / 256) (p (d + 1) % 256) := by
      unfold holds_instruction
      rw [hpc, hram]
      exact ⟨h1, h2, h3⟩
    obtain ⟨s1, hs1, hram1, hsp1, hpc1⟩ :
        ∃ s1, emulate_instructions config (rand_values 0) chip8 = .ok s1 ∧
          s1.ram = chip8.ram ∧ s1.stack_ptr = chip8.stack_ptr + 1 ∧ s1.PC = p (d + 1) :=
      ⟨_, call_step config (rand_values 0) chip8 (p (d + 1)) h4 (by omega) hcall,
        rfl, rfl, rfl⟩
    rw [emulate_cycles]
    simp only [hs1]
    exact ih (fun k => rand_values (k + 1)) s1 (d + 1) (by omega) (hram1.trans hram)
      (by omega) hpc1

/-- C7 (amended): starting from an empty call stack, 12 nested calls all succeed, each
pushing its return address, and the depth reaches 12; the engine has no capacity check
and no overflow report, so a 13th call performs the same push at slot 12, outside the
12-slot stack. -/
theorem C7_twelve_calls_then_unchecked_push (config : CONFIG_T) (rand_values : Nat → Nat)
    (chip8 : CHIP_8) (p : Nat → Nat) (hsp : chip8.stack_ptr = 0) (hpc : chip8.PC = p 0)
    (hchain : ∀ k, k ≤ 12 → p k + 1 < 4096 ∧ chip8.ram (p k) = 0x20 + p (k + 1) / 256 ∧
      chip8.ram (p k + 1) = p (k + 1) % 256 ∧ p (k + 1) < 4096) :
    (∀ n, n ≤ 12 → ∃ s, emulate_cycles config rand_values n chip8 = .ok s ∧
      s.stack_ptr = n ∧ s.PC = p n ∧ ∀ j, j < n → s.stack j = p j + 2) ∧
    emulate_cycles config rand_values 13 chip8 = .error (.stack_write 12) := by
  constructor
  · intro n hn
    obtain ⟨s, hs, _, hssp, hspc, hstk, _⟩ :=
      calls_succeed config chip8.ram p hchain n rand_values chip8 0 (by omega) rfl hsp hpc
    refine ⟨s, hs, by omega, ?_, ?_⟩
    · rw [hspc]; congr 1; omega
    · intro j hj
      exact hstk j (by omega) (by omega)
  · exact call_past_capacity config chip8.ram p hchain 12 rand_values chip8 0 (by omega) rfl
      hsp hpc

/-- C7 witness: every byte is `0x23`, so every instruction is `2323`, a call to `0x323`. -/
theorem C7_twelve_calls_then_unchecked_push_witness :
    (∃ s, emulate_cycles default_config (fun _ => 0) 12 (filled 0x23 0x323) = .ok s ∧
      s.stack_ptr = 12 ∧ s.stack 11 = 0x325) ∧
    emulate_cycles default_config (fun _ => 0) 13 (filled 0x23 0x323)
      = .error (.stack_write 12) := by
  have h := C7_twelve_calls_then_unchecked_push default_config (fun _ => 0)
    (filled 0x23 0x323) (fun _ => 0x323) rfl rfl
    (fun _ _ => by
      show 0x323 + 1 < 4096 ∧ (0x23 : Nat) = 0x20 + 0x323 / 256 ∧
        (0x23 : Nat) = 0x323 % 256 ∧ 0x323 < 4096
      decide)
  obtain ⟨s, hs, hsp, _, hstk⟩ := h.1 12 (by decide)
  exact ⟨⟨s, hs, hsp, hstk 11 (by decide)⟩, h.2⟩

/-- C7 counterexample: in a memory filled with `0x22` every instruction is `2222`, a call
to `0x222`.  From the empty stack the 13th call is not rejected: the source executes its
push `*chip8->stack_ptr++ = chip8->PC` with the stack pointer at slot 12, a store outside
the 12-slot stack. -/
theorem C7_thirteenth_call_stores_outside_stack :
    emulate_cycles default_config (fun _ => 0) 13 (filled 0x22 0x222)
      = .error (.stack_write 12) :=
  call_past_capacity default_config (filled 0x22 0x222).ram (fun _ => 0x222)
    (fun _ _ => by
      show 0x222 + 1 < 4096 ∧ (0x22 : Nat) = 0x20 + 0x222 / 256 ∧
        (0x22 : Nat) = 0x222 % 256 ∧ 0x222 < 4096
      decide)
    12 (fun _ => 0) (filled 0x22 0x222) 0 rfl rfl rfl rfl

/-- C8 (amended): with an empty call stack a return `00EE` is not rejected: the engine
has no emptiness check and no underflow report, and its pop `*--chip8->stack_ptr` reads
slot -1, below the 12-slot stack, to load the program counter. -/
theorem C8_return_on_empty_stack_reads_below (config : CONFIG_T) (rand_value : Nat)
    (chip8 : CHIP_8) (hsp : chip8.stack_ptr = 0) (h : holds_instruction chip8 0x00 0xEE) :
    emulate_instructions config rand_value chip8 = .error (.stack_read (-1)) :=
  return_step_empty config rand_value chip8 hsp h

/-- C8 witness: `00EE` at `0x400` with an empty stack. -/
theorem C8_return_on_empty_stack_reads_below_witness :
    emulate_instructions default_config 0 (with_opcode (filled 0 0x400) 0x400 0x00EE)
      = .error (.stack_read (-1)) :=
  C8_return_on_empty_stack_reads_below default_config 0
    (with_opcode (filled 0 0x400) 0x400 0x00EE) rfl (by decide)

/-- C8 counterexample: `00EE` at the entry point of a machine with an empty stack.  The
source executes `chip8->PC = *--chip8->stack_ptr`, which loads the program counter from
slot -1, outside the stack, and reports nothing. -/
theorem C8_return_on_empty_stack_loads_outside :
    emulate_instructions default_config 0 (with_opcode blank 0x200 0x00EE)
      = .error (.stack_read (-1)) :=
  return_step_empty default_config 0 (with_opcode blank 0x200 0x00EE) rfl (by decide)

/-! ## Register dump and load -/

theorem execute_family_F (config : CONFIG_T) (rand_value : Nat) (chip8 : CHIP_8)
    (hfam : (chip8.inst.opcode >>> 12) &&& 0x0F = 0xF) :
    execute config rand_value chip8 = execute_F config chip8 := by
  unfold execute
  rw [hfam]

theorem execute_F_dump (config : CONFIG_T) (chip8 : CHIP_8) (hNN : chip8.inst.NN = 0x55) :
    execute_F config chip8 = register_dump config (chip8.inst.X + 1) 0 chip8 := by
  unfold execute_F
  rw [hNN]

theorem execute_F_load (config : CONFIG_T) (chip8 : CHIP_8) (hNN : chip8.inst.NN = 0x65) :
    execute_F config chip8 = register_load config (chip8.inst.X + 1) 0 chip8 := by
  unfold execute_F
  rw [hNN]

/-- The dump loop under the `CHIP8` setting: `n` registers from `V[i]` on go to
`ram[I]`, `ram[I + 1]`, ... and `I` advances by `n`. -/
theorem register_dump_chip8 (config : CONFIG_T) (hex : config.current_ex = CHIP8) :
    ∀ (n i : Nat) (chip8 : CHIP_8), chip8.I + n ≤ 4096 →
      ∃ s, register_dump config n i chip8 = .ok s ∧ s.V = chip8.V ∧ s.I = chip8.I + n ∧
        s.PC = chip8.PC ∧
        (∀ t, t < n → s.ram (chip8.I + t) = chip8.V (i + t)) ∧
        (∀ a, (a < chip8.I ∨ chip8.I + n ≤ a) → s.ram a = chip8.ram a) := by
  intro n
  induction n with
  | zero =>
    intro i chip8 _
    exact ⟨chip8, rfl, rfl, rfl, rfl, fun t ht => by omega, fun _ _ => rfl⟩
  | succ n ih =>
    intro i chip8 hI
    have h0 : chip8.I < 4096 := by omega
    obtain ⟨s, hs, hV, hsI, hPC, hnew, hold⟩ := ih (i + 1)
      { chip8 with ram := store chip8.ram chip8.I (chip8.V i), I := (chip8.I + 1) % 65536 }
      (by show (chip8.I + 1) % 65536 + n ≤ 4096; omega)
    have hmod : (chip8.I + 1) % 65536 = chip8.I + 1 := by omega
    simp only [hmod] at hs hsI hnew hold
    refine ⟨s, ?_, hV, by omega, hPC, ?_, ?_⟩
    · simp only [register_dump, hex, if_true, ram_write, h0, hmod]
      exact hs
    · intro t ht
      by_cases ht0 : t = 0
      · subst ht0
        simp only [Nat.add_zero]
        rw [hold chip8.I (Or.inl (by omega))]
        exact store_same _ _ _
      · have := hnew (t - 1) (by omega)
        rw [show chip8.I + 1 + (t - 1) = chip8.I + t by omega,
          show i + 1 + (t - 1) = i + t by omega] at this
        exact this
    · intro a ha
      rw [hold a (by omega)]
      exact store_other _ _ _ _ (by omega)

/-- The dump loop under any other setting: `n` registers from `V[i]` on go to
`ram[I + i]`, `ram[I + i + 1]`, ... and `I` stays. -/
theorem register_dump_other (config : CONFIG_T) (hex : config.current_ex ≠ CHIP8) :
    ∀ (n i : Nat) (chip8 : CHIP_8), chip8.I + i + n ≤ 4096 →
      ∃ s, register_dump config n i chip8 = .ok s ∧ s.V = chip8.V ∧ s.I = chip8.I ∧
        s.PC = chip8.PC ∧
        (∀ t, t < n → s.ram (chip8.I + i + t) = chip8.V (i + t)) ∧
        (∀ a, (a < chip8.I + i ∨ chip8.I + i + n ≤ a) → s.ram a = chip8.ram a) := by
  intro n
  induction n with
  | zero =>
    intro i chip8 _
    exact ⟨chip8, rfl, rfl, rfl, rfl, fun t ht => by omega, fun _ _ => rfl⟩
  | succ n ih =>
    intro i chip8 hI
    have h0 : chip8.I + i < 4096 := by omega
    obtain ⟨s, hs, hV, hsI, hPC, hnew, hold⟩ := ih (i + 1)
      { chip8 with ram := store chip8.ram (chip8.I + i) (chip8.V i) }
      (by show chip8.I + (i + 1) + n ≤ 4096; omega)
    simp only [] at hs hsI hnew hold
    refine ⟨s, ?_, hV, hsI, hPC, ?_, ?_⟩
    · simp only [register_dump, hex, if_false, ram_write, h0, if_true]
      exact hs
    · intro t ht
      by_cases ht0 : t = 0
      · subst ht0
        simp only [Nat.add_zero]
        rw [hold (chip8.I + i) (Or.inl (by omega))]
        exact store_same _ _ _
      · have := hnew (t - 1) (by omega)
        rw [show chip8.I + (i + 1) + (t - 1) = chip8.I + i + t by omega,
          show i + 1 + (t - 1) = i + t by omega] at this
        exact this
    · intro a ha
      rw [hold a (by omega)]
      exact store_other _ _ _ _ (by omega)

/-- The load loop under the `CHIP8` setting. -/
theorem register_load_chip8 (config : CONFIG_T) (hex : config.current_ex = CHIP8) :
    ∀ (n i : Nat) (chip8 : CHIP_8), chip8.I + n ≤ 4096 →
      ∃ s, register_load config n i chip8 = .ok s ∧ s.ram = chip8.ram ∧
        s.I = chip8.I + n ∧ s.PC = chip8.PC ∧
        (∀ t, t < n → s.V (i + t) = chip8.ram (chip8.I + t)) ∧
        (∀ r, (r < i ∨ i + n ≤ r) → s.V r = chip8.V r) := by
  intro n
  induction n with
  | zero =>
    intro i chip8 _
    exact ⟨chip8, rfl, rfl, rfl, rfl, fun t ht => by omega, fun _ _ => rfl⟩
  | succ n ih =>
    intro i chip8 hI
    have h0 : chip8.I < 4096 := by omega
    obtain ⟨s, hs, hram, hsI, hPC, hnew, hold⟩ := ih (i + 1)
      { chip8 with V := store chip8.V i (chip8.ram chip8.I), I := (chip8.I + 1) % 65536 }
      (by show (chip8.I + 1) % 65536 + n ≤ 4096; omega)
    have hmod : (chip8.I + 1) % 65536 = chip8.I + 1 := by omega
    simp only [hmod] at hs hsI hnew hold hram
    refine ⟨s, ?_, hram, by omega, hPC, ?_, ?_⟩
    · simp only [register_load, hex, if_true, ram_read, h0, hmod]
      exact hs
    · intro t ht
      by_cases ht0 : t = 0
      · subst ht0
        simp only [Nat.add_zero]
        rw [hold i (Or.inl (by omega))]
        exact store_same _ _ _
      · have := hnew (t - 1) (by omega)
        rw [show chip8.I + 1 + (t - 1) = chip8.I + t by omega,
          show i + 1 + (t - 1) = i + t by omega] at this
        exact this
    · intro r hr
      rw [hold r (by omega)]
      exact store_other _ _ _ _ (by omega)

/-- The load loop under any other setting. -/
theorem register_load_other (config : CONFIG_T) (hex : config.current_ex ≠ CHIP8) :
    ∀ (n i : Nat) (chip8 : CHIP_8), chip8.I + i + n ≤ 4096 →
      ∃ s, register_load config n i chip8 = .ok s ∧ s.ram = chip8.ram ∧
        s.I = chip8.I ∧ s.PC = chip8.PC ∧
        (∀ t, t < n → s.V (i + t) = chip8.ram (chip8.I + i + t)) ∧
        (∀ r, (r < i ∨ i + n ≤ r) → s.V r = chip8.V r) := by
  intro n
  induction n with
  | zero =>
    intro i chip8 _
    exact ⟨chip8, rfl, rfl, rfl, rfl, fun t ht => by omega, fun _ _ => rfl⟩
  | succ n ih =>
    intro i chip8 hI
    have h0 : chip8.I + i < 4096 := by omega
    obtain ⟨s, hs, hram, hsI, hPC, hnew, hold⟩ := ih (i + 1)
      { chip8 with V := store chip8.V i (chip8.ram (chip8.I + i)) }
      (by show chip8.I + (i + 1) + n ≤ 4096; omega)
    simp only [] at hs hsI hnew hold hram
    refine ⟨s, ?_, hram, hsI, hPC, ?_, ?_⟩
    · simp only [register_load, hex, if_false, ram_read, h0, if_true]
      exact hs
    · intro t ht
      by_cases ht0 : t = 0
      · subst ht0
        simp only [Nat.add_zero]
        rw [hold i (Or.inl (by omega))]
        exact store_same _ _ _
      · have := hnew (t - 1) (by omega)
        rw [show chip8.I + (i + 1) + (t - 1) = chip8.I + i + t by omega,
          show i + 1 + (t - 1) = i + t by omega] at this
        exact this
    · intro r hr
      rw [hold r (by omega)]
      exact store_other _ _ _ _ (by omega)

theorem emulate_instructions_fetched (config : CONFIG_T) (rand_value : Nat) (chip8 : CHIP_8)
    (op X Y N : Nat) (hop : op < 16) (hX : X < 16) (hY : Y < 16) (hN : N < 16)
    (h : holds_instruction chip8 (op * 16 + X) (Y * 16 + N)) :
    emulate_instructions config rand_value chip8 =
      execute config rand_value (fetched chip8 op X Y N) :=
  emulate_instructions_eq config rand_value chip8 op X Y N hop hX hY hN h

theorem fetched_family (chip8 : CHIP_8) (op X Y N : Nat) (hop : op < 16) (hX : X < 16)
    (hY : Y < 16) (hN : N < 16) :
    ((fetched chip8 op X Y N).inst.opcode >>> 12) &&& 0x0F = op :=
  opcode_family op X Y N hop hX hY hN


/-- One cycle on register-dump `FX55` with `I + X` inside `ram`. -/
theorem dump_cycle (config : CONFIG_T) (rand_value : Nat) (chip8 : CHIP_8) (X : Nat)
    (hX : X < 16) (hI : chip8.I + X ≤ 4095)
    (h : holds_instruction chip8 (0xF0 + X) 0x55) :
    ∃ s, emulate_instructions config rand_value chip8 = .ok s ∧ s.V = chip8.V ∧
      s.PC = chip8.PC + 2 ∧
      s.I = (if config.current_ex = CHIP8 then chip8.I + X + 1 else chip8.I) ∧
      (∀ t, t ≤ X → s.ram (chip8.I + t) = chip8.V t) ∧
      (∀ a, (a < chip8.I ∨ chip8.I + X < a) → s.ram a = chip8.ram a) := by
  rw [emulate_instructions_fetched config rand_value chip8 15 X 5 5 (by omega) hX (by omega)
      (by omega) h,
    execute_family_F config rand_value (fetched chip8 15 X 5 5)
      (fetched_family chip8 15 X 5 5 (by omega) hX (by omega) (by omega)),
    execute_F_dump config (fetched chip8 15 X 5 5) rfl]
  by_cases hex : config.current_ex = CHIP8
  · obtain ⟨s, hs, hV, hsI, hPC, hnew, hold⟩ := register_dump_chip8 config hex (X + 1) 0
      (fetched chip8 15 X 5 5)
      (by show chip8.I + (X + 1) ≤ 4096; omega)
    refine ⟨s, hs, hV, hPC, ?_, ?_, ?_⟩
    · rw [if_pos hex]; exact hsI
    · intro t ht
      have := hnew t (by omega)
      rw [Nat.zero_add] at this
      exact this
    · intro a ha
      exact hold a (by show a < chip8.I ∨ chip8.I + (X + 1) ≤ a; omega)
  · obtain ⟨s, hs, hV, hsI, hPC, hnew, hold⟩ := register_dump_other config hex (X + 1) 0
      (fetched chip8 15 X 5 5)
      (by show chip8.I + 0 + (X + 1) ≤ 4096; omega)
    refine ⟨s, hs, hV, hPC, ?_, ?_, ?_⟩
    · rw [if_neg hex]; exact hsI
    · intro t ht
      have := hnew t (by omega)
      rw [Nat.zero_add] at this
      exact this
    · intro a ha
      exact hold a (by show a < chip8.I + 0 ∨ chip8.I + 0 + (X + 1) ≤ a; omega)

/-- One cycle on register-load `FX65` with `I + X` inside `ram`. -/
theorem load_cycle (config : CONFIG_T) (rand_value : Nat) (chip8 : CHIP_8) (X : Nat)
    (hX : X < 16) (hI : chip8.I + X ≤ 4095)
    (h : holds_instruction chip8 (0xF0 + X) 0x65) :
    ∃ s, emulate_instructions config rand_value chip8 = .ok s ∧ s.ram = chip8.ram ∧
      s.PC = chip8.PC + 2 ∧
      s.I = (if config.current_ex = CHIP8 then chip8.I + X + 1 else chip8.I) ∧
      (∀ t, t ≤ X → s.V t = chip8.ram (chip8.I + t)) ∧
      (∀ r, X < r → s.V r = chip8.V r) := by
  rw [emulate_instructions_fetched config rand_value chip8 15 X 6 5 (by omega) hX (by omega)
      (by omega) h,
    execute_family_F config rand_value (fetched chip8 15 X 6 5)
      (fetched_family chip8 15 X 6 5 (by omega) hX (by omega) (by omega)),
    execute_F_load config (fetched chip8 15 X 6 5) rfl]
  by_cases hex : config.current_ex = CHIP8
  · obtain ⟨s, hs, hram, hsI, hPC, hnew, hold⟩ := register_load_chip8 config hex (X + 1) 0
      (fetched chip8 15 X 6 5)
      (by show chip8.I + (X + 1) ≤ 4096; omega)
    refine ⟨s, hs, hram, hPC, ?_, ?_, ?_⟩
    · rw [if_pos hex]; exact hsI
    · intro t ht
      have := hnew t (by omega)
      rw [Nat.zero_add] at this
      exact this
    · intro r hr
      exact hold r (by omega)
  · obtain ⟨s, hs, hram, hsI, hPC, hnew, hold⟩ := register_load_other config hex (X + 1) 0
      (fetched chip8 15 X 6 5)
      (by show chip8.I + 0 + (X + 1) ≤ 4096; omega)
    refine ⟨s, hs, hram, hPC, ?_, ?_, ?_⟩
    · rw [if_neg hex]; exact hsI
    · intro t ht
      have := hnew t (by omega)
      rw [Nat.zero_add, Nat.add_zero] at this
      exact this
    · intro r hr
      exact hold r (by omega)

/-- C9: under either setting of the variant, register-dump `FX55` executed with index `I`
(and `I + X` inside `ram`), followed by register-load `FX65` with the same `X` started
from the same index `I` on the memory the dump left, gives `V[0]..V[X]` the values they
had before the dump. -/
theorem C9_dump_then_load_restores (config : CONFIG_T) (rand_value : Nat) (chip8 : CHIP_8)
    (X : Nat) (hX : X < 16) (hI : chip8.I + X ≤ 4095)
    (h : holds_instruction chip8 (0xF0 + X) 0x55) :
    ∃ s1, emulate_instructions config rand_value chip8 = .ok s1 ∧
      s1.PC = chip8.PC + 2 ∧
      (∀ a, (a < chip8.I ∨ chip8.I + X < a) → s1.ram a = chip8.ram a) ∧
      ∀ (rand_value2 : Nat) (before_load : CHIP_8),
        before_load.ram = s1.ram → before_load.I = chip8.I →
        holds_instruction before_load (0xF0 + X) 0x65 →
        ∃ s2, emulate_instructions config rand_value2 before_load = .ok s2 ∧
          ∀ i, i ≤ X → s2.V i = chip8.V i := by
  obtain ⟨s1, hs1, _, hPC1, _, hnew1, hold1⟩ := dump_cycle config rand_value chip8 X hX hI h
  refine ⟨s1, hs1, hPC1, hold1, ?_⟩
  intro rand_value2 before_load hram hidx hload
  obtain ⟨s2, hs2, _, _, _, hnew2, _⟩ :=
    load_cycle config rand_value2 before_load X hX (by omega) hload
  refine ⟨s2, hs2, ?_⟩
  intro i hi
  rw [hnew2 i hi, hram, hidx, hnew1 i hi]

/-- C9 witness: under the default (`CHIP8`) setting, `F355` dumps `V[0..3]` at `0x300`;
with the index put back to `0x300`, the `F365` that follows loads the same values. -/
theorem C9_dump_then_load_restores_witness :
    ∃ s1 s2, emulate_instructions default_config 0 dump_load_example = .ok s1 ∧
      emulate_instructions default_config 0 { s1 with I := 0x300 } = .ok s2 ∧
      s2.V 0 = 7 ∧ s2.V 3 = 37 := by
  obtain ⟨s1, hs1, hPC, hframe, hload⟩ :=
    C9_dump_then_load_restores default_config 0 dump_load_example 3 (by decide) (by decide)
      (by decide)
  have hpc : s1.PC = 0x202 := hPC
  have h2 : s1.ram 0x202 = 0xF3 := hframe 0x202 (Or.inl (by decide))
  have h3 : s1.ram 0x203 = 0x65 := hframe 0x203 (Or.inl (by decide))
  have hh : holds_instruction { s1 with I := 0x300 } (0xF0 + 3) 0x65 := by
    show s1.PC + 1 < 4096 ∧ s1.ram s1.PC = 0xF0 + 3 ∧ s1.ram (s1.PC + 1) = 0x65
    rw [hpc]
    exact ⟨by decide, h2, h3⟩
  obtain ⟨s2, hs2, hV⟩ := hload 0 { s1 with I := 0x300 } rfl rfl hh
  exact ⟨s1, s2, hs1, hs2, hV 0 (by decide), hV 3 (by decide)⟩

/-! ## Sprite drawing -/

theorem store_store {α : Type} (a : Nat → α) (i : Nat) (v : α) :
    store (store a i v) i v = store a i v := by
  funext k
  by_cases h : k = i
  · subst h; simp only [store_same]
  · simp only [store_other _ _ _ _ h]

theorem Blit.none (s : CHIP_8) : Blit s s (fun _ => false) where
  frame := rfl
  display := fun i => by simp
  hit := fun ⟨i, _, h⟩ => by simp at h
  miss := fun _ => rfl

theorem Blit.congr {s t : CHIP_8} {m1 m2 : Nat → Bool} (h : Blit s t m1)
    (hm : ∀ i, m1 i = m2 i) : Blit s t m2 := by
  have : m1 = m2 := funext hm
  rw [← this]
  exact h

theorem Blit.comp {s t u : CHIP_8} {m1 m2 : Nat → Bool} (h1 : Blit s t m1) (h2 : Blit t u m2)
    (hdisj : ∀ i, m1 i = true → m2 i = false) :
    Blit s u (fun i => m1 i || m2 i) where
  frame := by
    have e1 := h1.frame
    have e2 := h2.frame
    rw [e2]
    rw [e1]
  display := fun i => by
    rw [h2.display i, h1.display i]
    cases hm1 : m1 i
    · simp
    · simp [hdisj i hm1]
  hit := by
    rintro ⟨i, hd, hm⟩
    by_cases hc1 : ∃ i, s.display i = true ∧ m1 i = true
    · have hV1 := h1.hit hc1
      by_cases hc2 : ∃ i, t.display i = true ∧ m2 i = true
      · rw [h2.hit hc2, hV1, store_store]
      · rw [h2.miss hc2, hV1]
    · have hV1 := h1.miss hc1
      have hm1 : m1 i = false := by
        cases hm1 : m1 i
        · rfl
        · exact absurd ⟨i, hd, hm1⟩ hc1
      have hm2 : m2 i = true := by simpa [hm1] using hm
      have hc2 : ∃ i, t.display i = true ∧ m2 i = true :=
        ⟨i, by rw [h1.display i, hm1, hd]; rfl, hm2⟩
      rw [h2.hit hc2, hV1]
  miss := by
    intro hc
    have hc1 : ¬ ∃ i, s.display i = true ∧ m1 i = true := by
      rintro ⟨i, hd, hm⟩
      exact hc ⟨i, hd, by simp [hm]⟩
    have hc2 : ¬ ∃ i, t.display i = true ∧ m2 i = true := by
      rintro ⟨i, hd, hm⟩
      have hm1 : m1 i = false := by
        cases hm1 : m1 i
        · rfl
        · have := hdisj i hm1
          rw [hm] at this
          cases this
      rw [h1.display i, hm1] at hd
      exact hc ⟨i, by simpa using hd, by simp [hm]⟩
    rw [h2.miss hc2, h1.miss hc1]

theorem row_mask_zero (sprite_data Y_coord X_coord i : Nat) :
    row_mask sprite_data Y_coord 0 X_coord i = false := by
  have h : ¬ (i / 64 = Y_coord ∧ X_coord ≤ i % 64 ∧ i % 64 < X_coord + 0) := by omega
  rw [row_mask, decide_eq_false h, Bool.false_and]

theorem row_mask_succ (sprite_data Y_coord k X_coord i : Nat) (hX : X_coord < 64) :
    row_mask sprite_data Y_coord (k + 1) X_coord i =
      (pixel_mask (Y_coord * 64 + X_coord) (sprite_bit sprite_data k) i ||
        row_mask sprite_data Y_coord k (X_coord + 1) i) := by
  by_cases h : i = Y_coord * 64 + X_coord
  · have h1 : i / 64 = Y_coord ∧ X_coord ≤ i % 64 ∧ i % 64 < X_coord + (k + 1) := by omega
    have h2 : ¬ (i / 64 = Y_coord ∧ X_coord + 1 ≤ i % 64 ∧ i % 64 < X_coord + 1 + k) := by
      omega
    have h3 : k + 1 - 1 - (i % 64 - X_coord) = k := by omega
    rw [row_mask, row_mask, pixel_mask, decide_eq_true h, decide_eq_true h1,
      decide_eq_false h2, h3]
    simp
  · by_cases hc : i / 64 = Y_coord ∧ X_coord + 1 ≤ i % 64 ∧ i % 64 < X_coord + 1 + k
    · have h1 : i / 64 = Y_coord ∧ X_coord ≤ i % 64 ∧ i % 64 < X_coord + (k + 1) := by omega
      have h3 : k + 1 - 1 - (i % 64 - X_coord) = k - 1 - (i % 64 - (X_coord + 1)) := by omega
      rw [row_mask, row_mask, pixel_mask, decide_eq_false h, decide_eq_true h1,
        decide_eq_true hc, h3]
      simp
    · have h1 : ¬ (i / 64 = Y_coord ∧ X_coord ≤ i % 64 ∧ i % 64 < X_coord + (k + 1)) := by
        omega
      rw [row_mask, row_mask, pixel_mask, decide_eq_false h, decide_eq_false h1,
        decide_eq_false hc]
      simp

theorem row_mask_last_column (sprite_data Y_coord k X_coord i : Nat) (hX : X_coord + 1 = 64) :
    row_mask sprite_data Y_coord k (X_coord + 1) i = false := by
  have h : ¬ (i / 64 = Y_coord ∧ X_coord + 1 ≤ i % 64 ∧ i % 64 < X_coord + 1 + k) := by omega
  rw [row_mask, decide_eq_false h, Bool.false_and]

theorem pixel_mask_eq_true {index i : Nat} {b : Bool} (h : pixel_mask index b i = true) :
    i = index ∧ b = true := by
  simpa [pixel_mask] using h

theorem pixel_row_disjoint (sprite_data Y_coord k X_coord i : Nat) (b : Bool)
    (h : pixel_mask (Y_coord * 64 + X_coord) b i = true) :
    row_mask sprite_data Y_coord k (X_coord + 1) i = false := by
  have hi : i = Y_coord * 64 + X_coord := (pixel_mask_eq_true h).1
  have h2 : ¬ (i / 64 = Y_coord ∧ X_coord + 1 ≤ i % 64 ∧ i % 64 < X_coord + 1 + k) := by
    omega
  rw [row_mask, decide_eq_false h2, Bool.false_and]

/-- One step of the row loop: the cell `index` receives the sprite bit `b`. -/
theorem Blit.pixel (s : CHIP_8) (index : Nat) (b : Bool) (s1 : CHIP_8)
    (hs1 : s1 = if b && s.display index then { s with V := store s.V 0xF 1 } else s) :
    Blit s { s1 with display := store s1.display index (xor (s.display index) b) }
      (pixel_mask index b) := by
  have hdisp : s1.display = s.display := by
    rw [hs1]; split <;> rfl
  have hframe : s1 = { s with V := s1.V } := by
    rw [hs1]; split <;> rfl
  refine ⟨?_, ?_, ?_, ?_⟩
  · show _ = { s with display := _, V := s1.V }
    rw [hframe]
  · intro i
    show store s1.display index (xor (s.display index) b) i = _
    rw [hdisp]
    by_cases h : i = index
    · subst h
      rw [store_same, pixel_mask, decide_eq_true rfl, Bool.true_and]
    · rw [store_other _ _ _ _ h, pixel_mask, decide_eq_false h, Bool.false_and, Bool.xor_false]
  · rintro ⟨i, hd, hm⟩
    obtain ⟨hi, hb⟩ := pixel_mask_eq_true hm
    subst hi
    show s1.V = _
    rw [hs1, hb, hd]
    rfl
  · intro hc
    show s1.V = _
    have hb : (b && s.display index) = false := by
      cases hb : (b && s.display index)
      · rfl
      · exfalso
        apply hc
        simp only [Bool.and_eq_true] at hb
        exact ⟨index, hb.2, by rw [pixel_mask, decide_eq_true rfl, hb.1]; rfl⟩
    rw [hs1, hb]
    rfl

theorem draw_row_succ (config : CONFIG_T) (sprite_data Y_coord j X_coord : Nat)
    (s : CHIP_8) :
    draw_row config sprite_data Y_coord (j + 1) X_coord s =
      if (Y_coord * config.window_width + X_coord) % 4294967296 < 2048 then
        if (X_coord + 1) % 256 ≥ config.window_width then
          .ok { (if sprite_bit sprite_data j &&
                    s.display ((Y_coord * config.window_width + X_coord) % 4294967296)
                  then { s with V := store s.V 0xF 1 } else s) with
                display := store
                  (if sprite_bit sprite_data j &&
                      s.display ((Y_coord * config.window_width + X_coord) % 4294967296)
                    then { s with V := store s.V 0xF 1 } else s).display
                  ((Y_coord * config.window_width + X_coord) % 4294967296)
                  (xor (s.display ((Y_coord * config.window_width + X_coord) % 4294967296))
                    (sprite_bit sprite_data j)) }
        else
          draw_row config sprite_data Y_coord j ((X_coord + 1) % 256)
            { (if sprite_bit sprite_data j &&
                    s.display ((Y_coord * config.window_width + X_coord) % 4294967296)
                  then { s with V := store s.V 0xF 1 } else s) with
                display := store
                  (if sprite_bit sprite_data j &&
                      s.display ((Y_coord * config.window_width + X_coord) % 4294967296)
                    then { s with V := store s.V 0xF 1 } else s).display
                  ((Y_coord * config.window_width + X_coord) % 4294967296)
                  (xor (s.display ((Y_coord * config.window_width + X_coord) % 4294967296))
                    (sprite_bit sprite_data j)) }
      else .error (.display_access ((Y_coord * config.window_width + X_coord) % 4294967296)) :=
  rfl

/-- The row loop on the 64-wide display: `k` bits of `sprite_data` from column `X_coord`
on, clipped at the right edge. -/
theorem draw_row_blit (config : CONFIG_T) (hw : config.window_width = 64)
    (sprite_data Y_coord : Nat) (hY : Y_coord < 32) :
    ∀ (k X_coord : Nat) (s : CHIP_8), X_coord < 64 →
      ∃ t, draw_row config sprite_data Y_coord k X_coord s = .ok t ∧
        Blit s t (row_mask sprite_data Y_coord k X_coord) := by
  intro k
  induction k with
  | zero =>
    intro X_coord s _
    exact ⟨s, rfl, (Blit.none s).congr (fun i => (row_mask_zero _ _ _ i).symm)⟩
  | succ k ih =>
    intro X_coord s hX
    have hidx : (Y_coord * config.window_width + X_coord) % 4294967296
        = Y_coord * 64 + X_coord := by
      rw [hw]; omega
    have hlt : Y_coord * 64 + X_coord < 2048 := by omega
    have hX1 : (X_coord + 1) % 256 = X_coord + 1 := by omega
    have step : ∀ s1, Blit s s1 (pixel_mask (Y_coord * 64 + X_coord)
        (sprite_bit sprite_data k)) →
        ∃ t, (if X_coord + 1 ≥ 64 then Except.ok s1
              else draw_row config sprite_data Y_coord k (X_coord + 1) s1) = .ok t ∧
          Blit s t (row_mask sprite_data Y_coord (k + 1) X_coord) := by
      intro s1 hp
      by_cases hlast : X_coord + 1 ≥ 64
      · rw [if_pos hlast]
        refine ⟨s1, rfl, hp.congr (fun i => ?_)⟩
        rw [row_mask_succ _ _ _ _ _ hX, row_mask_last_column _ _ _ _ _ (by omega),
          Bool.or_false]
      · rw [if_neg hlast]
        obtain ⟨t, ht, hb⟩ := ih (X_coord + 1) s1 (by omega)
        refine ⟨t, ht, (hp.comp hb (fun i hi => ?_)).congr (fun i => ?_)⟩
        · exact pixel_row_disjoint _ _ _ _ _ _ hi
        · exact (row_mask_succ _ _ _ _ _ hX).symm
    rw [draw_row_succ, hidx, if_pos hlt, hX1, hw]
    exact step _ (Blit.pixel s _ _ _ rfl)

theorem Blit.ram_eq {s t : CHIP_8} {m : Nat → Bool} (h : Blit s t m) : t.ram = s.ram := by
  rw [h.frame]

theorem Blit.I_eq {s t : CHIP_8} {m : Nat → Bool} (h : Blit s t m) : t.I = s.I := by
  rw [h.frame]

theorem Blit.PC_eq {s t : CHIP_8} {m : Nat → Bool} (h : Blit s t m) : t.PC = s.PC := by
  rw [h.frame]

theorem row_mask_row {sprite_data Y_coord k X_coord i : Nat}
    (h : row_mask sprite_data Y_coord k X_coord i = true) : i / 64 = Y_coord := by
  by_contra hne
  have hc : ¬ (i / 64 = Y_coord ∧ X_coord ≤ i % 64 ∧ i % 64 < X_coord + k) := fun hc => hne hc.1
  rw [row_mask, decide_eq_false hc, Bool.false_and] at h
  cases h

theorem rows_mask_zero (ram : Nat → Nat) (I orig_X row Y_coord i : Nat) :
    rows_mask ram I orig_X 0 row Y_coord i = false := by
  have h : ¬ (Y_coord ≤ i / 64 ∧ i / 64 < Y_coord + 0 ∧ i / 64 < 32 ∧
      orig_X ≤ i % 64 ∧ i % 64 < orig_X + 8) := by omega
  rw [rows_mask, decide_eq_false h, Bool.false_and]

theorem rows_mask_below (ram : Nat → Nat) (I orig_X n row Y_coord i : Nat)
    (h : i / 64 < Y_coord ∨ 32 ≤ Y_coord) :
    rows_mask ram I orig_X n row Y_coord i = false := by
  have hc : ¬ (Y_coord ≤ i / 64 ∧ i / 64 < Y_coord + n ∧ i / 64 < 32 ∧
      orig_X ≤ i % 64 ∧ i % 64 < orig_X + 8) := by omega
  rw [rows_mask, decide_eq_false hc, Bool.false_and]

theorem rows_mask_succ (ram : Nat → Nat) (I orig_X n row Y_coord i : Nat)
    (hY : Y_coord < 32) :
    rows_mask ram I orig_X (n + 1) row Y_coord i =
      (row_mask (ram (I + row)) Y_coord 8 orig_X i ||
        rows_mask ram I orig_X n (row + 1) (Y_coord + 1) i) := by
  rw [rows_mask, row_mask, rows_mask]
  by_cases hrow : i / 64 = Y_coord
  · have h2 : ¬ (Y_coord + 1 ≤ i / 64 ∧ i / 64 < Y_coord + 1 + n ∧ i / 64 < 32 ∧
        orig_X ≤ i % 64 ∧ i % 64 < orig_X + 8) := by omega
    have e1 : I + row + (i / 64 - Y_coord) = I + row := by omega
    have e2 : 8 - 1 - (i % 64 - orig_X) = 7 - (i % 64 - orig_X) := by omega
    rw [decide_eq_false h2, e1, e2, Bool.false_and, Bool.or_false]
    by_cases hcol : orig_X ≤ i % 64 ∧ i % 64 < orig_X + 8
    · have h1 : Y_coord ≤ i / 64 ∧ i / 64 < Y_coord + (n + 1) ∧ i / 64 < 32 ∧
          orig_X ≤ i % 64 ∧ i % 64 < orig_X + 8 := by omega
      have h3 : i / 64 = Y_coord ∧ orig_X ≤ i % 64 ∧ i % 64 < orig_X + 8 := by omega
      rw [decide_eq_true h1, decide_eq_true h3]
    · have h1 : ¬ (Y_coord ≤ i / 64 ∧ i / 64 < Y_coord + (n + 1) ∧ i / 64 < 32 ∧
          orig_X ≤ i % 64 ∧ i % 64 < orig_X + 8) := by omega
      have h3 : ¬ (i / 64 = Y_coord ∧ orig_X ≤ i % 64 ∧ i % 64 < orig_X + 8) := by omega
      rw [decide_eq_false h1, decide_eq_false h3, Bool.false_and]
  · have h3 : ¬ (i / 64 = Y_coord ∧ orig_X ≤ i % 64 ∧ i % 64 < orig_X + 8) := by omega
    rw [decide_eq_false h3, Bool.false_and, Bool.false_or]
    by_cases hc : Y_coord + 1 ≤ i / 64 ∧ i / 64 < Y_coord + 1 + n ∧ i / 64 < 32 ∧
        orig_X ≤ i % 64 ∧ i % 64 < orig_X + 8
    · have h1 : Y_coord ≤ i / 64 ∧ i / 64 < Y_coord + (n + 1) ∧ i / 64 < 32 ∧
          orig_X ≤ i % 64 ∧ i % 64 < orig_X + 8 := by omega
      have e1 : I + row + (i / 64 - Y_coord) = I + (row + 1) + (i / 64 - (Y_coord + 1)) := by
        omega
      rw [decide_eq_true h1, decide_eq_true hc, e1]
    · have h1 : ¬ (Y_coord ≤ i / 64 ∧ i / 64 < Y_coord + (n + 1) ∧ i / 64 < 32 ∧
          orig_X ≤ i % 64 ∧ i % 64 < orig_X + 8) := by omega
      rw [decide_eq_false h1, decide_eq_false hc]
      simp only [Bool.false_and]

theorem draw_rows_succ (config : CONFIG_T) (orig_X n i Y_coord : Nat) (s : CHIP_8) :
    draw_rows config orig_X (n + 1) i Y_coord s =
      match ram_read s (s.I + i) with
      | .error e => .error e
      | .ok sprite_data =>
        match draw_row config sprite_data Y_coord 8 orig_X s with
        | .error e => .error e
        | .ok s1 =>
          if (Y_coord + 1) % 256 ≥ config.window_height then .ok s1
          else draw_rows config orig_X n (i + 1) ((Y_coord + 1) % 256) s1 :=
  rfl

/-- The sprite loop on the 64 by 32 display: `n` rows from byte `ram[I + i]` on, drawn
from display row `Y_coord` down, clipped at the bottom edge. -/
theorem draw_rows_blit (config : CONFIG_T) (hw : config.window_width = 64)
    (hh : config.window_height = 32) (orig_X : Nat) (hX : orig_X < 64) :
    ∀ (n i Y_coord : Nat) (s : CHIP_8), Y_coord < 32 → s.I + i + n ≤ 4096 →
      ∃ t, draw_rows config orig_X n i Y_coord s = .ok t ∧
        Blit s t (rows_mask s.ram s.I orig_X n i Y_coord) := by
  intro n
  induction n with
  | zero =>
    intro i Y_coord s _ _
    exact ⟨s, rfl, (Blit.none s).congr (fun k => (rows_mask_zero _ _ _ _ _ k).symm)⟩
  | succ n ih =>
    intro i Y_coord s hY hI
    have hrd : ram_read s (s.I + i) = .ok (s.ram (s.I + i)) := by
      rw [ram_read, if_pos (by omega)]
    obtain ⟨s1, hs1, hb1⟩ := draw_row_blit config hw (s.ram (s.I + i)) Y_coord hY 8 orig_X s hX
    have hY1 : (Y_coord + 1) % 256 = Y_coord + 1 := by omega
    rw [draw_rows_succ, hrd]
    simp only [hs1, hY1, hh]
    by_cases hlast : Y_coord + 1 ≥ 32
    · rw [if_pos hlast]
      refine ⟨s1, rfl, hb1.congr (fun k => ?_)⟩
      rw [rows_mask_succ _ _ _ _ _ _ _ hY, rows_mask_below _ _ _ _ _ _ _ (Or.inr hlast),
        Bool.or_false]
    · rw [if_neg hlast]
      obtain ⟨t, ht, hb2⟩ := ih (i + 1) (Y_coord + 1) s1 (by omega)
        (by rw [hb1.I_eq]; omega)
      rw [hb1.ram_eq, hb1.I_eq] at hb2
      refine ⟨t, ht, (hb1.comp hb2 (fun k hk => ?_)).congr (fun k => ?_)⟩
      · exact rows_mask_below _ _ _ _ _ _ _ (Or.inl (by rw [row_mask_row hk]; omega))
      · exact (rows_mask_succ _ _ _ _ _ _ _ hY).symm

theorem execute_family_D (config : CONFIG_T) (rand_value : Nat) (chip8 : CHIP_8)
    (hfam : (chip8.inst.opcode >>> 12) &&& 0x0F = 0xD) :
    execute config rand_value chip8 = draw_sprite config chip8 := by
  unfold execute
  rw [hfam]

theorem rows_mask_lt {ram : Nat → Nat} {I orig_X n row Y_coord i : Nat}
    (h : rows_mask ram I orig_X n row Y_coord i = true) : i < 2048 := by
  by_contra hne
  have hc : ¬ (Y_coord ≤ i / 64 ∧ i / 64 < Y_coord + n ∧ i / 64 < 32 ∧
      orig_X ≤ i % 64 ∧ i % 64 < orig_X + 8) := by omega
  rw [rows_mask, decide_eq_false hc, Bool.false_and] at h
  cases h

theorem rows_mask_congr (ram1 ram2 : Nat → Nat) (I orig_X n Y_coord i : Nat)
    (h : ∀ k, k < n → ram1 (I + k) = ram2 (I + k)) :
    rows_mask ram1 I orig_X n 0 Y_coord i = rows_mask ram2 I orig_X n 0 Y_coord i := by
  rw [rows_mask, rows_mask]
  by_cases hc : Y_coord ≤ i / 64 ∧ i / 64 < Y_coord + n ∧ i / 64 < 32 ∧
      orig_X ≤ i % 64 ∧ i % 64 < orig_X + 8
  · have e : I + 0 + (i / 64 - Y_coord) = I + (i / 64 - Y_coord) := by omega
    rw [e, h (i / 64 - Y_coord) (by omega)]
  · rw [decide_eq_false hc]
    simp only [Bool.false_and]

/-- One cycle on draw-sprite `DXYN` on the 64 by 32 display with the sprite inside
`ram`: the cells of `sprite_cells` are flipped, `V[15]` tells whether a lit cell was among
them, and nothing else changes but the program counter. -/
theorem draw_cycle (config : CONFIG_T) (hw : config.window_width = 64)
    (hh : config.window_height = 32) (rand_value : Nat) (chip8 : CHIP_8) (X Y N : Nat)
    (hX : X < 16) (hY : Y < 16) (hN : N < 16) (hI : chip8.I + N ≤ 4096)
    (h : holds_instruction chip8 (0xD0 + X) (Y * 16 + N)) :
    ∃ t, emulate_instructions config rand_value chip8 = .ok t ∧
      t.ram = chip8.ram ∧ t.I = chip8.I ∧ t.PC = chip8.PC + 2 ∧
      (∀ r, r ≠ 15 → t.V r = chip8.V r) ∧
      (∀ i, t.display i = xor (chip8.display i) (sprite_cells chip8 X Y N i)) ∧
      ((∃ i, chip8.display i = true ∧ sprite_cells chip8 X Y N i = true) → t.V 15 = 1) ∧
      ((¬ ∃ i, chip8.display i = true ∧ sprite_cells chip8 X Y N i = true) → t.V 15 = 0) := by
  rw [emulate_instructions_fetched config rand_value chip8 13 X Y N (by omega) hX hY hN h,
    execute_family_D config rand_value (fetched chip8 13 X Y N)
      (fetched_family chip8 13 X Y N (by omega) hX hY hN)]
  have hx64 : chip8.V X % 64 % 256 = chip8.V X % 64 := by omega
  have hy32 : chip8.V Y % 32 % 256 = chip8.V Y % 32 := by omega
  have hcfg : ¬ (config.window_width = 0 ∨ config.window_height = 0) := by omega
  have hdraw : draw_sprite config (fetched chip8 13 X Y N) =
      draw_rows config (chip8.V X % 64) N 0 (chip8.V Y % 32)
        { fetched chip8 13 X Y N with V := store chip8.V 0xF 0 } := by
    unfold draw_sprite
    rw [if_neg hcfg]
    show draw_rows config (chip8.V X % config.window_width % 256) N 0
        (chip8.V Y % config.window_height % 256) _ = _
    rw [hw, hh, hx64, hy32]
    rfl
  rw [hdraw]
  obtain ⟨t, ht, hb⟩ := draw_rows_blit config hw hh (chip8.V X % 64) (by omega) N 0
    (chip8.V Y % 32) { fetched chip8 13 X Y N with V := store chip8.V 0xF 0 } (by omega)
    (by show chip8.I + 0 + N ≤ 4096; omega)
  refine ⟨t, ht, hb.ram_eq, hb.I_eq, hb.PC_eq, ?_, hb.display, ?_, ?_⟩
  · intro r hr
    by_cases hc : ∃ i, chip8.display i = true ∧ sprite_cells chip8 X Y N i = true
    · rw [hb.hit hc]
      show store (store chip8.V 0xF 0) 0xF 1 r = _
      rw [store_other _ _ _ _ hr, store_other _ _ _ _ hr]
    · rw [hb.miss hc]
      show store chip8.V 0xF 0 r = _
      exact store_other _ _ _ _ hr
  · intro hc
    rw [hb.hit hc]
    exact store_same _ _ _
  · intro hc
    rw [hb.miss hc]
    show store chip8.V 0xF 0 15 = 0
    exact store_same _ _ _

theorem sprite_cells_lt {chip8 : CHIP_8} {X Y N i : Nat}
    (h : sprite_cells chip8 X Y N i = true) : i < 2048 :=
  rows_mask_lt h

/-- The cells a draw flips depend only on the sprite bytes, the index register and the
start coordinates. -/
theorem sprite_cells_congr (chip8 second : CHIP_8) (X Y N i : Nat)
    (hI : second.I = chip8.I)
    (hram : ∀ k, k < N → second.ram (chip8.I + k) = chip8.ram (chip8.I + k))
    (hx : second.V X % 64 = chip8.V X % 64) (hy : second.V Y % 32 = chip8.V Y % 32) :
    sprite_cells second X Y N i = sprite_cells chip8 X Y N i := by
  unfold sprite_cells
  rw [hI, hx, hy]
  exact rows_mask_congr _ _ _ _ _ _ _ hram

/-- C5: after draw-sprite `DXYN` (sprite inside `ram`, 64 by 32 display) the flag
register `V[15]` is 1 when at least one framebuffer cell that was on before the draw is
off after it, and 0 otherwise; `N = 0` is included. -/
theorem C5_draw_flag_is_collision (config : CONFIG_T) (hw : config.window_width = 64)
    (hh : config.window_height = 32) (rand_value : Nat) (chip8 : CHIP_8) (X Y N : Nat)
    (hX : X < 16) (hY : Y < 16) (hN : N < 16) (hI : chip8.I + N ≤ 4096)
    (h : holds_instruction chip8 (0xD0 + X) (Y * 16 + N)) :
    ∃ t, emulate_instructions config rand_value chip8 = .ok t ∧
      ((∃ i, i < 2048 ∧ chip8.display i = true ∧ t.display i = false) → t.V 15 = 1) ∧
      ((¬ ∃ i, i < 2048 ∧ chip8.display i = true ∧ t.display i = false) → t.V 15 = 0) := by
  obtain ⟨t, ht, _, _, _, _, hdisp, hhit, hmiss⟩ :=
    draw_cycle config hw hh rand_value chip8 X Y N hX hY hN hI h
  refine ⟨t, ht, ?_, ?_⟩
  · rintro ⟨i, _, hon, hoff⟩
    apply hhit
    refine ⟨i, hon, ?_⟩
    rw [hdisp i, hon] at hoff
    cases hm : sprite_cells chip8 X Y N i
    · rw [hm] at hoff; cases hoff
    · rfl
  · intro hnone
    apply hmiss
    rintro ⟨i, hon, hm⟩
    apply hnone
    refine ⟨i, sprite_cells_lt hm, hon, ?_⟩
    rw [hdisp i, hon, hm]
    rfl

/-- C3: draw-sprite is its own inverse.  After a draw `DXYN` (sprite inside `ram`, 64 by
32 display), a second `DXYN` executed on the framebuffer the first one left, with the
same sprite bytes at the same index and the same start coordinates, gives back the
framebuffer as it was before the first draw. -/
theorem C3_draw_twice_restores_display (config : CONFIG_T)
    (hw : config.window_width = 64) (hh : config.window_height = 32) (rand_value : Nat)
    (chip8 : CHIP_8) (X Y N : Nat) (hX : X < 16) (hY : Y < 16) (hN : N < 16)
    (hI : chip8.I + N ≤ 4096) (h : holds_instruction chip8 (0xD0 + X) (Y * 16 + N)) :
    ∃ s1, emulate_instructions config rand_value chip8 = .ok s1 ∧
      s1.ram = chip8.ram ∧ s1.I = chip8.I ∧ s1.PC = chip8.PC + 2 ∧
      (∀ r, r ≠ 15 → s1.V r = chip8.V r) ∧
      ∀ (rand_value2 : Nat) (second : CHIP_8),
        second.display = s1.display → second.I = chip8.I →
        (∀ k, k < N → second.ram (chip8.I + k) = chip8.ram (chip8.I + k)) →
        second.V X % 64 = chip8.V X % 64 → second.V Y % 32 = chip8.V Y % 32 →
        holds_instruction second (0xD0 + X) (Y * 16 + N) →
        ∃ s2, emulate_instructions config rand_value2 second = .ok s2 ∧
          s2.display = chip8.display := by
  obtain ⟨s1, hs1, hram1, hI1, hPC1, hV1, hdisp1, _, _⟩ :=
    draw_cycle config hw hh rand_value chip8 X Y N hX hY hN hI h
  refine ⟨s1, hs1, hram1, hI1, hPC1, hV1, ?_⟩
  intro rand_value2 second hd2 hI2 hram2 hx hy h2
  obtain ⟨s2, hs2, _, _, _, _, hdisp2, _, _⟩ :=
    draw_cycle config hw hh rand_value2 second X Y N hX hY hN (by omega) h2
  refine ⟨s2, hs2, ?_⟩
  funext i
  rw [hdisp2 i, sprite_cells_congr chip8 second X Y N i hI2 hram2 hx hy, hd2, hdisp1 i]
  cases chip8.display i <;> cases sprite_cells chip8 X Y N i <;> rfl

/-- C4: when draw-sprite `DXYN` is executed twice in succession with the same sprite
bytes, index and start coordinates, the flag register `V[15]` after the second draw is 1
when the first draw turned at least one framebuffer cell from off to on, and 0
otherwise. -/
theorem C4_second_draw_flag (config : CONFIG_T)
    (hw : config.window_width = 64) (hh : config.window_height = 32) (rand_value : Nat)
    (chip8 : CHIP_8) (X Y N : Nat) (hX : X < 16) (hY : Y < 16) (hN : N < 16)
    (hI : chip8.I + N ≤ 4096) (h : holds_instruction chip8 (0xD0 + X) (Y * 16 + N)) :
    ∃ s1, emulate_instructions config rand_value chip8 = .ok s1 ∧
      s1.ram = chip8.ram ∧ s1.I = chip8.I ∧ s1.PC = chip8.PC + 2 ∧
      (∀ r, r ≠ 15 → s1.V r = chip8.V r) ∧
      ∀ (rand_value2 : Nat) (second : CHIP_8),
        second.display = s1.display → second.I = chip8.I →
        (∀ k, k < N → second.ram (chip8.I + k) = chip8.ram (chip8.I + k)) →
        second.V X % 64 = chip8.V X % 64 → second.V Y % 32 = chip8.V Y % 32 →
        holds_instruction second (0xD0 + X) (Y * 16 + N) →
        ∃ s2, emulate_instructions config rand_value2 second = .ok s2 ∧
          ((∃ i, i < 2048 ∧ chip8.display i = false ∧ s1.display i = true) → s2.V 15 = 1) ∧
          ((¬ ∃ i, i < 2048 ∧ chip8.display i = false ∧ s1.display i = true) →
            s2.V 15 = 0) := by
  obtain ⟨s1, hs1, hram1, hI1, hPC1, hV1, hdisp1, _, _⟩ :=
    draw_cycle config hw hh rand_value chip8 X Y N hX hY hN hI h
  refine ⟨s1, hs1, hram1, hI1, hPC1, hV1, ?_⟩
  intro rand_value2 second hd2 hI2 hram2 hx hy h2
  obtain ⟨s2, hs2, _, _, _, _, _, hhit2, hmiss2⟩ :=
    draw_cycle config hw hh rand_value2 second X Y N hX hY hN (by omega) h2
  have hcells : ∀ i, sprite_cells second X Y N i = sprite_cells chip8 X Y N i :=
    fun i => sprite_cells_congr chip8 second X Y N i hI2 hram2 hx hy
  refine ⟨s2, hs2, ?_, ?_⟩
  · rintro ⟨i, _, hoff, hon⟩
    apply hhit2
    refine ⟨i, by rw [hd2]; exact hon, ?_⟩
    rw [hcells i]
    rw [hdisp1 i, hoff] at hon
    cases hm : sprite_cells chip8 X Y N i
    · rw [hm] at hon; cases hon
    · rfl
  · intro hnone
    apply hmiss2
    rintro ⟨i, hon, hm⟩
    rw [hcells i] at hm
    rw [hd2] at hon
    apply hnone
    refine ⟨i, sprite_cells_lt hm, ?_, hon⟩
    rw [hdisp1 i, hm] at hon
    cases hd : chip8.display i
    · rfl
    · rw [hd] at hon; cases hon

/-- The first draw of `draw_example`, cell by cell. -/
theorem draw_example_first :
    ∃ t, emulate_instructions default_config 0 draw_example = .ok t ∧
      t.PC = 0x202 ∧ t.I = 0x300 ∧ t.ram = draw_example.ram ∧
      (∀ r, r ≠ 15 → t.V r = draw_example.V r) ∧
      t.display 2046 = false ∧ t.display 2047 = true := by
  obtain ⟨t, ht, hram, hI, hPC, hV, hdisp, _, _⟩ :=
    draw_cycle default_config rfl rfl 0 draw_example 0 1 2 (by decide) (by decide) (by decide)
      (by decide) (by decide)
  refine ⟨t, ht, hPC, hI, hram, hV, ?_, ?_⟩
  · rw [hdisp 2046]; decide
  · rw [hdisp 2047]; decide

/-- C5 witness: the sprite `F0 90` drawn at column 62 of row 31 turns the lit cell 2046
off, so the flag is 1. -/
theorem C5_draw_flag_is_collision_witness :
    ∃ t, emulate_instructions default_config 0 draw_example = .ok t ∧ t.V 15 = 1 := by
  obtain ⟨t, ht, hone, _⟩ :=
    C5_draw_flag_is_collision default_config rfl rfl 0 draw_example 0 1 2 (by decide)
      (by decide) (by decide) (by decide) (by decide)
  obtain ⟨u, hu, _, _, _, _, hoff, _⟩ := draw_example_first
  have htu : t = u := Except.ok.inj (ht.symm.trans hu)
  exact ⟨t, ht, hone ⟨2046, by decide, by decide, by rw [htu]; exact hoff⟩⟩

/-- C3 witness: `D012` twice in a row on `draw_example` gives back its framebuffer. -/
theorem C3_draw_twice_restores_display_witness :
    ∃ s1 s2, emulate_instructions default_config 0 draw_example = .ok s1 ∧
      emulate_instructions default_config 0 s1 = .ok s2 ∧
      s2.display = draw_example.display := by
  obtain ⟨s1, hs1, hram, hI, hPC, hV, hsecond⟩ :=
    C3_draw_twice_restores_display default_config rfl rfl 0 draw_example 0 1 2 (by decide)
      (by decide) (by decide) (by decide) (by decide)
  have hpc : s1.PC = 0x202 := hPC
  have hh : holds_instruction s1 (0xD0 + 0) (1 * 16 + 2) := by
    show s1.PC + 1 < 4096 ∧ s1.ram s1.PC = 0xD0 + 0 ∧ s1.ram (s1.PC + 1) = 1 * 16 + 2
    rw [hpc, hram]
    decide
  obtain ⟨s2, hs2, hd⟩ := hsecond 0 s1 rfl hI (fun k _ => by rw [hram])
    (by rw [hV 0 (by decide)]) (by rw [hV 1 (by decide)]) hh
  exact ⟨s1, s2, hs1, hs2, hd⟩

/-- C4 witness: the first `D012` on `draw_example` lights cell 2047, so the second one
ends with the flag at 1. -/
theorem C4_second_draw_flag_witness :
    ∃ s1 s2, emulate_instructions default_config 0 draw_example = .ok s1 ∧
      emulate_instructions default_config 0 s1 = .ok s2 ∧ s2.V 15 = 1 := by
  obtain ⟨s1, hs1, hram, hI, hPC, hV, hsecond⟩ :=
    C4_second_draw_flag default_config rfl rfl 0 draw_example 0 1 2 (by decide)
      (by decide) (by decide) (by decide) (by decide)
  have hpc : s1.PC = 0x202 := hPC
  have hh : holds_instruction s1 (0xD0 + 0) (1 * 16 + 2) := by
    show s1.PC + 1 < 4096 ∧ s1.ram s1.PC = 0xD0 + 0 ∧ s1.ram (s1.PC + 1) = 1 * 16 + 2
    rw [hpc, hram]
    decide
  obtain ⟨s2, hs2, hone, _⟩ := hsecond 0 s1 rfl hI (fun k _ => by rw [hram])
    (by rw [hV 0 (by decide)]) (by rw [hV 1 (by decide)]) hh
  obtain ⟨u, hu, _, _, _, _, _, hon⟩ := draw_example_first
  have hsu : s1 = u := Except.ok.inj (hs1.symm.trans hu)
  exact ⟨s1, s2, hs1, hs2, hone ⟨2047, by decide, by decide, by rw [hsu]; exact hon⟩⟩

/-! ## Skip instructions -/

theorem execute_family_3 (config : CONFIG_T) (rand_value : Nat) (chip8 : CHIP_8)
    (hfam : (chip8.inst.opcode >>> 12) &&& 0x0F = 3) :
    execute config rand_value chip8 =
      if chip8.V chip8.inst.X = chip8.inst.NN then
        .ok { chip8 with PC := (chip8.PC + 2) % 65536 }
      else .ok chip8 := by
  unfold execute
  rw [hfam]

theorem execute_family_5 (config : CONFIG_T) (rand_value : Nat) (chip8 : CHIP_8)
    (hfam : (chip8.inst.opcode >>> 12) &&& 0x0F = 5) :
    execute config rand_value chip8 =
      if chip8.inst.N ≠ 0 then .ok chip8
      else if chip8.V chip8.inst.X = chip8.V chip8.inst.Y then
        .ok { chip8 with PC := (chip8.PC + 2) % 65536 }
      else .ok chip8 := by
  unfold execute
  rw [hfam]

theorem execute_family_9 (config : CONFIG_T) (rand_value : Nat) (chip8 : CHIP_8)
    (hfam : (chip8.inst.opcode >>> 12) &&& 0x0F = 9) :
    execute config rand_value chip8 =
      if chip8.V chip8.inst.X ≠ chip8.V chip8.inst.Y then
        .ok { chip8 with PC := (chip8.PC + 2) % 65536 }
      else .ok chip8 := by
  unfold execute
  rw [hfam]

/-- One cycle on `3XNN`. -/
theorem skip_eq_imm_cycle (config : CONFIG_T) (rand_value : Nat) (chip8 : CHIP_8)
    (X NN : Nat) (hX : X < 16) (hNN : NN < 256) (h : holds_instruction chip8 (0x30 + X) NN) :
    ∃ s, emulate_instructions config rand_value chip8 = .ok s ∧
      s = { chip8 with PC := chip8.PC + (if chip8.V X = NN then 4 else 2), inst := s.inst } := by
  have e : NN = NN / 16 * 16 + NN % 16 := by omega
  have hpc : chip8.PC + 1 < 4096 := h.1
  have h2 : holds_instruction chip8 (3 * 16 + X) (NN / 16 * 16 + NN % 16) := by
    rw [← e]; exact h
  rw [emulate_instructions_fetched config rand_value chip8 3 X (NN / 16) (NN % 16) (by omega)
      hX (by omega) (by omega) h2,
    execute_family_3 config rand_value (fetched chip8 3 X (NN / 16) (NN % 16))
      (fetched_family chip8 3 X (NN / 16) (NN % 16) (by omega) hX (by omega) (by omega))]
  show ∃ s, (if chip8.V X = NN / 16 * 16 + NN % 16 then
      Except.ok { fetched chip8 3 X (NN / 16) (NN % 16) with
        PC := (chip8.PC + 2 + 2) % 65536 }
    else Except.ok (fetched chip8 3 X (NN / 16) (NN % 16))) = Except.ok s ∧ _
  rw [← e, show (chip8.PC + 2 + 2) % 65536 = chip8.PC + 4 by omega]
  by_cases hc : chip8.V X = NN
  · rw [if_pos hc, if_pos hc]; exact ⟨_, rfl, rfl⟩
  · rw [if_neg hc, if_neg hc]; exact ⟨_, rfl, rfl⟩

/-- One cycle on `5XY0`. -/
theorem skip_eq_reg_cycle (config : CONFIG_T) (rand_value : Nat) (chip8 : CHIP_8)
    (X Y : Nat) (hX : X < 16) (hY : Y < 16) (h : holds_instruction chip8 (0x50 + X) (Y * 16)) :
    ∃ s, emulate_instructions config rand_value chip8 = .ok s ∧
      s = { chip8 with PC := chip8.PC + (if chip8.V X = chip8.V Y then 4 else 2),
                       inst := s.inst } := by
  have hpc : chip8.PC + 1 < 4096 := h.1
  rw [emulate_instructions_fetched config rand_value chip8 5 X Y 0 (by omega)
      hX hY (by omega) h,
    execute_family_5 config rand_value (fetched chip8 5 X Y 0)
      (fetched_family chip8 5 X Y 0 (by omega) hX hY (by omega))]
  show ∃ s, (if (0 : Nat) ≠ 0 then Except.ok (fetched chip8 5 X Y 0)
    else if chip8.V X = chip8.V Y then
      Except.ok { fetched chip8 5 X Y 0 with PC := (chip8.PC + 2 + 2) % 65536 }
    else Except.ok (fetched chip8 5 X Y 0)) = Except.ok s ∧ _
  rw [if_neg (by decide), show (chip8.PC + 2 + 2) % 65536 = chip8.PC + 4 by omega]
  by_cases hc : chip8.V X = chip8.V Y
  · rw [if_pos hc, if_pos hc]; exact ⟨_, rfl, rfl⟩
  · rw [if_neg hc, if_neg hc]; exact ⟨_, rfl, rfl⟩

/-- C11: skip-if-equal, `3XNN` comparing `V[X]` with the immediate and `5XY0` comparing
`V[X]` with `V[Y]`, leaves the program counter at its value before the fetch plus 4 when
the compared values are equal and plus 2 when they are not; apart from the decoded
instruction nothing else in the machine changes. -/
theorem C11_skip_if_equal (config : CONFIG_T) (rand_value : Nat) (chip8 : CHIP_8)
    (X Y NN : Nat) (hX : X < 16) (hY : Y < 16) (hNN : NN < 256) :
    (holds_instruction chip8 (0x30 + X) NN →
      ∃ s, emulate_instructions config rand_value chip8 = .ok s ∧
        s = { chip8 with PC := chip8.PC + (if chip8.V X = NN then 4 else 2),
                         inst := s.inst }) ∧
    (holds_instruction chip8 (0x50 + X) (Y * 16) →
      ∃ s, emulate_instructions config rand_value chip8 = .ok s ∧
        s = { chip8 with PC := chip8.PC + (if chip8.V X = chip8.V Y then 4 else 2),
                         inst := s.inst }) :=
  ⟨skip_eq_imm_cycle config rand_value chip8 X NN hX hNN,
   skip_eq_reg_cycle config rand_value chip8 X Y hX hY⟩

/-- C11 witness: `3207` with `V[2] = 7` skips (program counter `0x204`), and `5240` with
`V[2] = 7`, `V[4] = 9` does not (program counter `0x202`). -/
theorem C11_skip_if_equal_witness :
    (∃ s, emulate_instructions default_config 0 (skip_example 0x3207) = .ok s ∧
      s.PC = 0x204 ∧ s.V = (skip_example 0x3207).V ∧ s.ram = (skip_example 0x3207).ram) ∧
    (∃ s, emulate_instructions default_config 0 (skip_example 0x5240) = .ok s ∧
      s.PC = 0x202) := by
  obtain ⟨s, hs, he⟩ :=
    (C11_skip_if_equal default_config 0 (skip_example 0x3207) 2 0 7 (by decide) (by decide)
      (by decide)).1 (by decide)
  obtain ⟨t, ht, hte⟩ :=
    (C11_skip_if_equal default_config 0 (skip_example 0x5240) 2 4 0 (by decide) (by decide)
      (by decide)).2 (by decide)
  refine ⟨⟨s, hs, ?_, ?_, ?_⟩, ⟨t, ht, ?_⟩⟩
  · rw [he]; rfl
  · rw [he]
  · rw [he]
  · rw [hte]; rfl

/-! ## Key instructions -/

theorem execute_family_E (config : CONFIG_T) (rand_value : Nat) (chip8 : CHIP_8)
    (hfam : (chip8.inst.opcode >>> 12) &&& 0x0F = 0xE) :
    execute config rand_value chip8 =
      if chip8.inst.NN = 0x9E then
        match keypad_read chip8 (chip8.V chip8.inst.X) with
        | .error e => .error e
        | .ok pressed =>
          if pressed then .ok { chip8 with PC := (chip8.PC + 2) % 65536 } else .ok chip8
      else if chip8.inst.NN = 0xA1 then
        match keypad_read chip8 (chip8.V chip8.inst.X) with
        | .error e => .error e
        | .ok pressed =>
          if !pressed then .ok { chip8 with PC := (chip8.PC + 2) % 65536 } else .ok chip8
      else .ok chip8 := by
  unfold execute
  rw [hfam]
  try rfl

/-- One cycle on `EX9E`. -/
theorem skip_key_pressed_cycle (config : CONFIG_T) (rand_value : Nat) (chip8 : CHIP_8)
    (X : Nat) (hX : X < 16) (h : holds_instruction chip8 (0xE0 + X) 0x9E) :
    emulate_instructions config rand_value chip8 =
      if chip8.V X < 16 then
        .ok { fetched chip8 14 X 9 14 with
              PC := chip8.PC + (if chip8.keypad (chip8.V X) then 4 else 2) }
      else .error (.keypad_read (chip8.V X)) := by
  have hpc : chip8.PC + 1 < 4096 := h.1
  rw [emulate_instructions_fetched config rand_value chip8 14 X 9 14 (by omega)
      hX (by omega) (by omega) h,
    execute_family_E config rand_value (fetched chip8 14 X 9 14)
      (fetched_family chip8 14 X 9 14 (by omega) hX (by omega) (by omega)),
    if_pos (show (fetched chip8 14 X 9 14).inst.NN = 0x9E from rfl)]
  show (match keypad_read (fetched chip8 14 X 9 14) (chip8.V X) with
    | .error e => Except.error e
    | .ok pressed =>
      if pressed then Except.ok { fetched chip8 14 X 9 14 with PC := (chip8.PC + 2 + 2) % 65536 }
      else Except.ok (fetched chip8 14 X 9 14)) = _
  rw [show (chip8.PC + 2 + 2) % 65536 = chip8.PC + 4 by omega, keypad_read]
  by_cases hk : chip8.V X < 16
  · rw [if_pos hk, if_pos hk]
    show (if chip8.keypad (chip8.V X) then _ else _) = _
    cases chip8.keypad (chip8.V X) <;> rfl
  · rw [if_neg hk, if_neg hk]

/-- One cycle on `EXA1`. -/
theorem skip_key_released_cycle (config : CONFIG_T) (rand_value : Nat) (chip8 : CHIP_8)
    (X : Nat) (hX : X < 16) (h : holds_instruction chip8 (0xE0 + X) 0xA1) :
    emulate_instructions config rand_value chip8 =
      if chip8.V X < 16 then
        .ok { fetched chip8 14 X 10 1 with
              PC := chip8.PC + (if chip8.keypad (chip8.V X) then 2 else 4) }
      else .error (.keypad_read (chip8.V X)) := by
  have hpc : chip8.PC + 1 < 4096 := h.1
  rw [emulate_instructions_fetched config rand_value chip8 14 X 10 1 (by omega)
      hX (by omega) (by omega) h,
    execute_family_E config rand_value (fetched chip8 14 X 10 1)
      (fetched_family chip8 14 X 10 1 (by omega) hX (by omega) (by omega)),
    if_neg (show ¬ (fetched chip8 14 X 10 1).inst.NN = 0x9E from
      fun hne => absurd hne (by decide : ¬ ((10 * 16 + 1 : Nat) = 0x9E))),
    if_pos (show (fetched chip8 14 X 10 1).inst.NN = 0xA1 from rfl)]
  show (match keypad_read (fetched chip8 14 X 10 1) (chip8.V X) with
    | .error e => Except.error e
    | .ok pressed =>
      if !pressed then
        Except.ok { fetched chip8 14 X 10 1 with PC := (chip8.PC + 2 + 2) % 65536 }
      else Except.ok (fetched chip8 14 X 10 1)) = _
  rw [show (chip8.PC + 2 + 2) % 65536 = chip8.PC + 4 by omega, keypad_read]
  by_cases hk : chip8.V X < 16
  · rw [if_pos hk, if_pos hk]
    show (if !chip8.keypad (chip8.V X) then _ else _) = _
    cases chip8.keypad (chip8.V X) <;> rfl
  · rw [if_neg hk, if_neg hk]

/-- C17 (amended): for `V[X]` in 0..15, `EX9E` advances the program counter by 2 extra
exactly when `keypad[V[X]]` is set and `EXA1` exactly when it is clear, and nothing else
changes.  The engine does not reduce `V[X]` to its low 4 bits: for `V[X]` of 16 or more it
indexes `keypad[V[X]]`, outside the 16-entry latch. -/
theorem C17_key_skips_index_by_whole_register (config : CONFIG_T) (rand_value : Nat)
    (chip8 : CHIP_8) (X : Nat) (hX : X < 16) :
    (holds_instruction chip8 (0xE0 + X) 0x9E →
      (chip8.V X < 16 →
        ∃ s, emulate_instructions config rand_value chip8 = .ok s ∧
          s = { chip8 with
                PC := chip8.PC + (if chip8.keypad (chip8.V X) then 4 else 2)
                inst := s.inst }) ∧
      (16 ≤ chip8.V X →
        emulate_instructions config rand_value chip8 = .error (.keypad_read (chip8.V X)))) ∧
    (holds_instruction chip8 (0xE0 + X) 0xA1 →
      (chip8.V X < 16 →
        ∃ s, emulate_instructions config rand_value chip8 = .ok s ∧
          s = { chip8 with
                PC := chip8.PC + (if chip8.keypad (chip8.V X) then 2 else 4)
                inst := s.inst }) ∧
      (16 ≤ chip8.V X →
        emulate_instructions config rand_value chip8 = .error (.keypad_read (chip8.V X)))) := by
  refine ⟨fun h => ⟨fun hlt => ?_, fun hge => ?_⟩, fun h => ⟨fun hlt => ?_, fun hge => ?_⟩⟩
  · rw [skip_key_pressed_cycle config rand_value chip8 X hX h, if_pos hlt]
    exact ⟨_, rfl, rfl⟩
  · rw [skip_key_pressed_cycle config rand_value chip8 X hX h, if_neg (by omega)]
  · rw [skip_key_released_cycle config rand_value chip8 X hX h, if_pos hlt]
    exact ⟨_, rfl, rfl⟩
  · rw [skip_key_released_cycle config rand_value chip8 X hX h, if_neg (by omega)]

/-- C17 witness: with key 5 held, `E39E` on `V[3] = 5` skips, `E3A1` on `V[3] = 5` does
not, and `E39E` on `V[3] = 200` indexes `keypad[200]`. -/
theorem C17_key_skips_index_by_whole_register_witness :
    (∃ s, emulate_instructions default_config 0 (key_example 0xE39E 5) = .ok s ∧
      s.PC = 0x204) ∧
    (∃ s, emulate_instructions default_config 0 (key_example 0xE3A1 5) = .ok s ∧
      s.PC = 0x202) ∧
    emulate_instructions default_config 0 (key_example 0xE39E 200)
      = .error (.keypad_read 200) := by
  obtain ⟨s, hs, he⟩ :=
    ((C17_key_skips_index_by_whole_register default_config 0 (key_example 0xE39E 5) 3
      (by decide)).1 (by decide)).1 (by decide)
  obtain ⟨t, ht, hte⟩ :=
    ((C17_key_skips_index_by_whole_register default_config 0 (key_example 0xE3A1 5) 3
      (by decide)).2 (by decide)).1 (by decide)
  refine ⟨⟨s, hs, ?_⟩, ⟨t, ht, ?_⟩, ?_⟩
  · rw [he]; rfl
  · rw [hte]; rfl
  · exact ((C17_key_skips_index_by_whole_register default_config 0 (key_example 0xE39E 200) 3
      (by decide)).1 (by decide)).2 (by decide)

/-- C17 counterexample: `E39E` with `V[3] = 21` while key 5 is held.  The low 4 bits of
21 name key 5, which is set, yet the source evaluates `chip8->keypad[chip8->V[3]]`, that
is `keypad[21]`, an index outside 0..15. -/
theorem C17_key_index_not_reduced :
    (key_example 0xE39E 21).keypad ((key_example 0xE39E 21).V 3 % 16) = true ∧
    emulate_instructions default_config 0 (key_example 0xE39E 21)
      = .error (.keypad_read 21) := by
  refine ⟨by decide, ?_⟩
  rw [skip_key_pressed_cycle default_config 0 (key_example 0xE39E 21) 3 (by decide)
    (by decide)]
  exact if_neg (by decide)

/-! ## Await-key -/

theorem execute_F_await (config : CONFIG_T) (chip8 : CHIP_8) (hNN : chip8.inst.NN = 0x0A) :
    execute_F config chip8 = await_key chip8 := by
  unfold execute_F
  rw [hNN]

/-- The scan loop with no key held in the scanned range changes nothing. -/
theorem await_key_scan_idle :
    ∀ (n i : Nat) (chip8 : CHIP_8),
      (∀ k, i ≤ k → k < i + n → chip8.keypad k = false) →
      await_key_scan n i chip8 = chip8 := by
  intro n
  induction n with
  | zero => intro i chip8 _; rfl
  | succ n ih =>
    intro i chip8 hk
    rw [await_key_scan]
    split
    · have hi : chip8.keypad i = false := hk i (Nat.le_refl i) (by omega)
      simp only [hi]
      exact ih (i + 1) chip8 (fun k h1 h2 => hk k (by omega) (by omega))
    · rfl

/-- The scan loop never touches `key` or the keypad. -/
theorem await_key_scan_frame :
    ∀ (n i : Nat) (chip8 : CHIP_8),
      (await_key_scan n i chip8).key = chip8.key ∧
      (await_key_scan n i chip8).keypad = chip8.keypad := by
  intro n
  induction n with
  | zero => intro i chip8; exact ⟨rfl, rfl⟩
  | succ n ih =>
    intro i chip8
    rw [await_key_scan]
    split
    · split
      · exact ih (i + 1) _
      · exact ih (i + 1) _
    · exact ⟨rfl, rfl⟩

/-- Once `anykey_pressed` is set the scan loop leaves it set. -/
theorem await_key_scan_keeps_seen :
    ∀ (n i : Nat) (chip8 : CHIP_8), chip8.anykey_pressed = true →
      (await_key_scan n i chip8).anykey_pressed = true := by
  intro n
  induction n with
  | zero => intro i chip8 h; exact h
  | succ n ih =>
    intro i chip8 h
    rw [await_key_scan]
    split
    · split
      · exact ih (i + 1) _ rfl
      · exact ih (i + 1) _ h
    · exact h

/-- With `key` at `0xFF` the scan loop sets `anykey_pressed` as soon as a key in the
scanned range is held. -/
theorem await_key_scan_sees :
    ∀ (n i : Nat) (chip8 : CHIP_8), chip8.key = 0xFF →
      (∃ k, i ≤ k ∧ k < i + n ∧ chip8.keypad k = true) →
      (await_key_scan n i chip8).anykey_pressed = true := by
  intro n
  induction n with
  | zero =>
    intro i chip8 _ hk
    obtain ⟨k, h1, h2, _⟩ := hk
    omega
  | succ n ih =>
    intro i chip8 hkey hk
    obtain ⟨k, h1, h2, h3⟩ := hk
    rw [await_key_scan, if_pos hkey]
    by_cases hi : chip8.keypad i = true
    · simp only [hi, if_true]
      exact await_key_scan_keeps_seen n (i + 1) _ rfl
    · have hki : k ≠ i := fun hki => hi (hki ▸ h3)
      simp only [hi]
      exact ih (i + 1) chip8 hkey ⟨k, by omega, by omega, h3⟩

theorem to_u16_sub_two (pc : Nat) (h : pc < 65536) :
    to_u16 (((pc + 2 : Nat) : Int) - 2) = pc := by
  unfold to_u16
  omega

/-- The body of `0xFX0A` when no key has been seen and none is held: the program counter
steps back by 2. -/
theorem await_key_idle (chip8 : CHIP_8) (hany : chip8.anykey_pressed = false)
    (hkeys : ∀ k, k < 16 → chip8.keypad k = false) :
    await_key chip8 = .ok { chip8 with PC := to_u16 ((chip8.PC : Int) - 2) } := by
  have hscan : await_key_scan 16 0 chip8 = chip8 :=
    await_key_scan_idle 16 0 chip8 (fun k _ hk => hkeys k (by omega))
  unfold await_key
  simp only [hscan, hany]
  rfl

/-- The body of `0xFX0A` when a key is held and `key` is `0xFF`: the test
`chip8->keypad[key]` reads index 255. -/
theorem await_key_reads_255 (chip8 : CHIP_8) (hkey : chip8.key = 0xFF)
    (hheld : ∃ k, k < 16 ∧ chip8.keypad k = true) :
    await_key chip8 = .error (.keypad_read 255) := by
  obtain ⟨k, hk, hkp⟩ := hheld
  have hseen : (await_key_scan 16 0 chip8).anykey_pressed = true :=
    await_key_scan_sees 16 0 chip8 hkey ⟨k, Nat.zero_le k, by omega, hkp⟩
  have hk2 : (await_key_scan 16 0 chip8).key = 0xFF :=
    (await_key_scan_frame 16 0 chip8).1.trans hkey
  unfold await_key
  simp only [hseen, hk2, keypad_read]
  rfl

/-- One cycle on `FX0A` while idle. -/
theorem await_cycle_idle (config : CONFIG_T) (rand_value : Nat) (chip8 : CHIP_8) (X : Nat)
    (hX : X < 16) (h : holds_instruction chip8 (0xF0 + X) 0x0A)
    (hany : chip8.anykey_pressed = false)
    (hkeys : ∀ k, k < 16 → chip8.keypad k = false) :
    emulate_instructions config rand_value chip8 =
      .ok { fetched chip8 15 X 0 10 with PC := chip8.PC } := by
  have hpc : chip8.PC + 1 < 4096 := h.1
  rw [emulate_instructions_fetched config rand_value chip8 15 X 0 10 (by omega)
      hX (by omega) (by omega) h,
    execute_family_F config rand_value (fetched chip8 15 X 0 10)
      (fetched_family chip8 15 X 0 10 (by omega) hX (by omega) (by omega)),
    execute_F_await config (fetched chip8 15 X 0 10) rfl,
    await_key_idle (fetched chip8 15 X 0 10) hany hkeys]
  show Except.ok { fetched chip8 15 X 0 10 with
    PC := to_u16 (((chip8.PC + 2 : Nat) : Int) - 2) } = _
  rw [to_u16_sub_two chip8.PC (by omega)]

/-- One cycle on `FX0A` with a key held and `key` at `0xFF`. -/
theorem await_cycle_key_held (config : CONFIG_T) (rand_value : Nat) (chip8 : CHIP_8) (X : Nat)
    (hX : X < 16) (h : holds_instruction chip8 (0xF0 + X) 0x0A)
    (hkey : chip8.key = 0xFF) (hheld : ∃ k, k < 16 ∧ chip8.keypad k = true) :
    emulate_instructions config rand_value chip8 = .error (.keypad_read 255) := by
  rw [emulate_instructions_fetched config rand_value chip8 15 X 0 10 (by omega)
      hX (by omega) (by omega) h,
    execute_family_F config rand_value (fetched chip8 15 X 0 10)
      (fetched_family chip8 15 X 0 10 (by omega) hX (by omega) (by omega)),
    execute_F_await config (fetched chip8 15 X 0 10) rfl,
    await_key_reads_255 (fetched chip8 15 X 0 10) hkey hheld]

/-- C19: with await-key `FX0A` at the program counter, no key held and no key press
seen yet, one cycle leaves the program counter at its value before the fetch, so the same
instruction runs again, and apart from the decoded instruction nothing in the machine
changes. -/
theorem C19_await_key_idle_cycle (config : CONFIG_T) (rand_value : Nat) (chip8 : CHIP_8)
    (X : Nat) (hX : X < 16) (h : holds_instruction chip8 (0xF0 + X) 0x0A)
    (hany : chip8.anykey_pressed = false)
    (hkeys : ∀ k, k < 16 → chip8.keypad k = false) :
    ∃ s, emulate_instructions config rand_value chip8 = .ok s ∧
      s = { chip8 with inst := s.inst } ∧ holds_instruction s (0xF0 + X) 0x0A := by
  rw [await_cycle_idle config rand_value chip8 X hX h hany hkeys]
  exact ⟨_, rfl, rfl, h⟩

/-- C19 witness: `F30A` with no key held stays at `0x200`. -/
theorem C19_await_key_idle_cycle_witness :
    ∃ s, emulate_instructions default_config 0 await_idle_example = .ok s ∧
      s.PC = 0x200 ∧ s.V = await_idle_example.V := by
  obtain ⟨s, hs, he, _⟩ :=
    C19_await_key_idle_cycle default_config 0 await_idle_example 3 (by decide) (by decide) rfl
      (fun _ _ => rfl)
  refine ⟨s, hs, ?_, ?_⟩
  · rw [he]; rfl
  · rw [he]

/-- C18: evaluation at the failing input.  `F30A` is at the program counter, key 5 is held
and the `static` locals have their initial values (`key == 0xFF`).  The scan sets
`anykey_pressed` and `V[3]` but never assigns `key`, so the release test
`chip8->keypad[key]` reads `keypad[255]`, outside the 16-entry latch, instead of
`keypad[5]`. -/
theorem C18_await_key_tests_index_255 :
    emulate_instructions default_config 0 (key_example 0xF30A 0)
      = .error (.keypad_read 255) :=
  await_cycle_key_held default_config 0 (key_example 0xF30A 0) 3 (by decide) (by decide) rfl
    ⟨5, by decide, by decide⟩

/-! ## Opcodes outside the defined set -/

theorem execute_family_0 (config : CONFIG_T) (rand_value : Nat) (chip8 : CHIP_8)
    (hfam : (chip8.inst.opcode >>> 12) &&& 0x0F = 0) :
    execute config rand_value chip8 =
      if chip8.inst.NN = 0xE0 then .ok { chip8 with display := fun _ => false }
      else if chip8.inst.NN = 0xEE then
        if chip8.stack_ptr = 0 then .error (.stack_read (-1))
        else if chip8.stack_ptr - 1 < 12 then
          .ok { chip8 with stack_ptr := chip8.stack_ptr - 1
                           PC := chip8.stack (chip8.stack_ptr - 1) }
        else .error (.stack_read ((chip8.stack_ptr : Int) - 1))
      else .ok chip8 := by
  unfold execute
  rw [hfam]

/-- One cycle on `9XYN`, whatever `N` is: the source compares `V[X]` with `V[Y]` without
looking at `N`. -/
theorem skip_ne_reg_cycle (config : CONFIG_T) (rand_value : Nat) (chip8 : CHIP_8)
    (X Y N : Nat) (hX : X < 16) (hY : Y < 16) (hN : N < 16)
    (h : holds_instruction chip8 (0x90 + X) (Y * 16 + N)) :
    emulate_instructions config rand_value chip8 =
      .ok { fetched chip8 9 X Y N with
            PC := chip8.PC + (if chip8.V X ≠ chip8.V Y then 4 else 2) } := by
  have hpc : chip8.PC + 1 < 4096 := h.1
  rw [emulate_instructions_fetched config rand_value chip8 9 X Y N (by omega)
      hX hY hN h,
    execute_family_9 config rand_value (fetched chip8 9 X Y N)
      (fetched_family chip8 9 X Y N (by omega) hX hY hN)]
  show (if chip8.V X ≠ chip8.V Y then
      Except.ok { fetched chip8 9 X Y N with PC := (chip8.PC + 2 + 2) % 65536 }
    else Except.ok (fetched chip8 9 X Y N)) = _
  rw [show (chip8.PC + 2 + 2) % 65536 = chip8.PC + 4 by omega]
  by_cases hc : chip8.V X ≠ chip8.V Y
  · rw [if_pos hc, if_pos hc]
  · rw [if_neg hc, if_neg hc]; rfl

/-- One cycle on `0XE0`, whatever `X` is: the source tests the low byte only and clears
the display. -/
theorem clear_screen_cycle (config : CONFIG_T) (rand_value : Nat) (chip8 : CHIP_8)
    (X : Nat) (hX : X < 16) (h : holds_instruction chip8 (0x00 + X) 0xE0) :
    emulate_instructions config rand_value chip8 =
      .ok { fetched chip8 0 X 14 0 with display := fun _ => false } := by
  rw [emulate_instructions_fetched config rand_value chip8 0 X 14 0 (by omega)
      hX (by omega) (by omega) h,
    execute_family_0 config rand_value (fetched chip8 0 X 14 0)
      (fetched_family chip8 0 X 14 0 (by omega) hX (by omega) (by omega)),
    if_pos (show (fetched chip8 0 X 14 0).inst.NN = 0xE0 from rfl)]

theorem execute_family_8 (config : CONFIG_T) (rand_value : Nat) (chip8 : CHIP_8)
    (hfam : (chip8.inst.opcode >>> 12) &&& 0x0F = 8) :
    execute config rand_value chip8 = execute_8 config chip8 := by
  unfold execute
  rw [hfam]

theorem execute_8_undefined (config : CONFIG_T) (chip8 : CHIP_8)
    (hN : (8 ≤ chip8.inst.N ∧ chip8.inst.N ≤ 0xD) ∨ chip8.inst.N = 0xF) :
    execute_8 config chip8 = .ok chip8 := by
  unfold execute_8
  split <;> first | rfl | (exfalso; omega)

theorem execute_F_undefined (config : CONFIG_T) (chip8 : CHIP_8)
    (hNN : chip8.inst.NN ≠ 0x0A ∧ chip8.inst.NN ≠ 0x1E ∧ chip8.inst.NN ≠ 0x07 ∧
      chip8.inst.NN ≠ 0x15 ∧ chip8.inst.NN ≠ 0x29 ∧ chip8.inst.NN ≠ 0x33 ∧
      chip8.inst.NN ≠ 0x55 ∧ chip8.inst.NN ≠ 0x65) :
    execute_F config chip8 = .ok chip8 := by
  unfold execute_F
  split <;> first | rfl | (exfalso; omega)

/-- The opcodes outside the defined set that the engine does skip: `0NNN` with a low byte
other than `E0` and `EE`, `5XYN` with `N ≠ 0`, `8XYN` with `N` in 8..D or F, `EXNN` other
than `EX9E` and `EXA1`, and `FXNN` with an undefined low byte.  One cycle only advances the
program counter by 2 (and fills in the decoded instruction). -/
theorem unrecognized_cycle (config : CONFIG_T) (rand_value : Nat) (chip8 : CHIP_8)
    (op X Y N : Nat) (hop : op < 16) (hX : X < 16) (hY : Y < 16) (hN : N < 16)
    (h : holds_instruction chip8 (op * 16 + X) (Y * 16 + N))
    (hun : (op = 0 ∧ Y * 16 + N ≠ 0xE0 ∧ Y * 16 + N ≠ 0xEE) ∨
      (op = 5 ∧ N ≠ 0) ∨
      (op = 8 ∧ ((8 ≤ N ∧ N ≤ 0xD) ∨ N = 0xF)) ∨
      (op = 0xE ∧ Y * 16 + N ≠ 0x9E ∧ Y * 16 + N ≠ 0xA1) ∨
      (op = 0xF ∧ Y * 16 + N ≠ 0x0A ∧ Y * 16 + N ≠ 0x1E ∧ Y * 16 + N ≠ 0x07 ∧
        Y * 16 + N ≠ 0x15 ∧ Y * 16 + N ≠ 0x29 ∧ Y * 16 + N ≠ 0x33 ∧
        Y * 16 + N ≠ 0x55 ∧ Y * 16 + N ≠ 0x65)) :
    emulate_instructions config rand_value chip8 = .ok (fetched chip8 op X Y N) := by
  rw [emulate_instructions_fetched config rand_value chip8 op X Y N hop hX hY hN h]
  have hfam := fetched_family chip8 op X Y N hop hX hY hN
  rcases hun with ⟨h0, h1, h2⟩ | ⟨h0, h1⟩ | ⟨h0, h1⟩ | ⟨h0, h1, h2⟩ | ⟨h0, h1⟩
  · subst h0
    rw [execute_family_0 config rand_value _ hfam,
      if_neg (show ¬ (fetched chip8 0 X Y N).inst.NN = 0xE0 from h1),
      if_neg (show ¬ (fetched chip8 0 X Y N).inst.NN = 0xEE from h2)]
  · subst h0
    rw [execute_family_5 config rand_value _ hfam,
      if_pos (show (fetched chip8 5 X Y N).inst.N ≠ 0 from h1)]
  · subst h0
    rw [execute_family_8 config rand_value _ hfam]
    exact execute_8_undefined config _ h1
  · subst h0
    rw [execute_family_E config rand_value _ hfam,
      if_neg (show ¬ (fetched chip8 14 X Y N).inst.NN = 0x9E from h1),
      if_neg (show ¬ (fetched chip8 14 X Y N).inst.NN = 0xA1 from h2)]
  · subst h0
    rw [execute_family_F config rand_value _ hfam]
    exact execute_F_undefined config _ h1

/-- C12: evaluation at two failing inputs.  `9241` (a `9XYN` with `N = 1`) with
`V[2] = 7` and `V[4] = 9` is executed as skip-if-not-equal and advances the program
counter by 4, not 2: `case 0x09` does not test `N`, unlike `case 0x05`.  `01E0` (a `0NNN`
other than `00E0`) clears the framebuffer: `case 0x00` tests the low byte only. -/
theorem C12_undefined_opcodes_executed :
    (∃ s, emulate_instructions default_config 0 (skip_example 0x9241) = .ok s ∧
      (skip_example 0x9241).PC = 0x200 ∧ s.PC = 0x204) ∧
    (∃ s, emulate_instructions default_config 0 (lit_example 0x01E0) = .ok s ∧
      (lit_example 0x01E0).display 0 = true ∧ s.display 0 = false) := by
  constructor
  · rw [skip_ne_reg_cycle default_config 0 (skip_example 0x9241) 2 4 1 (by decide)
      (by decide) (by decide) (by decide)]
    exact ⟨_, rfl, rfl, rfl⟩
  · rw [clear_screen_cycle default_config 0 (lit_example 0x01E0) 1 (by decide) (by decide)]
    exact ⟨_, rfl, rfl, rfl⟩

/-! ## Machine construction -/

theorem fread_count_whole (n : Nat) (h : 0 < n) : fread_count n 1 n = 1 := by
  unfold fread_count
  rw [if_neg (by omega), Nat.div_self h]
  rfl

/-- Construction succeeds on every image of 1 to 3584 bytes: the image is copied
verbatim from `0x200` on, the font sits in bytes 0..79, and the machine starts `RUNNING`
at `0x200` with an empty stack. -/
theorem init_chip8_loads (chip8 : CHIP_8) (image : List Nat) (h0 : 0 < image.length)
    (h1 : image.length ≤ 3584) :
    (init_chip8 chip8 (some image)).1 = true ∧
    (∀ i, i < image.length →
      (init_chip8 chip8 (some image)).2.ram (0x200 + i) = image.getD i 0) ∧
    (∀ i, i < 80 → (init_chip8 chip8 (some image)).2.ram i = font.getD i 0) ∧
    (init_chip8 chip8 (some image)).2.PC = 0x200 ∧
    (init_chip8 chip8 (some image)).2.state = .RUNNING ∧
    (init_chip8 chip8 (some image)).2.stack_ptr = 0 := by
  have hsize : ¬ image.length > 4096 - 0x200 := by omega
  have hinit : init_chip8 chip8 (some image) =
      (true, { chip8 with
        ram := copy_bytes (copy_bytes chip8.ram 0 font) 0x200 image
        state := .RUNNING, PC := 0x200, stack_ptr := 0 }) := by
    unfold init_chip8
    simp only [if_neg hsize, fread_count_whole image.length h0, Nat.one_mul,
      List.take_length, ne_eq, not_true_eq_false, if_false]
  rw [hinit]
  refine ⟨rfl, ?_, ?_, rfl, rfl, rfl⟩
  · intro i hi
    show copy_bytes (copy_bytes chip8.ram 0 font) 0x200 image (0x200 + i) = _
    unfold copy_bytes
    rw [if_pos ⟨by omega, by omega⟩, Nat.add_sub_cancel_left]
  · intro i hi
    show copy_bytes (copy_bytes chip8.ram 0 font) 0x200 image i = _
    unfold copy_bytes
    rw [if_neg (by omega), if_pos ⟨by omega, by simpa [font] using hi⟩, Nat.sub_zero]

/-- Construction fails on every image longer than 3584 bytes. -/
theorem init_chip8_too_large (chip8 : CHIP_8) (image : List Nat) (h : 3584 < image.length) :
    (init_chip8 chip8 (some image)).1 = false := by
  have hsize : image.length > 4096 - 0x200 := by omega
  unfold init_chip8
  simp only [if_pos hsize]

/-- C13: evaluation at the failing input, the empty program image.  Its size 0 passes the
size test, `fread(&chip8->ram[entry_point], 0, 1, rom)` returns 0, and the test `!= 1`
makes `init_chip8` return `false`. -/
theorem C13_empty_image_rejected :
    fread_count 0 1 0 = 0 ∧ (init_chip8 blank (some [])).1 = false := by
  constructor <;> rfl

/-! ## Index-relative accesses past the end of `ram` -/

theorem execute_F_bcd (config : CONFIG_T) (chip8 : CHIP_8) (hNN : chip8.inst.NN = 0x33) :
    execute_F config chip8 = store_bcd chip8 := by
  unfold execute_F
  rw [hNN]

/-- Body of `0xFX33` with `I + 2` outside `ram`: the first assignment,
`chip8->ram[chip8->I + 2] = bcd % 10`, is the access outside. -/
theorem store_bcd_outside (chip8 : CHIP_8) (h : 4096 ≤ chip8.I + 2) :
    store_bcd chip8 = .error (.ram_write (chip8.I + 2)) := by
  unfold store_bcd ram_write
  simp only [if_neg (show ¬ chip8.I + 2 < 4096 by omega)]

/-- The dump loop under the `CHIP8` setting started with `I` outside `ram`. -/
theorem register_dump_chip8_outside (config : CONFIG_T) (hex : config.current_ex = CHIP8)
    (n i : Nat) (chip8 : CHIP_8) (hI : 4096 ≤ chip8.I) :
    register_dump config (n + 1) i chip8 = .error (.ram_write chip8.I) := by
  rw [register_dump, if_pos hex, ram_write, if_neg (by omega)]

/-- The dump loop under the `CHIP8` setting running past the end of `ram`. -/
theorem register_dump_chip8_past_end (config : CONFIG_T) (hex : config.current_ex = CHIP8) :
    ∀ (n i : Nat) (chip8 : CHIP_8), chip8.I ≤ 4096 → 4096 < chip8.I + n →
      register_dump config n i chip8 = .error (.ram_write 4096) := by
  intro n
  induction n with
  | zero => intro i chip8 h1 h2; omega
  | succ n ih =>
    intro i chip8 h1 h2
    by_cases hI : chip8.I = 4096
    · rw [register_dump_chip8_outside config hex n i chip8 (by omega), hI]
    · have h0 : chip8.I < 4096 := by omega
      have hmod : (chip8.I + 1) % 65536 = chip8.I + 1 := by omega
      rw [register_dump, if_pos hex, ram_write, if_pos h0]
      exact ih (i + 1) _ (by show (chip8.I + 1) % 65536 ≤ 4096; omega)
        (by show 4096 < (chip8.I + 1) % 65536 + n; omega)

/-- The dump loop under any other setting running past the end of `ram`. -/
theorem register_dump_other_past_end (config : CONFIG_T) (hex : config.current_ex ≠ CHIP8) :
    ∀ (n i : Nat) (chip8 : CHIP_8), 4096 < chip8.I + i + n →
      0 < n → register_dump config n i chip8 = .error (.ram_write (max (chip8.I + i) 4096)) := by
  intro n
  induction n with
  | zero => intro i chip8 _ h2; omega
  | succ n ih =>
    intro i chip8 h1 _
    by_cases hI : 4096 ≤ chip8.I + i
    · rw [register_dump, if_neg hex, ram_write, if_neg (by omega), Nat.max_eq_left hI]
    · have h0 : chip8.I + i < 4096 := by omega
      rw [register_dump, if_neg hex, ram_write, if_pos h0]
      refine (ih (i + 1) { chip8 with ram := store chip8.ram (chip8.I + i) (chip8.V i) }
        (by show 4096 < chip8.I + (i + 1) + n; omega) (by omega)).trans ?_
      show Except.error (Undefined.ram_write (max (chip8.I + (i + 1)) 4096)) = _
      rw [Nat.max_eq_right (by omega), Nat.max_eq_right (by omega)]

/-- The load loop under the `CHIP8` setting started with `I` outside `ram`. -/
theorem register_load_chip8_outside (config : CONFIG_T) (hex : config.current_ex = CHIP8)
    (n i : Nat) (chip8 : CHIP_8) (hI : 4096 ≤ chip8.I) :
    register_load config (n + 1) i chip8 = .error (.ram_read chip8.I) := by
  rw [register_load, if_pos hex, ram_read, if_neg (by omega)]

/-- The load loop under the `CHIP8` setting running past the end of `ram`. -/
theorem register_load_chip8_past_end (config : CONFIG_T) (hex : config.current_ex = CHIP8) :
    ∀ (n i : Nat) (chip8 : CHIP_8), chip8.I ≤ 4096 → 4096 < chip8.I + n →
      register_load config n i chip8 = .error (.ram_read 4096) := by
  intro n
  induction n with
  | zero => intro i chip8 h1 h2; omega
  | succ n ih =>
    intro i chip8 h1 h2
    by_cases hI : chip8.I = 4096
    · rw [register_load_chip8_outside config hex n i chip8 (by omega), hI]
    · have h0 : chip8.I < 4096 := by omega
      have hmod : (chip8.I + 1) % 65536 = chip8.I + 1 := by omega
      rw [register_load, if_pos hex, ram_read, if_pos h0]
      exact ih (i + 1) _ (by show (chip8.I + 1) % 65536 ≤ 4096; omega)
        (by show 4096 < (chip8.I + 1) % 65536 + n; omega)

/-- The load loop under any other setting running past the end of `ram`. -/
theorem register_load_other_past_end (config : CONFIG_T) (hex : config.current_ex ≠ CHIP8) :
    ∀ (n i : Nat) (chip8 : CHIP_8), 4096 < chip8.I + i + n →
      0 < n → register_load config n i chip8 = .error (.ram_read (max (chip8.I + i) 4096)) := by
  intro n
  induction n with
  | zero => intro i chip8 _ h2; omega
  | succ n ih =>
    intro i chip8 h1 _
    by_cases hI : 4096 ≤ chip8.I + i
    · rw [register_load, if_neg hex, ram_read, if_neg (by omega), Nat.max_eq_left hI]
    · have h0 : chip8.I + i < 4096 := by omega
      rw [register_load, if_neg hex, ram_read, if_pos h0]
      refine (ih (i + 1) { chip8 with V := store chip8.V i (chip8.ram (chip8.I + i)) }
        (by show 4096 < chip8.I + (i + 1) + n; omega) (by omega)).trans ?_
      show Except.error (Undefined.ram_read (max (chip8.I + (i + 1)) 4096)) = _
      rw [Nat.max_eq_right (by omega), Nat.max_eq_right (by omega)]

/-- The sprite loop started with `I + i` outside `ram`. -/
theorem draw_rows_outside (config : CONFIG_T) (orig_X n i Y_coord : Nat) (s : CHIP_8)
    (h : 4096 ≤ s.I + i) :
    draw_rows config orig_X (n + 1) i Y_coord s = .error (.ram_read (s.I + i)) := by
  rw [draw_rows_succ, ram_read, if_neg (by omega)]

/-- The sprite loop on the 64 by 32 display reaching the end of `ram` before the sprite
ends or the bottom edge clips it. -/
theorem draw_rows_past_end (config : CONFIG_T) (hw : config.window_width = 64)
    (hh : config.window_height = 32) (orig_X : Nat) (hX : orig_X < 64) :
    ∀ (n i Y_coord : Nat) (s : CHIP_8), s.I + i ≤ 4096 →
      4096 - (s.I + i) < n → Y_coord + (4096 - (s.I + i)) < 32 →
      draw_rows config orig_X n i Y_coord s = .error (.ram_read 4096) := by
  intro n
  induction n with
  | zero => intro i Y_coord s _ h2 _; omega
  | succ n ih =>
    intro i Y_coord s h1 h2 h3
    by_cases hI : s.I + i = 4096
    · rw [draw_rows_outside config orig_X n i Y_coord s (by omega), hI]
    · have hrd : ram_read s (s.I + i) = .ok (s.ram (s.I + i)) := by
        rw [ram_read, if_pos (by omega)]
      obtain ⟨s1, hs1, hb1⟩ :=
        draw_row_blit config hw (s.ram (s.I + i)) Y_coord (by omega) 8 orig_X s hX
      have hY1 : (Y_coord + 1) % 256 = Y_coord + 1 := by omega
      rw [draw_rows_succ, hrd]
      simp only [hs1, hY1, hh]
      rw [if_neg (by omega)]
      exact ih (i + 1) (Y_coord + 1) s1 (by rw [hb1.I_eq]; omega) (by rw [hb1.I_eq]; omega)
        (by rw [hb1.I_eq]; omega)

/-- One cycle on `FX33` with `I + 2` outside `ram`. -/
theorem bcd_cycle_outside (config : CONFIG_T) (rand_value : Nat) (chip8 : CHIP_8) (X : Nat)
    (hX : X < 16) (h : holds_instruction chip8 (0xF0 + X) 0x33) (hI : 4095 < chip8.I + 2) :
    emulate_instructions config rand_value chip8 = .error (.ram_write (chip8.I + 2)) := by
  rw [emulate_instructions_fetched config rand_value chip8 15 X 3 3 (by omega) hX (by omega)
      (by omega) h,
    execute_family_F config rand_value (fetched chip8 15 X 3 3)
      (fetched_family chip8 15 X 3 3 (by omega) hX (by omega) (by omega)),
    execute_F_bcd config (fetched chip8 15 X 3 3) rfl]
  exact store_bcd_outside (fetched chip8 15 X 3 3) (by show 4096 ≤ chip8.I + 2; omega)

/-- One cycle on `FX55` with `I + X` outside `ram`. -/
theorem dump_cycle_outside (config : CONFIG_T) (rand_value : Nat) (chip8 : CHIP_8) (X : Nat)
    (hX : X < 16) (h : holds_instruction chip8 (0xF0 + X) 0x55) (hI : 4095 < chip8.I + X) :
    emulate_instructions config rand_value chip8 =
      .error (.ram_write (max chip8.I 4096)) := by
  rw [emulate_instructions_fetched config rand_value chip8 15 X 5 5 (by omega) hX (by omega)
      (by omega) h,
    execute_family_F config rand_value (fetched chip8 15 X 5 5)
      (fetched_family chip8 15 X 5 5 (by omega) hX (by omega) (by omega)),
    execute_F_dump config (fetched chip8 15 X 5 5) rfl]
  show register_dump config (X + 1) 0 (fetched chip8 15 X 5 5) = _
  by_cases hex : config.current_ex = CHIP8
  · by_cases hout : 4096 ≤ chip8.I
    · rw [register_dump_chip8_outside config hex X 0 (fetched chip8 15 X 5 5) hout,
        Nat.max_eq_left hout]
      rfl
    · rw [register_dump_chip8_past_end config hex (X + 1) 0 (fetched chip8 15 X 5 5)
          (by show chip8.I ≤ 4096; omega) (by show 4096 < chip8.I + (X + 1); omega),
        Nat.max_eq_right (by omega)]
  · exact register_dump_other_past_end config hex (X + 1) 0 (fetched chip8 15 X 5 5)
      (by show 4096 < chip8.I + 0 + (X + 1); omega) (by omega)

/-- One cycle on `FX65` with `I + X` outside `ram`. -/
theorem load_cycle_outside (config : CONFIG_T) (rand_value : Nat) (chip8 : CHIP_8) (X : Nat)
    (hX : X < 16) (h : holds_instruction chip8 (0xF0 + X) 0x65) (hI : 4095 < chip8.I + X) :
    emulate_instructions config rand_value chip8 =
      .error (.ram_read (max chip8.I 4096)) := by
  rw [emulate_instructions_fetched config rand_value chip8 15 X 6 5 (by omega) hX (by omega)
      (by omega) h,
    execute_family_F config rand_value (fetched chip8 15 X 6 5)
      (fetched_family chip8 15 X 6 5 (by omega) hX (by omega) (by omega)),
    execute_F_load config (fetched chip8 15 X 6 5) rfl]
  show register_load config (X + 1) 0 (fetched chip8 15 X 6 5) = _
  by_cases hex : config.current_ex = CHIP8
  · by_cases hout : 4096 ≤ chip8.I
    · rw [register_load_chip8_outside config hex X 0 (fetched chip8 15 X 6 5) hout,
        Nat.max_eq_left hout]
      rfl
    · rw [register_load_chip8_past_end config hex (X + 1) 0 (fetched chip8 15 X 6 5)
          (by show chip8.I ≤ 4096; omega) (by show 4096 < chip8.I + (X + 1); omega),
        Nat.max_eq_right (by omega)]
  · exact register_load_other_past_end config hex (X + 1) 0 (fetched chip8 15 X 6 5)
      (by show 4096 < chip8.I + 0 + (X + 1); omega) (by omega)

/-- One cycle on `DXYN` on the 64 by 32 display when one of the sprite rows that are
drawn (the first `min N (32 - V[Y] % 32)` of them) lies outside `ram`. -/
theorem draw_cycle_outside (config : CONFIG_T) (hw : config.window_width = 64)
    (hh : config.window_height = 32) (rand_value : Nat) (chip8 : CHIP_8) (X Y N : Nat)
    (hX : X < 16) (hY : Y < 16) (hN : N < 16)
    (h : holds_instruction chip8 (0xD0 + X) (Y * 16 + N)) (hN0 : 0 < N)
    (hI : 4096 < chip8.I + min N (32 - chip8.V Y % 32)) :
    emulate_instructions config rand_value chip8 =
      .error (.ram_read (max chip8.I 4096)) := by
  rw [emulate_instructions_fetched config rand_value chip8 13 X Y N (by omega) hX hY hN h,
    execute_family_D config rand_value (fetched chip8 13 X Y N)
      (fetched_family chip8 13 X Y N (by omega) hX hY hN)]
  have hx64 : chip8.V X % 64 % 256 = chip8.V X % 64 := by omega
  have hy32 : chip8.V Y % 32 % 256 = chip8.V Y % 32 := by omega
  have hcfg : ¬ (config.window_width = 0 ∨ config.window_height = 0) := by omega
  have hdraw : draw_sprite config (fetched chip8 13 X Y N) =
      draw_rows config (chip8.V X % 64) N 0 (chip8.V Y % 32)
        { fetched chip8 13 X Y N with V := store chip8.V 0xF 0 } := by
    unfold draw_sprite
    rw [if_neg hcfg]
    show draw_rows config (chip8.V X % config.window_width % 256) N 0
        (chip8.V Y % config.window_height % 256) _ = _
    rw [hw, hh, hx64, hy32]
    rfl
  rw [hdraw]
  by_cases hout : 4096 ≤ chip8.I
  · obtain ⟨n, rfl⟩ : ∃ n, N = n + 1 := ⟨N - 1, by omega⟩
    rw [draw_rows_outside config _ n 0 _ _ (by show 4096 ≤ chip8.I + 0; omega),
      Nat.max_eq_left hout]
    rfl
  · rw [draw_rows_past_end config hw hh (chip8.V X % 64) (by omega) N 0 (chip8.V Y % 32)
        { fetched chip8 13 X Y N with V := store chip8.V 0xF 0 }
        (by show chip8.I + 0 ≤ 4096; omega)
        (by show 4096 - (chip8.I + 0) < N; omega)
        (by show chip8.V Y % 32 + (4096 - (chip8.I + 0)) < 32; omega),
      Nat.max_eq_right (by omega)]

/-- C14 (amended): the engine makes no bounds check on index-relative accesses and has
no out-of-bounds report.  When `I` plus the offset passes 4095 it performs the access: the
first address outside `ram` that it touches is `I + 2` for store-bcd, and the larger of
`I` and 4096 for register-dump, register-load and draw-sprite (for draw-sprite on the 64
by 32 display, counting only the rows that the bottom edge does not clip). -/
theorem C14_index_accesses_unchecked (config : CONFIG_T) (rand_value : Nat) (chip8 : CHIP_8)
    (X Y N : Nat) (hX : X < 16) (hY : Y < 16) (hN : N < 16) :
    (holds_instruction chip8 (0xF0 + X) 0x33 → 4095 < chip8.I + 2 →
      emulate_instructions config rand_value chip8 = .error (.ram_write (chip8.I + 2))) ∧
    (holds_instruction chip8 (0xF0 + X) 0x55 → 4095 < chip8.I + X →
      emulate_instructions config rand_value chip8 =
        .error (.ram_write (max chip8.I 4096))) ∧
    (holds_instruction chip8 (0xF0 + X) 0x65 → 4095 < chip8.I + X →
      emulate_instructions config rand_value chip8 =
        .error (.ram_read (max chip8.I 4096))) ∧
    (holds_instruction chip8 (0xD0 + X) (Y * 16 + N) →
      config.window_width = 64 → config.window_height = 32 → 0 < N →
      4096 < chip8.I + min N (32 - chip8.V Y % 32) →
      emulate_instructions config rand_value chip8 =
        .error (.ram_read (max chip8.I 4096))) :=
  ⟨fun h hI => bcd_cycle_outside config rand_value chip8 X hX h hI,
   fun h hI => dump_cycle_outside config rand_value chip8 X hX h hI,
   fun h hI => load_cycle_outside config rand_value chip8 X hX h hI,
   fun h hw hh hN0 hI =>
     draw_cycle_outside config hw hh rand_value chip8 X Y N hX hY hN h hN0 hI⟩

/-- C14 witness: with `I = 4095`, `F033` addresses `ram[4097]`, and `F155`, `F165` and
`D012` address `ram[4096]`. -/
theorem C14_index_accesses_unchecked_witness :
    emulate_instructions default_config 0 (edge_example 0xF033) = .error (.ram_write 4097) ∧
    emulate_instructions default_config 0 (edge_example 0xF155) = .error (.ram_write 4096) ∧
    emulate_instructions default_config 0 (edge_example 0xF165) = .error (.ram_read 4096) ∧
    emulate_instructions default_config 0 (edge_example 0xD012) = .error (.ram_read 4096) :=
  ⟨(C14_index_accesses_unchecked default_config 0 (edge_example 0xF033) 0 0 0 (by decide)
      (by decide) (by decide)).1 (by decide) (by decide),
   (C14_index_accesses_unchecked default_config 0 (edge_example 0xF155) 1 0 0 (by decide)
      (by decide) (by decide)).2.1 (by decide) (by decide),
   (C14_index_accesses_unchecked default_config 0 (edge_example 0xF165) 1 0 0 (by decide)
      (by decide) (by decide)).2.2.1 (by decide) (by decide),
   (C14_index_accesses_unchecked default_config 0 (edge_example 0xD012) 0 1 2 (by decide)
      (by decide) (by decide)).2.2.2 (by decide) rfl rfl (by decide) (by decide)⟩

/-- C14 counterexample: store-bcd `F233` with `I = 4095`.  The source executes
`chip8->ram[chip8->I + 2] = bcd % 10` first, a write to `ram[4097]`, outside the 4096-byte
memory; nothing is checked or reported. -/
theorem C14_store_bcd_writes_past_ram :
    (edge_example 0xF233).I = 4095 ∧
    emulate_instructions default_config 0 (edge_example 0xF233) = .error (.ram_write 4097) :=
  ⟨rfl, bcd_cycle_outside default_config 0 (edge_example 0xF233) 2 (by decide) (by decide)
    (by decide)⟩

/-! ## What one cycle can write to `ram` -/

/-- The row loop leaves `ram` and `I` alone. -/
theorem draw_row_ram (config : CONFIG_T) (sprite_data Y_coord : Nat) :
    ∀ (k X_coord : Nat) (s t : CHIP_8),
      draw_row config sprite_data Y_coord k X_coord s = .ok t →
      t.ram = s.ram ∧ t.I = s.I := by
  intro k
  induction k with
  | zero =>
    intro X_coord s t h
    cases h
    exact ⟨rfl, rfl⟩
  | succ k ih =>
    intro X_coord s t h
    rw [draw_row_succ] at h
    generalize hs1 : (if sprite_bit sprite_data k &&
            s.display ((Y_coord * config.window_width + X_coord) % 4294967296)
          then { s with V := store s.V 0xF 1 } else s) = s1 at h
    have hfr : s1.ram = s.ram ∧ s1.I = s.I := by
      rw [← hs1]
      split <;> exact ⟨rfl, rfl⟩
    by_cases hidx : (Y_coord * config.window_width + X_coord) % 4294967296 < 2048
    · rw [if_pos hidx] at h
      by_cases hedge : (X_coord + 1) % 256 ≥ config.window_width
      · rw [if_pos hedge] at h
        cases h
        exact hfr
      · rw [if_neg hedge] at h
        obtain ⟨h1, h2⟩ := ih _ _ _ h
        exact ⟨h1.trans hfr.1, h2.trans hfr.2⟩
    · rw [if_neg hidx] at h
      cases h

/-- The sprite loop leaves `ram` and `I` alone. -/
theorem draw_rows_ram (config : CONFIG_T) (orig_X : Nat) :
    ∀ (n i Y_coord : Nat) (s t : CHIP_8),
      draw_rows config orig_X n i Y_coord s = .ok t → t.ram = s.ram ∧ t.I = s.I := by
  intro n
  induction n with
  | zero =>
    intro i Y_coord s t h
    cases h
    exact ⟨rfl, rfl⟩
  | succ n ih =>
    intro i Y_coord s t h
    rw [draw_rows_succ] at h
    split at h
    · cases h
    · split at h
      · cases h
      · rename_i sprite_data hread s1 hrow
        obtain ⟨h1, h2⟩ := draw_row_ram config _ _ _ _ _ _ hrow
        split_ifs at h
        · cases h
          exact ⟨h1, h2⟩
        · obtain ⟨h3, h4⟩ := ih _ _ _ _ h
          exact ⟨h3.trans h1, h4.trans h2⟩

theorem draw_sprite_ram (config : CONFIG_T) (s t : CHIP_8)
    (h : draw_sprite config s = .ok t) : t.ram = s.ram := by
  unfold draw_sprite at h
  split_ifs at h
  exact (draw_rows_ram config _ _ _ _ _ _ h).1

/-- The scan loop of `0xFX0A` leaves `ram` alone. -/
theorem await_key_scan_ram :
    ∀ (n i : Nat) (chip8 : CHIP_8), (await_key_scan n i chip8).ram = chip8.ram := by
  intro n
  induction n with
  | zero => intro i chip8; rfl
  | succ n ih =>
    intro i chip8
    rw [await_key_scan]
    split
    · split
      · exact ih (i + 1) _
      · exact ih (i + 1) _
    · rfl

theorem await_key_ram (s t : CHIP_8) (h : await_key s = .ok t) : t.ram = s.ram := by
  unfold await_key at h
  simp only [] at h
  split_ifs at h
  · cases h
    exact await_key_scan_ram 16 0 s
  · split at h
    · cases h
    · split_ifs at h <;> (cases h; exact await_key_scan_ram 16 0 s)

theorem store_bcd_inside (chip8 : CHIP_8) (h : chip8.I + 2 < 4096) :
    store_bcd chip8 = .ok { chip8 with
      ram := store (store (store chip8.ram (chip8.I + 2) (chip8.V chip8.inst.X % 10))
        (chip8.I + 1) (chip8.V chip8.inst.X / 10 % 10)) chip8.I (chip8.V chip8.inst.X / 10 / 10) } := by
  have h1 : chip8.I + 1 < 4096 := by omega
  have h0 : chip8.I < 4096 := by omega
  simp only [store_bcd, ram_write, h, h1, h0, if_true]

theorem store_bcd_frame (s t : CHIP_8) (h : store_bcd s = .ok t) (a : Nat)
    (ha : a < s.I ∨ s.I + 3 ≤ a) : t.ram a = s.ram a := by
  by_cases hI : s.I + 2 < 4096
  · rw [store_bcd_inside s hI] at h
    cases h
    show store (store (store s.ram _ _) _ _) _ _ a = _
    rw [store_other _ _ _ _ (by omega), store_other _ _ _ _ (by omega),
      store_other _ _ _ _ (by omega)]
  · rw [store_bcd_outside s (by omega)] at h
    cases h

/-- A dump loop that returns has written inside `I .. I + i + n` only. -/
theorem register_dump_frame (config : CONFIG_T) (n : Nat) (s t : CHIP_8)
    (h : register_dump config n 0 s = .ok t) (a : Nat) (ha : a < s.I ∨ s.I + n ≤ a) :
    t.ram a = s.ram a := by
  cases n with
  | zero => cases h; rfl
  | succ n =>
    by_cases hex : config.current_ex = CHIP8
    · by_cases hin : s.I + (n + 1) ≤ 4096
      · obtain ⟨u, hu, _, _, _, _, hold⟩ := register_dump_chip8 config hex (n + 1) 0 s hin
        rw [hu] at h
        cases h
        exact hold a ha
      · by_cases hout : 4096 ≤ s.I
        · rw [register_dump_chip8_outside config hex n 0 s hout] at h
          cases h
        · rw [register_dump_chip8_past_end config hex (n + 1) 0 s (by omega) (by omega)] at h
          cases h
    · by_cases hin : s.I + 0 + (n + 1) ≤ 4096
      · obtain ⟨u, hu, _, _, _, _, hold⟩ := register_dump_other config hex (n + 1) 0 s hin
        rw [hu] at h
        cases h
        exact hold a (by omega)
      · rw [register_dump_other_past_end config hex (n + 1) 0 s (by omega) (by omega)] at h
        cases h

/-- A load loop that returns has left `ram` alone. -/
theorem register_load_ram (config : CONFIG_T) (n : Nat) (s t : CHIP_8)
    (h : register_load config n 0 s = .ok t) : t.ram = s.ram := by
  cases n with
  | zero => cases h; rfl
  | succ n =>
    by_cases hex : config.current_ex = CHIP8
    · by_cases hin : s.I + (n + 1) ≤ 4096
      · obtain ⟨u, hu, hram, _⟩ := register_load_chip8 config hex (n + 1) 0 s hin
        rw [hu] at h
        cases h
        exact hram
      · by_cases hout : 4096 ≤ s.I
        · rw [register_load_chip8_outside config hex n 0 s hout] at h
          cases h
        · rw [register_load_chip8_past_end config hex (n + 1) 0 s (by omega) (by omega)] at h
          cases h
    · by_cases hin : s.I + 0 + (n + 1) ≤ 4096
      · obtain ⟨u, hu, hram, _⟩ := register_load_other config hex (n + 1) 0 s hin
        rw [hu] at h
        cases h
        exact hram
      · rw [register_load_other_past_end config hex (n + 1) 0 s (by omega) (by omega)] at h
        cases h

/-- The arithmetic family never touches `ram`. -/
theorem execute_8_ram (config : CONFIG_T) (s t : CHIP_8) (h : execute_8 config s = .ok t) :
    t.ram = s.ram := by
  unfold execute_8 at h
  simp only [] at h
  split at h <;> first
    | (cases h; rfl)
    | (split_ifs at h <;> (cases h; rfl))

/-- What the `0xF` family may write: bytes `I .. I + 2` and `I .. I + X` only. -/
theorem execute_F_frame (config : CONFIG_T) (s t : CHIP_8) (h : execute_F config s = .ok t)
    (a : Nat) (ha : a < s.I ∨ (s.I + 3 ≤ a ∧ s.I + (s.inst.X + 1) ≤ a)) :
    t.ram a = s.ram a := by
  unfold execute_F at h
  simp only [] at h
  split at h
  · rw [await_key_ram s t h]
  · cases h; rfl
  · cases h; rfl
  · cases h; rfl
  · cases h; rfl
  · exact store_bcd_frame s t h a (by omega)
  · exact register_dump_frame config _ s t h a (by omega)
  · rw [register_load_ram config _ s t h]
  · cases h; rfl

/-- What `execute` may write: bytes `I .. I + 15` only. -/
theorem execute_frame (config : CONFIG_T) (rand_value : Nat) (s t : CHIP_8)
    (h : execute config rand_value s = .ok t) (hX : s.inst.X < 16)
    (a : Nat) (ha : a < s.I ∨ s.I + 16 ≤ a) : t.ram a = s.ram a := by
  unfold execute at h
  simp only [] at h
  split at h
  · split_ifs at h <;> (cases h; rfl)
  · cases h; rfl
  · split_ifs at h
    cases h
    rfl
  · split_ifs at h <;> (cases h; rfl)
  · split_ifs at h <;> (cases h; rfl)
  · split_ifs at h <;> (cases h; rfl)
  · cases h; rfl
  · cases h; rfl
  · rw [execute_8_ram config s t h]
  · split_ifs at h <;> (cases h; rfl)
  · cases h; rfl
  · cases h; rfl
  · cases h; rfl
  · rw [draw_sprite_ram config s t h]
  · split_ifs at h
    · split at h
      · cases h
      · split_ifs at h <;> (cases h; rfl)
    · split at h
      · cases h
      · split_ifs at h <;> (cases h; rfl)
    · cases h; rfl
  · exact execute_F_frame config s t h a (by omega)
  · cases h; rfl

/-- What the fetch leaves in place, and the range of the decoded `X`. -/
theorem fetch_decode_frame (s u : CHIP_8) (h : fetch_decode s = .ok u) :
    u.ram = s.ram ∧ u.I = s.I ∧ u.inst.X < 16 := by
  unfold fetch_decode ram_read at h
  simp only [] at h
  split_ifs at h
  cases h
  refine ⟨rfl, rfl, ?_⟩
  show ((_ >>> 8) &&& 0x0F) % 256 < 16
  have := @Nat.and_le_right ((((s.ram s.PC) <<< 8 ||| s.ram (s.PC + 1)) % 65536) >>> 8) 0x0F
  omega

/-- One cycle may write bytes `I .. I + 15` of `ram` only. -/
theorem cycle_frame (config : CONFIG_T) (rand_value : Nat) (s t : CHIP_8)
    (h : emulate_instructions config rand_value s = .ok t)
    (a : Nat) (ha : a < s.I ∨ s.I + 16 ≤ a) : t.ram a = s.ram a := by
  unfold emulate_instructions at h
  split at h
  · cases h
  · rename_i u hu
    obtain ⟨hram, hI, hX⟩ := fetch_decode_frame s u hu
    rw [execute_frame config rand_value u t h hX a (by omega), hram]

/-- C16 (amended): the engine protects no region of memory.  A cycle that returns has
changed no byte of `ram` outside `I .. I + 15`, the bytes `0xFX33` and `0xFX55` address
through the index register; so the font region `0x000..0x1FF` is left unchanged when the
index register is at `0x200` or above, and only then is it out of reach. -/
theorem C16_cycle_writes_only_at_index (config : CONFIG_T) (rand_value : Nat)
    (chip8 s : CHIP_8) (h : emulate_instructions config rand_value chip8 = .ok s) :
    (∀ a, a < chip8.I ∨ chip8.I + 16 ≤ a → s.ram a = chip8.ram a) ∧
    (0x200 ≤ chip8.I → ∀ a, a < 0x200 → s.ram a = chip8.ram a) :=
  ⟨fun a ha => cycle_frame config rand_value chip8 s h a ha,
   fun hI a ha => cycle_frame config rand_value chip8 s h a (Or.inl (by omega))⟩

/-- C16 witness: `F355` with `I = 0x300` leaves the bytes below `0x200` as they were. -/
theorem C16_cycle_writes_only_at_index_witness :
    ∃ s, emulate_instructions default_config 0 dump_load_example = .ok s ∧
      ∀ a, a < 0x200 → s.ram a = dump_load_example.ram a := by
  obtain ⟨s, hs, _⟩ :=
    dump_cycle default_config 0 dump_load_example 3 (by decide) (by decide) (by decide)
  exact ⟨s, hs, (C16_cycle_writes_only_at_index default_config 0 dump_load_example s hs).2
    (by decide)⟩

/-- C16 counterexample: the program image `F0 55`.  After `init_chip8` the font byte
`ram[0]` is `0xF0` and `I` and `V[0]` are zero; the first cycle executes
`chip8->ram[chip8->I++] = chip8->V[0]` and overwrites the font byte with zero. -/
theorem C16_dump_overwrites_font :
    init_chip8 blank (some [0xF0, 0x55]) = (true, font_example) ∧
    font_example.ram 0 = 0xF0 ∧
    ∃ s, emulate_instructions default_config 0 font_example = .ok s ∧ s.ram 0 = 0 := by
  refine ⟨rfl, by decide, ?_⟩
  obtain ⟨s, hs, _, _, _, hnew, _⟩ :=
    dump_cycle default_config 0 font_example 0 (by decide) (by decide) (by decide)
  exact ⟨s, hs, hnew 0 (Nat.le_refl 0)⟩

/-! ## Addresses used by one cycle -/

/-- The fetch with the program counter at the last byte of `ram` or beyond: the source
reads `ram[PC] << 8 | ram[PC + 1]` with no mask and no test. -/
theorem fetch_outside (config : CONFIG_T) (rand_value : Nat) (chip8 : CHIP_8)
    (h : 4095 ≤ chip8.PC) :
    emulate_instructions config rand_value chip8 =
      .error (.ram_read (max chip8.PC 4096)) := by
  unfold emulate_instructions fetch_decode ram_read
  by_cases hpc : chip8.PC < 4096
  · have e : chip8.PC = 4095 := by omega
    rw [if_pos hpc, if_neg (by omega), e]
    rfl
  · rw [if_neg hpc, Nat.max_eq_left (by omega)]

/-- What the fetch inside `ram` decodes. -/
theorem fetch_inside (chip8 : CHIP_8) (h : chip8.PC + 1 < 4096) :
    ∃ u, fetch_decode chip8 = .ok u ∧ u.I = chip8.I ∧ u.inst.X < 16 ∧ u.inst.N < 16 := by
  unfold fetch_decode ram_read
  rw [if_pos (by omega), if_pos h]
  refine ⟨_, rfl, rfl, ?_, ?_⟩
  · show ((_ >>> 8) &&& 0x0F) % 256 < 16
    have := @Nat.and_le_right
      ((((chip8.ram chip8.PC) <<< 8 ||| chip8.ram (chip8.PC + 1)) % 65536) >>> 8) 0x0F
    omega
  · show (_ &&& 0x0F) % 256 < 16
    have := @Nat.and_le_right
      (((chip8.ram chip8.PC) <<< 8 ||| chip8.ram (chip8.PC + 1)) % 65536) 0x0F
    omega

theorem draw_row_no_fault (config : CONFIG_T) (sprite_data Y_coord : Nat) :
    ∀ (k X_coord : Nat) (s : CHIP_8),
      ram_fault (draw_row config sprite_data Y_coord k X_coord s) = false := by
  intro k
  induction k with
  | zero => intro X_coord s; rfl
  | succ k ih =>
    intro X_coord s
    rw [draw_row_succ]
    by_cases hidx : (Y_coord * config.window_width + X_coord) % 4294967296 < 2048
    · rw [if_pos hidx]
      by_cases hedge : (X_coord + 1) % 256 ≥ config.window_width
      · rw [if_pos hedge]
        rfl
      · rw [if_neg hedge]
        exact ih _ _
    · rw [if_neg hidx]
      rfl

theorem draw_rows_no_fault (config : CONFIG_T) (orig_X : Nat) :
    ∀ (n i Y_coord : Nat) (s : CHIP_8), s.I + i + n ≤ 4096 →
      ram_fault (draw_rows config orig_X n i Y_coord s) = false := by
  intro n
  induction n with
  | zero => intro i Y_coord s _; rfl
  | succ n ih =>
    intro i Y_coord s hI
    have hrd : ram_read s (s.I + i) = .ok (s.ram (s.I + i)) := by
      rw [ram_read, if_pos (by omega)]
    have hrow := draw_row_no_fault config (s.ram (s.I + i)) Y_coord 8 orig_X s
    rw [draw_rows_succ, hrd]
    dsimp only []
    split
    · rename_i e hr
      rw [hr] at hrow
      exact hrow
    · rename_i s1 hr
      have hI1 : s1.I = s.I := (draw_row_ram config _ _ _ _ _ _ hr).2
      by_cases hedge : (Y_coord + 1) % 256 ≥ config.window_height
      · rw [if_pos hedge]
        rfl
      · rw [if_neg hedge]
        exact ih _ _ _ (by omega)

theorem draw_sprite_no_fault (config : CONFIG_T) (s : CHIP_8)
    (hI : s.I + s.inst.N ≤ 4096) : ram_fault (draw_sprite config s) = false := by
  unfold draw_sprite
  split_ifs
  · rfl
  · exact draw_rows_no_fault config _ _ _ _ _ (by show s.I + 0 + s.inst.N ≤ 4096; omega)

theorem await_key_no_fault (s : CHIP_8) : ram_fault (await_key s) = false := by
  unfold await_key keypad_read
  simp only []
  split_ifs <;> first
    | rfl
    | (dsimp only []; split_ifs <;> rfl)

theorem register_dump_no_fault (config : CONFIG_T) (n : Nat) (s : CHIP_8)
    (hI : s.I + n ≤ 4096) : ram_fault (register_dump config n 0 s) = false := by
  by_cases hex : config.current_ex = CHIP8
  · obtain ⟨u, hu, _⟩ := register_dump_chip8 config hex n 0 s hI
    rw [hu]
    rfl
  · obtain ⟨u, hu, _⟩ := register_dump_other config hex n 0 s (by omega)
    rw [hu]
    rfl

theorem register_load_no_fault (config : CONFIG_T) (n : Nat) (s : CHIP_8)
    (hI : s.I + n ≤ 4096) : ram_fault (register_load config n 0 s) = false := by
  by_cases hex : config.current_ex = CHIP8
  · obtain ⟨u, hu, _⟩ := register_load_chip8 config hex n 0 s hI
    rw [hu]
    rfl
  · obtain ⟨u, hu, _⟩ := register_load_other config hex n 0 s (by omega)
    rw [hu]
    rfl

theorem execute_8_no_fault (config : CONFIG_T) (s : CHIP_8) :
    ram_fault (execute_8 config s) = false := by
  unfold execute_8
  simp only []
  split <;> first
    | rfl
    | (split_ifs <;> rfl)

theorem execute_F_no_fault (config : CONFIG_T) (s : CHIP_8) (hX : s.inst.X < 16)
    (hI : s.I + 16 ≤ 4096) : ram_fault (execute_F config s) = false := by
  unfold execute_F
  simp only []
  split
  · exact await_key_no_fault s
  · rfl
  · rfl
  · rfl
  · rfl
  · rw [store_bcd_inside s (by omega)]
    rfl
  · exact register_dump_no_fault config _ s (by omega)
  · exact register_load_no_fault config _ s (by omega)
  · rfl

theorem execute_no_fault (config : CONFIG_T) (rand_value : Nat) (s : CHIP_8)
    (hX : s.inst.X < 16) (hN : s.inst.N < 16) (hI : s.I + 16 ≤ 4096) :
    ram_fault (execute config rand_value s) = false := by
  unfold execute
  simp only []
  split
  · split_ifs <;> rfl
  · rfl
  · split_ifs <;> rfl
  · split_ifs <;> rfl
  · split_ifs <;> rfl
  · split_ifs <;> rfl
  · rfl
  · rfl
  · exact execute_8_no_fault config s
  · split_ifs <;> rfl
  · rfl
  · rfl
  · rfl
  · exact draw_sprite_no_fault config s (by omega)
  · unfold keypad_read
    split_ifs <;> first
      | rfl
      | (dsimp only []; split_ifs <;> rfl)
  · exact execute_F_no_fault config s hX hI
  · rfl

/-- With the program counter and the index register far enough from the end of `ram`, no
access of one cycle leaves `ram`. -/
theorem cycle_no_fault (config : CONFIG_T) (rand_value : Nat) (chip8 : CHIP_8)
    (hPC : chip8.PC < 4095) (hI : chip8.I + 15 < 4096) :
    ram_fault (emulate_instructions config rand_value chip8) = false := by
  obtain ⟨u, hu, huI, hX, hN⟩ := fetch_inside chip8 (by omega)
  unfold emulate_instructions
  rw [hu]
  exact execute_no_fault config rand_value u hX hN (by omega)

theorem execute_family_1 (config : CONFIG_T) (rand_value : Nat) (chip8 : CHIP_8)
    (hfam : (chip8.inst.opcode >>> 12) &&& 0x0F = 1) :
    execute config rand_value chip8 = .ok { chip8 with PC := chip8.inst.NNN } := by
  unfold execute
  rw [hfam]

/-- One cycle on the jump `1NNN`. -/
theorem jump_cycle (config : CONFIG_T) (rand_value : Nat) (chip8 : CHIP_8)
    (X Y N : Nat) (hX : X < 16) (hY : Y < 16) (hN : N < 16)
    (h : holds_instruction chip8 (0x10 + X) (Y * 16 + N)) :
    ∃ s, emulate_instructions config rand_value chip8 = .ok s ∧
      s = { chip8 with PC := X * 256 + Y * 16 + N, inst := s.inst } := by
  rw [emulate_instructions_fetched config rand_value chip8 1 X Y N (by omega) hX hY hN h,
    execute_family_1 config rand_value (fetched chip8 1 X Y N)
      (fetched_family chip8 1 X Y N (by omega) hX hY hN)]
  exact ⟨_, rfl, rfl⟩

/-- C15 (amended): the engine neither masks nor validates an address; what it accesses
follows from the program counter and the index register as they are.  With the program
counter at 4095 or above the fetch itself reads outside `ram`: `ram[4096]` when it is 4095,
`ram[PC]` when it is larger.  With the program counter below 4095 and `I + 15` inside
`ram`, every address one cycle reads or writes lies within `[0, 4095]`. -/
theorem C15_addresses_follow_registers_unmasked (config : CONFIG_T) (rand_value : Nat)
    (chip8 : CHIP_8) :
    (4095 ≤ chip8.PC →
      emulate_instructions config rand_value chip8 =
        .error (.ram_read (max chip8.PC 4096))) ∧
    (chip8.PC < 4095 → chip8.I + 15 < 4096 →
      ram_fault (emulate_instructions config rand_value chip8) = false) :=
  ⟨fetch_outside config rand_value chip8, cycle_no_fault config rand_value chip8⟩

/-- C15 witness: with the program counter at `0xFFFF` the fetch reads `ram[65535]`, and
register dump `F355` at `0x200` with `I = 0x300` stays inside `ram`. -/
theorem C15_addresses_follow_registers_unmasked_witness :
    emulate_instructions default_config 0 (filled 0 0xFFFF) = .error (.ram_read 0xFFFF) ∧
    ram_fault (emulate_instructions default_config 0 dump_load_example) = false :=
  ⟨(C15_addresses_follow_registers_unmasked default_config 0 (filled 0 0xFFFF)).1
      (by decide),
   (C15_addresses_follow_registers_unmasked default_config 0 dump_load_example).2
      (by decide) (by decide)⟩

/-- C15 counterexample: the program `1FFF`.  The jump sets the program counter to `0xFFF`,
the last byte of `ram`; the next fetch reads `chip8->ram[chip8->PC + 1]`, which is
`ram[4096]`, one past the 4096-byte array. -/
theorem C15_fetch_reads_past_ram :
    ∃ s, emulate_instructions default_config 0 jump_example = .ok s ∧ s.PC = 0xFFF ∧
      emulate_instructions default_config 0 s = .error (.ram_read 4096) := by
  obtain ⟨s, hs, he⟩ :=
    jump_cycle default_config 0 jump_example 15 15 15 (by decide) (by decide) (by decide)
      (by decide)
  have hpc : s.PC = 0xFFF := by rw [he]
  refine ⟨s, hs, hpc, ?_⟩
  rw [fetch_outside default_config 0 s (by omega), hpc]
  rfl

/-! ## The engine and the run state -/

theorem ram_write_state (st : EMULATOR_STATE_T) (s : CHIP_8) (addr v : Nat) :
    ram_write (set_state st s) addr v = (ram_write s addr v).map (set_state st) := by
  unfold ram_write
  split_ifs <;> rfl

theorem draw_row_state (config : CONFIG_T) (st : EMULATOR_STATE_T)
    (sprite_data Y_coord : Nat) :
    ∀ (k X_coord : Nat) (s : CHIP_8),
      draw_row config sprite_data Y_coord k X_coord (set_state st s) =
        (draw_row config sprite_data Y_coord k X_coord s).map (set_state st) := by
  intro k
  induction k with
  | zero => intro X_coord s; rfl
  | succ k ih =>
    intro X_coord s
    rw [draw_row_succ, draw_row_succ]
    simp only [set_state]
    split_ifs <;> first
      | rfl
      | (rw [← ih]; rfl)

theorem draw_rows_state (config : CONFIG_T) (st : EMULATOR_STATE_T) (orig_X : Nat) :
    ∀ (n i Y_coord : Nat) (s : CHIP_8),
      draw_rows config orig_X n i Y_coord (set_state st s) =
        (draw_rows config orig_X n i Y_coord s).map (set_state st) := by
  intro n
  induction n with
  | zero => intro i Y_coord s; rfl
  | succ n ih =>
    intro i Y_coord s
    rw [draw_rows_succ, draw_rows_succ]
    have hrr : ram_read (set_state st s) ((set_state st s).I + i) = ram_read s (s.I + i) := rfl
    rw [hrr]
    cases ram_read s (s.I + i) with
    | error e => rfl
    | ok sprite_data =>
      dsimp only []
      rw [draw_row_state]
      cases draw_row config sprite_data Y_coord 8 orig_X s with
      | error e => rfl
      | ok s1 =>
        show (if (Y_coord + 1) % 256 ≥ config.window_height then Except.ok (set_state st s1)
          else draw_rows config orig_X n (i + 1) ((Y_coord + 1) % 256) (set_state st s1)) =
          Except.map (set_state st)
            (if (Y_coord + 1) % 256 ≥ config.window_height then Except.ok s1
             else draw_rows config orig_X n (i + 1) ((Y_coord + 1) % 256) s1)
        split_ifs
        · rfl
        · exact ih _ _ _

theorem draw_sprite_state (config : CONFIG_T) (st : EMULATOR_STATE_T) (s : CHIP_8) :
    draw_sprite config (set_state st s) = (draw_sprite config s).map (set_state st) := by
  unfold draw_sprite
  split_ifs
  · rfl
  · exact draw_rows_state config st _ _ _ _ { s with V := store s.V 0xF 0 }

theorem await_key_scan_state (st : EMULATOR_STATE_T) :
    ∀ (n i : Nat) (s : CHIP_8),
      await_key_scan n i (set_state st s) = set_state st (await_key_scan n i s) := by
  intro n
  induction n with
  | zero => intro i s; rfl
  | succ n ih =>
    intro i s
    rw [await_key_scan, await_key_scan]
    show (if s.key = 0xFF then _ else _) = set_state st (if s.key = 0xFF then _ else _)
    by_cases hk : s.key = 0xFF
    · rw [if_pos hk, if_pos hk]
      show await_key_scan n (i + 1) (if s.keypad i = true then _ else _) =
        set_state st (await_key_scan n (i + 1) (if s.keypad i = true then _ else _))
      by_cases hp : s.keypad i = true
      · rw [if_pos hp, if_pos hp]
        exact ih (i + 1) { s with V := store s.V s.inst.X i, anykey_pressed := true }
      · rw [if_neg hp, if_neg hp]
        exact ih (i + 1) s
    · rw [if_neg hk, if_neg hk]

theorem await_key_state (st : EMULATOR_STATE_T) (s : CHIP_8) :
    await_key (set_state st s) = (await_key s).map (set_state st) := by
  unfold await_key keypad_read
  simp only [await_key_scan_state]
  simp only [set_state]
  split_ifs <;> first
    | rfl
    | (dsimp only []; split_ifs <;> rfl)

theorem store_bcd_state (st : EMULATOR_STATE_T) (s : CHIP_8) :
    store_bcd (set_state st s) = (store_bcd s).map (set_state st) := by
  by_cases hI : s.I + 2 < 4096
  · rw [store_bcd_inside (set_state st s) hI, store_bcd_inside s hI]
    rfl
  · rw [store_bcd_outside (set_state st s) (by show 4096 ≤ s.I + 2; omega),
      store_bcd_outside s (by omega)]
    rfl

theorem register_dump_state (config : CONFIG_T) (st : EMULATOR_STATE_T) :
    ∀ (n i : Nat) (s : CHIP_8),
      register_dump config n i (set_state st s) =
        (register_dump config n i s).map (set_state st) := by
  intro n
  induction n with
  | zero => intro i s; rfl
  | succ n ih =>
    intro i s
    rw [register_dump, register_dump]
    unfold ram_write
    simp only [set_state]
    split_ifs <;> first
      | rfl
      | (rw [← ih]; rfl)

theorem register_load_state (config : CONFIG_T) (st : EMULATOR_STATE_T) :
    ∀ (n i : Nat) (s : CHIP_8),
      register_load config n i (set_state st s) =
        (register_load config n i s).map (set_state st) := by
  intro n
  induction n with
  | zero => intro i s; rfl
  | succ n ih =>
    intro i s
    rw [register_load, register_load]
    unfold ram_read
    simp only [set_state]
    split_ifs <;> first
      | rfl
      | (rw [← ih]; rfl)

theorem execute_8_state (config : CONFIG_T) (st : EMULATOR_STATE_T) (s : CHIP_8) :
    execute_8 config (set_state st s) = (execute_8 config s).map (set_state st) := by
  unfold execute_8
  simp only [set_state]
  split <;> first
    | rfl
    | (split_ifs <;> rfl)

theorem execute_F_state (config : CONFIG_T) (st : EMULATOR_STATE_T) (s : CHIP_8) :
    execute_F config (set_state st s) = (execute_F config s).map (set_state st) := by
  unfold execute_F
  dsimp only []
  have hNN : (set_state st s).inst.NN = s.inst.NN := rfl
  rw [hNN]
  split
  · exact await_key_state st s
  · rfl
  · rfl
  · rfl
  · rfl
  · exact store_bcd_state st s
  · exact register_dump_state config st _ _ s
  · exact register_load_state config st _ _ s
  · rfl

theorem execute_state (config : CONFIG_T) (rand_value : Nat) (st : EMULATOR_STATE_T)
    (s : CHIP_8) :
    execute config rand_value (set_state st s) =
      (execute config rand_value s).map (set_state st) := by
  unfold execute
  dsimp only []
  have hop : (set_state st s).inst.opcode = s.inst.opcode := rfl
  rw [hop]
  split
  · simp only [set_state]
    split_ifs <;> rfl
  · rfl
  · simp only [set_state]
    split_ifs <;> rfl
  · simp only [set_state]
    split_ifs <;> rfl
  · simp only [set_state]
    split_ifs <;> rfl
  · simp only [set_state]
    split_ifs <;> rfl
  · rfl
  · rfl
  · exact execute_8_state config st s
  · simp only [set_state]
    split_ifs <;> rfl
  · rfl
  · rfl
  · rfl
  · exact draw_sprite_state config st s
  · unfold keypad_read
    simp only [set_state]
    split_ifs <;> first
      | rfl
      | (dsimp only []; split_ifs <;> rfl)
  · exact execute_F_state config st s
  · rfl

theorem fetch_decode_state (st : EMULATOR_STATE_T) (s : CHIP_8) :
    fetch_decode (set_state st s) = (fetch_decode s).map (set_state st) := by
  unfold fetch_decode ram_read
  simp only [set_state]
  split_ifs <;> rfl

/-- The engine never reads `state` and never writes it: a cycle on the machine with
another `state` is the same cycle, with that `state` carried along. -/
theorem emulate_instructions_state (config : CONFIG_T) (rand_value : Nat)
    (st : EMULATOR_STATE_T) (s : CHIP_8) :
    emulate_instructions config rand_value (set_state st s) =
      (emulate_instructions config rand_value s).map (set_state st) := by
  unfold emulate_instructions
  rw [fetch_decode_state]
  cases fetch_decode s with
  | error e => rfl
  | ok u => exact execute_state config rand_value st u

theorem main_loop_body_paused (config : CONFIG_T) (events : List SDL_Event)
    (rand_values : Nat → Nat) (chip8 : CHIP_8)
    (h : (handle_input chip8 events).state = .PAUSED) :
    main_loop_body config events rand_values chip8 = .ok (handle_input chip8 events) := by
  unfold main_loop_body
  dsimp only []
  rw [if_pos h]

theorem main_loop_body_not_paused (config : CONFIG_T) (events : List SDL_Event)
    (rand_values : Nat → Nat) (chip8 : CHIP_8)
    (h : (handle_input chip8 events).state ≠ .PAUSED) :
    main_loop_body config events rand_values chip8 =
      (emulate_cycles config rand_values (config.clock_rate / 60)
        (handle_input chip8 events)).map update_timers := by
  unfold main_loop_body
  dsimp only []
  rw [if_neg h]
  cases emulate_cycles config rand_values (config.clock_rate / 60)
      (handle_input chip8 events) with
  | error e => rfl
  | ok s => rfl

theorem main_loop_quit (config : CONFIG_T) (passes : List (List SDL_Event × (Nat → Nat)))
    (chip8 : CHIP_8) (h : chip8.state = .QUIT) : main_loop config passes chip8 = .ok chip8 := by
  cases passes with
  | nil => rfl
  | cons pass rest => rw [main_loop, if_pos h]

/-- C20 (amended): the engine has no test of the run state; the loop of `main` is what
withholds it.  `emulate_instructions` on a machine whose `state` is replaced by any value
(`PAUSED` and `QUIT` included) does what it does otherwise and carries that `state`
along.  A pass of the loop of `main` in which `state` is `PAUSED` after `handle_input`
ends there, without a call of the engine; a pass in which it is not `PAUSED` (`RUNNING`,
or `QUIT` just set by `handle_input`) runs `clock_rate / 60` cycles and the timer tick; and
the loop is left once `state` is `QUIT` at its test. -/
theorem C20_run_state_guard_is_in_main (config : CONFIG_T) (rand_value : Nat)
    (chip8 : CHIP_8) (st : EMULATOR_STATE_T) (events : List SDL_Event)
    (rand_values : Nat → Nat) (passes : List (List SDL_Event × (Nat → Nat))) :
    emulate_instructions config rand_value (set_state st chip8) =
      (emulate_instructions config rand_value chip8).map (set_state st) ∧
    ((handle_input chip8 events).state = .PAUSED →
      main_loop_body config events rand_values chip8 = .ok (handle_input chip8 events)) ∧
    ((handle_input chip8 events).state ≠ .PAUSED →
      main_loop_body config events rand_values chip8 =
        (emulate_cycles config rand_values (config.clock_rate / 60)
          (handle_input chip8 events)).map update_timers) ∧
    (chip8.state = .QUIT → main_loop config passes chip8 = .ok chip8) :=
  ⟨emulate_instructions_state config rand_value st chip8,
   main_loop_body_paused config events rand_values chip8,
   main_loop_body_not_paused config events rand_values chip8,
   main_loop_quit config passes chip8⟩

/-- C20 witness: a pass on a paused machine with no event pending returns it as it is; a
pass on a running machine with the window-close event pending still runs its cycles, on a
machine in state `QUIT`; and the loop entered in state `QUIT` returns at once. -/
theorem C20_run_state_guard_is_in_main_witness :
    main_loop_body default_config [] (fun _ => 0) (stopped_example .PAUSED) =
      .ok (stopped_example .PAUSED) ∧
    main_loop_body default_config [.SDL_QUIT] (fun _ => 0) (stopped_example .RUNNING) =
      (emulate_cycles default_config (fun _ => 0) (default_config.clock_rate / 60)
        (stopped_example .QUIT)).map update_timers ∧
    main_loop default_config [([], fun _ => 0)] (stopped_example .QUIT) =
      .ok (stopped_example .QUIT) :=
  ⟨(C20_run_state_guard_is_in_main default_config 0 (stopped_example .PAUSED) .PAUSED []
      (fun _ => 0) []).2.1 rfl,
   (C20_run_state_guard_is_in_main default_config 0 (stopped_example .RUNNING) .RUNNING
      [.SDL_QUIT] (fun _ => 0) []).2.2.1 (by decide),
   (C20_run_state_guard_is_in_main default_config 0 (stopped_example .QUIT) .QUIT []
      (fun _ => 0) [([], fun _ => 0)]).2.2.2 rfl⟩

/-- C20 counterexample: `3207` with `V[2] = 7` on a machine in state `PAUSED`, and in
state `QUIT`.  `emulate_instructions` starts with the fetch, whatever `state` is: the
instruction is fetched and executed, and the program counter goes from `0x200` to
`0x204`. -/
theorem C20_engine_executes_when_not_running :
    (stopped_example .PAUSED).state = .PAUSED ∧ (stopped_example .PAUSED).PC = 0x200 ∧
    (∃ s, emulate_instructions default_config 0 (stopped_example .PAUSED) = .ok s ∧
      s.PC = 0x204 ∧ s.state = .PAUSED) ∧
    (stopped_example .QUIT).state = .QUIT ∧ (stopped_example .QUIT).PC = 0x200 ∧
    (∃ s, emulate_instructions default_config 0 (stopped_example .QUIT) = .ok s ∧
      s.PC = 0x204 ∧ s.state = .QUIT) := by
  obtain ⟨s, hs, he⟩ :=
    skip_eq_imm_cycle default_config 0 (stopped_example .PAUSED) 2 7 (by decide) (by decide)
      (by decide)
  obtain ⟨t, ht, hte⟩ :=
    skip_eq_imm_cycle default_config 0 (stopped_example .QUIT) 2 7 (by decide) (by decide)
      (by decide)
  refine ⟨rfl, rfl, ⟨s, hs, ?_, ?_⟩, rfl, rfl, ⟨t, ht, ?_, ?_⟩⟩
  · rw [he]; rfl
  · rw [he]; rfl
  · rw [hte]; rfl
  · rw [hte]; rfl

/-! ## Host events and the run state -/

/-- In state `QUIT`, every event but a press of the space bar leaves the state `QUIT`. -/
theorem handle_event_quit (chip8 : CHIP_8) (event : SDL_Event) (h : chip8.state = .QUIT)
    (hne : event ≠ .SDL_KEYDOWN .SDLK_SPACE) : (handle_event chip8 event).state = .QUIT := by
  cases event with
  | SDL_QUIT => rfl
  | SDL_KEYDOWN sym =>
    cases sym <;> first
      | rfl
      | exact h
      | exact absurd rfl hne
  | SDL_KEYUP sym => cases sym <;> exact h
  | other => exact h

/-- In state `QUIT`, a press of the space bar takes the `else` branch of
`if (chip8->state == RUNNING)` and sets the state to `RUNNING`. -/
theorem handle_event_space_quit (chip8 : CHIP_8) (h : chip8.state = .QUIT) :
    (handle_event chip8 (.SDL_KEYDOWN .SDLK_SPACE)).state = .RUNNING := by
  show (if chip8.state = .RUNNING then ({ chip8 with state := .PAUSED } : CHIP_8)
    else { chip8 with state := .RUNNING }).state = .RUNNING
  rw [h, if_neg (by decide)]

/-- Without a press of the space bar among the events, `QUIT` stays. -/
theorem handle_input_quit (events : List SDL_Event) :
    ∀ (chip8 : CHIP_8), chip8.state = .QUIT →
      (∀ event, event ∈ events → event ≠ .SDL_KEYDOWN .SDLK_SPACE) →
      (handle_input chip8 events).state = .QUIT := by
  induction events with
  | nil => intro chip8 h _; exact h
  | cons event rest ih =>
    intro chip8 h hne
    show (handle_input (handle_event chip8 event) rest).state = .QUIT
    exact ih _ (handle_event_quit chip8 event h (hne event (List.mem_cons_self _ _)))
      (fun e he => hne e (List.mem_cons_of_mem _ he))

/-- C21: evaluation at the failing input, the events window-close and then space-bar
press delivered to one call of `handle_input`.  The first sets `state` to `QUIT`; for the
second the test `chip8->state == RUNNING` fails, so the `else` branch (commented
"Resume") sets `state` to `RUNNING`: the machine has left `QUIT`. -/
theorem C21_space_after_quit_resumes :
    (handle_input blank [.SDL_QUIT]).state = .QUIT ∧
    (handle_input blank [.SDL_QUIT, .SDL_KEYDOWN .SDLK_SPACE]).state = .RUNNING :=
  ⟨rfl, rfl⟩

/-! ## Timer tick -/

/-- C22: the timer tick never wraps.  A delay timer at 0 stays at 0 and the machine is
returned as it is; a delay timer above 0 goes down by exactly 1; no other field of the
machine changes; and a timer within its 8-bit type stays within it. -/
theorem C22_update_timers_never_wraps (chip8 : CHIP_8) :
    (chip8.delay_timer = 0 → update_timers chip8 = chip8) ∧
    (0 < chip8.delay_timer → (update_timers chip8).delay_timer + 1 = chip8.delay_timer) ∧
    update_timers chip8 = { chip8 with delay_timer := (update_timers chip8).delay_timer } ∧
    (update_timers chip8).delay_timer ≤ chip8.delay_timer := by
  unfold update_timers
  by_cases h : chip8.delay_timer > 0
  · rw [if_pos h]
    refine ⟨fun h0 => by omega, fun _ => ?_, rfl, ?_⟩
    · show chip8.delay_timer - 1 + 1 = chip8.delay_timer
      omega
    · show chip8.delay_timer - 1 ≤ chip8.delay_timer
      omega
  · rw [if_neg h]
    exact ⟨fun _ => rfl, fun h0 => absurd h0 h, rfl, Nat.le_refl _⟩

/-- C22 witness: a delay timer at 0 stays at 0, and one at 5 goes to 4. -/
theorem C22_update_timers_never_wraps_witness :
    update_timers (timer_example 0) = timer_example 0 ∧
    (update_timers (timer_example 5)).delay_timer + 1 = 5 :=
  ⟨(C22_update_timers_never_wraps (timer_example 0)).1 rfl,
   (C22_update_timers_never_wraps (timer_example 5)).2.1 (by decide)⟩

/-! ## Jump with offset -/

theorem execute_family_B (config : CONFIG_T) (rand_value : Nat) (chip8 : CHIP_8)
    (hfam : (chip8.inst.opcode >>> 12) &&& 0x0F = 0xB) :
    execute config rand_value chip8 =
      .ok { chip8 with PC := (chip8.V 0 + chip8.inst.NNN) % 65536 } := by
  unfold execute
  rw [hfam]

/-- One cycle on jump-plus-v0 `BNNN`. -/
theorem jump_v0_cycle (config : CONFIG_T) (rand_value : Nat) (chip8 : CHIP_8)
    (X Y N : Nat) (hX : X < 16) (hY : Y < 16) (hN : N < 16)
    (h : holds_instruction chip8 (0xB0 + X) (Y * 16 + N)) :
    ∃ s, emulate_instructions config rand_value chip8 = .ok s ∧
      s = { chip8 with PC := (chip8.V 0 + (X * 256 + Y * 16 + N)) % 65536, inst := s.inst } := by
  rw [emulate_instructions_fetched config rand_value chip8 11 X Y N (by omega) hX hY hN h,
    execute_family_B config rand_value (fetched chip8 11 X Y N)
      (fetched_family chip8 11 X Y N (by omega) hX hY hN)]
  exact ⟨_, rfl, rfl⟩

/-- C26 (amended): after jump-plus-v0 `BNNN` the program counter is `V[0] + NNN` as a
16-bit value, with no reduction modulo 4096: for a register within its 8-bit type it is
the plain sum, which equals `(V[0] + NNN) mod 4096` only when the sum is below 4096 and
otherwise names an address outside the 4096-byte memory (up to `0x10FE`). -/
theorem C26_jump_v0_is_not_reduced (config : CONFIG_T) (rand_value : Nat) (chip8 : CHIP_8)
    (NNN : Nat) (hNNN : NNN < 4096)
    (h : holds_instruction chip8 (0xB0 + NNN / 256) (NNN % 256)) :
    ∃ s, emulate_instructions config rand_value chip8 = .ok s ∧
      s.PC = (chip8.V 0 + NNN) % 65536 ∧
      (chip8.V 0 < 256 → s.PC = chip8.V 0 + NNN) ∧
      (chip8.V 0 < 256 → (s.PC = (chip8.V 0 + NNN) % 4096 ↔ chip8.V 0 + NNN < 4096)) ∧
      (chip8.V 0 < 256 → 4096 ≤ chip8.V 0 + NNN → 4096 ≤ s.PC ∧ s.PC ≤ 0x10FE) := by
  have e : NNN % 256 = NNN % 256 / 16 * 16 + NNN % 16 := by omega
  have e2 : NNN / 256 * 256 + NNN % 256 / 16 * 16 + NNN % 16 = NNN := by omega
  obtain ⟨s, hs, he⟩ := jump_v0_cycle config rand_value chip8 (NNN / 256) (NNN % 256 / 16)
    (NNN % 16) (by omega) (by omega) (by omega) (by rw [← e]; exact h)
  have hpc : s.PC = (chip8.V 0 + NNN) % 65536 := by
    rw [he]
    show (chip8.V 0 + (NNN / 256 * 256 + NNN % 256 / 16 * 16 + NNN % 16)) % 65536 = _
    rw [e2]
  refine ⟨s, hs, hpc, fun hv => ?_, fun hv => ?_, fun hv hout => ?_⟩
  · rw [hpc]; omega
  · rw [hpc]; omega
  · rw [hpc]; omega

/-- C26 witness: `BFFF` with `V[0] = 0xFF` leaves the program counter at `0x10FE`. -/
theorem C26_jump_v0_is_not_reduced_witness :
    ∃ s, emulate_instructions default_config 0 jump_v0_example = .ok s ∧ s.PC = 0x10FE := by
  obtain ⟨s, hs, _, hsum, _⟩ :=
    C26_jump_v0_is_not_reduced default_config 0 jump_v0_example 0xFFF (by decide) (by decide)
  exact ⟨s, hs, hsum (by decide)⟩

/-- C26 counterexample: `BFFF` with `V[0] = 0xFF`.  The source executes
`chip8->PC = chip8->V[0] + chip8->inst.NNN`, so the program counter becomes
`0xFF + 0xFFF = 0x10FE = 4350`, not `4350 mod 4096 = 254`; it names no address of the
4096-byte memory. -/
theorem C26_jump_v0_leaves_memory :
    ∃ s, emulate_instructions default_config 0 jump_v0_example = .ok s ∧
      s.PC = 4350 ∧ s.PC ≠ (jump_v0_example.V 0 + 0xFFF) % 4096 ∧ 4096 ≤ s.PC := by
  obtain ⟨s, hs, he⟩ :=
    jump_v0_cycle default_config 0 jump_v0_example 15 15 15 (by decide) (by decide)
      (by decide) (by decide)
  have hpc : s.PC = 4350 := by rw [he]; rfl
  refine ⟨s, hs, hpc, ?_, ?_⟩
  · rw [hpc]
    decide
  · rw [hpc]
    decide

/-! ## The arithmetic family `8XYN` -/

theorem execute_8_or (config : CONFIG_T) (s : CHIP_8) (hN : s.inst.N = 1) :
    execute_8 config s = .ok { s with
      V := if config.current_ex = CHIP8
        then store (store s.V s.inst.X (s.V s.inst.X ||| s.V s.inst.Y)) 0xF 0
        else store s.V s.inst.X (s.V s.inst.X ||| s.V s.inst.Y) } := by
  unfold execute_8
  rw [hN]
  dsimp only []
  split_ifs <;> rfl

theorem execute_8_and (config : CONFIG_T) (s : CHIP_8) (hN : s.inst.N = 2) :
    execute_8 config s = .ok { s with
      V := if config.current_ex = CHIP8
        then store (store s.V s.inst.X (s.V s.inst.X &&& s.V s.inst.Y)) 0xF 0
        else store s.V s.inst.X (s.V s.inst.X &&& s.V s.inst.Y) } := by
  unfold execute_8
  rw [hN]
  dsimp only []
  split_ifs <;> rfl

theorem execute_8_xor (config : CONFIG_T) (s : CHIP_8) (hN : s.inst.N = 3) :
    execute_8 config s = .ok { s with
      V := if config.current_ex = CHIP8
        then store (store s.V s.inst.X (s.V s.inst.X ^^^ s.V s.inst.Y)) 0xF 0
        else store s.V s.inst.X (s.V s.inst.X ^^^ s.V s.inst.Y) } := by
  unfold execute_8
  rw [hN]
  dsimp only []
  split_ifs <;> rfl

theorem execute_8_add (config : CONFIG_T) (s : CHIP_8) (hN : s.inst.N = 4) :
    execute_8 config s = .ok { s with
      V := store (store s.V s.inst.X ((s.V s.inst.X + s.V s.inst.Y) % 256)) 0xF
        (if (s.V s.inst.X + s.V s.inst.Y) % 65536 > 255 then 1 else 0) } := by
  unfold execute_8
  rw [hN]

theorem execute_8_sub (config : CONFIG_T) (s : CHIP_8) (hN : s.inst.N = 5) :
    execute_8 config s = .ok { s with
      V := store (store s.V s.inst.X (to_u8 ((s.V s.inst.X : Int) - (s.V s.inst.Y : Int)))) 0xF
        (if s.V s.inst.Y ≤ s.V s.inst.X then 1 else 0) } := by
  unfold execute_8
  rw [hN]

theorem execute_8_shr (config : CONFIG_T) (s : CHIP_8) (hN : s.inst.N = 6) :
    execute_8 config s = .ok { s with
      V := store
        (store s.V s.inst.X
          ((if config.current_ex = CHIP8 then s.V s.inst.Y else s.V s.inst.X) >>> 1)) 0xF
        (if (if config.current_ex = CHIP8 then s.V s.inst.Y else s.V s.inst.X) &&& 1 ≠ 0
          then 1 else 0) } := by
  unfold execute_8
  rw [hN]
  dsimp only []
  split_ifs <;> rfl

theorem execute_8_subn (config : CONFIG_T) (s : CHIP_8) (hN : s.inst.N = 7) :
    execute_8 config s = .ok { s with
      V := store (store s.V s.inst.X (to_u8 ((s.V s.inst.Y : Int) - (s.V s.inst.X : Int)))) 0xF
        (if s.V s.inst.X ≤ s.V s.inst.Y then 1 else 0) } := by
  unfold execute_8
  rw [hN]

theorem execute_8_shl (config : CONFIG_T) (s : CHIP_8) (hN : s.inst.N = 0xE) :
    execute_8 config s = .ok { s with
      V := store
        (store s.V s.inst.X
          (((if config.current_ex = CHIP8 then s.V s.inst.Y else s.V s.inst.X) <<< 1) % 256))
        0xF
        (if ((if config.current_ex = CHIP8 then s.V s.inst.Y else s.V s.inst.X) &&& 0x80)
            >>> 7 ≠ 0 then 1 else 0) } := by
  unfold execute_8
  rw [hN]
  dsimp only []
  split_ifs <;> rfl

/-- One cycle on an instruction of the family `8XYN` is the fetch followed by the inner
`switch` on `N`. -/
theorem arith_cycle (config : CONFIG_T) (rand_value : Nat) (chip8 : CHIP_8)
    (X Y N : Nat) (hX : X < 16) (hY : Y < 16) (hN : N < 16)
    (h : holds_instruction chip8 (0x80 + X) (Y * 16 + N)) :
    emulate_instructions config rand_value chip8 =
      execute_8 config (fetched chip8 8 X Y N) := by
  rw [emulate_instructions_fetched config rand_value chip8 8 X Y N (by omega) hX hY hN h,
    execute_family_8 config rand_value (fetched chip8 8 X Y N)
      (fetched_family chip8 8 X Y N (by omega) hX hY hN)]

/-- The lowest bit as the source tests it. -/
theorem low_bit_flag (n : Nat) : (if n &&& 1 ≠ 0 then 1 else 0) = n % 2 := by
  rw [Nat.and_one_is_mod]
  split_ifs <;> omega

/-- Bit 7 as the source extracts it. -/
theorem high_bit_flag (n : Nat) : (if (n &&& 0x80) >>> 7 ≠ 0 then 1 else 0) = n / 128 % 2 := by
  have h : (n &&& 0x80) >>> 7 = n / 128 % 2 := by
    have h1 : n &&& 0x80 = (n.testBit 7).toNat * 2 ^ 7 := Nat.and_two_pow n 7
    rw [h1, Nat.toNat_testBit, Nat.shiftRight_eq_div_pow, Nat.mul_div_cancel _ (by decide)]
  rw [h]
  split_ifs <;> omega

theorem shl_value (n : Nat) : (n <<< 1) % 256 = (2 * n) % 256 := by
  rw [Nat.shiftLeft_eq]
  omega

theorem shr_value (n : Nat) : n >>> 1 = n / 2 := by
  rw [Nat.shiftRight_eq_div_pow]

/-- One cycle on SHR `8XY6`: the operand is `V[Y]` under the `CHIP8` setting and `V[X]`
otherwise; `V[X]` receives its half, then `V[15]` its lowest bit. -/
theorem shr_cycle (config : CONFIG_T) (rand_value : Nat) (chip8 : CHIP_8) (X Y : Nat)
    (hX : X < 16) (hY : Y < 16) (h : holds_instruction chip8 (0x80 + X) (Y * 16 + 6)) :
    ∃ s, emulate_instructions config rand_value chip8 = .ok s ∧
      s.V = store
        (store chip8.V X ((if config.current_ex = CHIP8 then chip8.V Y else chip8.V X) / 2))
        0xF ((if config.current_ex = CHIP8 then chip8.V Y else chip8.V X) % 2) := by
  rw [arith_cycle config rand_value chip8 X Y 6 hX hY (by omega) h,
    execute_8_shr config (fetched chip8 8 X Y 6) rfl]
  refine ⟨_, rfl, ?_⟩
  show store (store chip8.V X (_ >>> 1)) 0xF (if _ &&& 1 ≠ 0 then 1 else 0) = _
  rw [low_bit_flag, shr_value]
  rfl

/-- One cycle on SHL `8XYE`: the operand is `V[Y]` under the `CHIP8` setting and `V[X]`
otherwise; `V[X]` receives its double modulo 256, then `V[15]` its bit 7. -/
theorem shl_cycle (config : CONFIG_T) (rand_value : Nat) (chip8 : CHIP_8) (X Y : Nat)
    (hX : X < 16) (hY : Y < 16) (h : holds_instruction chip8 (0x80 + X) (Y * 16 + 0xE)) :
    ∃ s, emulate_instructions config rand_value chip8 = .ok s ∧
      s.V = store
        (store chip8.V X
          ((2 * (if config.current_ex = CHIP8 then chip8.V Y else chip8.V X)) % 256))
        0xF ((if config.current_ex = CHIP8 then chip8.V Y else chip8.V X) / 128 % 2) := by
  rw [arith_cycle config rand_value chip8 X Y 14 hX hY (by omega) h,
    execute_8_shl config (fetched chip8 8 X Y 14) rfl]
  refine ⟨_, rfl, ?_⟩
  show store (store chip8.V X ((_ <<< 1) % 256)) 0xF
    (if (_ &&& 0x80) >>> 7 ≠ 0 then 1 else 0) = _
  rw [high_bit_flag, shl_value]
  rfl

/-- One cycle on ADD `8XY4`: `V[X]` receives the sum modulo 256, then `V[15]` the carry. -/
theorem add_cycle (config : CONFIG_T) (rand_value : Nat) (chip8 : CHIP_8) (X Y : Nat)
    (hX : X < 16) (hY : Y < 16) (h : holds_instruction chip8 (0x80 + X) (Y * 16 + 4)) :
    ∃ s, emulate_instructions config rand_value chip8 = .ok s ∧
      s.V = store (store chip8.V X ((chip8.V X + chip8.V Y) % 256)) 0xF
        (if (chip8.V X + chip8.V Y) % 65536 > 255 then 1 else 0) := by
  rw [arith_cycle config rand_value chip8 X Y 4 hX hY (by omega) h,
    execute_8_add config (fetched chip8 8 X Y 4) rfl]
  exact ⟨_, rfl, rfl⟩

/-- One cycle on SUB `8XY5`: `V[X]` receives the difference modulo 256, then `V[15]` the
no-borrow flag. -/
theorem sub_cycle (config : CONFIG_T) (rand_value : Nat) (chip8 : CHIP_8) (X Y : Nat)
    (hX : X < 16) (hY : Y < 16) (h : holds_instruction chip8 (0x80 + X) (Y * 16 + 5)) :
    ∃ s, emulate_instructions config rand_value chip8 = .ok s ∧
      s.V = store (store chip8.V X (to_u8 ((chip8.V X : Int) - (chip8.V Y : Int)))) 0xF
        (if chip8.V Y ≤ chip8.V X then 1 else 0) := by
  rw [arith_cycle config rand_value chip8 X Y 5 hX hY (by omega) h,
    execute_8_sub config (fetched chip8 8 X Y 5) rfl]
  exact ⟨_, rfl, rfl⟩

/-- One cycle on SUBN `8XY7`: `V[X]` receives `V[Y] - V[X]` modulo 256, then `V[15]` the
no-borrow flag. -/
theorem subn_cycle (config : CONFIG_T) (rand_value : Nat) (chip8 : CHIP_8) (X Y : Nat)
    (hX : X < 16) (hY : Y < 16) (h : holds_instruction chip8 (0x80 + X) (Y * 16 + 7)) :
    ∃ s, emulate_instructions config rand_value chip8 = .ok s ∧
      s.V = store (store chip8.V X (to_u8 ((chip8.V Y : Int) - (chip8.V X : Int)))) 0xF
        (if chip8.V X ≤ chip8.V Y then 1 else 0) := by
  rw [arith_cycle config rand_value chip8 X Y 7 hX hY (by omega) h,
    execute_8_subn config (fetched chip8 8 X Y 7) rfl]
  exact ⟨_, rfl, rfl⟩

/-- One cycle on OR `8XY1`. -/
theorem or_cycle (config : CONFIG_T) (rand_value : Nat) (chip8 : CHIP_8) (X Y : Nat)
    (hX : X < 16) (hY : Y < 16) (h : holds_instruction chip8 (0x80 + X) (Y * 16 + 1)) :
    ∃ s, emulate_instructions config rand_value chip8 = .ok s ∧
      s.V = if config.current_ex = CHIP8
        then store (store chip8.V X (chip8.V X ||| chip8.V Y)) 0xF 0
        else store chip8.V X (chip8.V X ||| chip8.V Y) := by
  rw [arith_cycle config rand_value chip8 X Y 1 hX hY (by omega) h,
    execute_8_or config (fetched chip8 8 X Y 1) rfl]
  exact ⟨_, rfl, rfl⟩

/-- One cycle on AND `8XY2`. -/
theorem and_cycle (config : CONFIG_T) (rand_value : Nat) (chip8 : CHIP_8) (X Y : Nat)
    (hX : X < 16) (hY : Y < 16) (h : holds_instruction chip8 (0x80 + X) (Y * 16 + 2)) :
    ∃ s, emulate_instructions config rand_value chip8 = .ok s ∧
      s.V = if config.current_ex = CHIP8
        then store (store chip8.V X (chip8.V X &&& chip8.V Y)) 0xF 0
        else store chip8.V X (chip8.V X &&& chip8.V Y) := by
  rw [arith_cycle config rand_value chip8 X Y 2 hX hY (by omega) h,
    execute_8_and config (fetched chip8 8 X Y 2) rfl]
  exact ⟨_, rfl, rfl⟩

/-- One cycle on XOR `8XY3`. -/
theorem xor_cycle (config : CONFIG_T) (rand_value : Nat) (chip8 : CHIP_8) (X Y : Nat)
    (hX : X < 16) (hY : Y < 16) (h : holds_instruction chip8 (0x80 + X) (Y * 16 + 3)) :
    ∃ s, emulate_instructions config rand_value chip8 = .ok s ∧
      s.V = if config.current_ex = CHIP8
        then store (store chip8.V X (chip8.V X ^^^ chip8.V Y)) 0xF 0
        else store chip8.V X (chip8.V X ^^^ chip8.V Y) := by
  rw [arith_cycle config rand_value chip8 X Y 3 hX hY (by omega) h,
    execute_8_xor config (fetched chip8 8 X Y 3) rfl]
  exact ⟨_, rfl, rfl⟩

/-- Reading a register after the two stores of an `8XYN` instruction: the flag register
holds the flag, and any other destination holds the result. -/
theorem flag_then_result (V : Nat → Nat) (X result flag : Nat) :
    store (store V X result) 0xF flag 15 = flag ∧
    (X ≠ 15 → store (store V X result) 0xF flag X = result) :=
  ⟨store_same _ _ _, fun hne => by rw [store_other _ _ _ _ hne, store_same]⟩

/-- C24: under the `CHIP8` setting, SHR (`8XY6`) sets `V[15]` to the lowest bit of the
old `V[Y]` and, when `X` is not 15, `V[X]` to the old `V[Y]` div 2; SHL (`8XYE`) sets
`V[15]` to bit 7 of the old `V[Y]` and, when `X` is not 15, `V[X]` to twice the old
`V[Y]` modulo 256.  The operand is `V[Y]`; `V[X]` is not read. -/
theorem C24_shifts_read_second_register (config : CONFIG_T)
    (hex : config.current_ex = CHIP8) (rand_value : Nat) (chip8 : CHIP_8) (X Y : Nat)
    (hX : X < 16) (hY : Y < 16) :
    (holds_instruction chip8 (0x80 + X) (Y * 16 + 6) →
      ∃ s, emulate_instructions config rand_value chip8 = .ok s ∧
        s.V 15 = chip8.V Y % 2 ∧ (X ≠ 15 → s.V X = chip8.V Y / 2)) ∧
    (holds_instruction chip8 (0x80 + X) (Y * 16 + 0xE) →
      ∃ s, emulate_instructions config rand_value chip8 = .ok s ∧
        s.V 15 = chip8.V Y / 128 % 2 ∧ (X ≠ 15 → s.V X = (2 * chip8.V Y) % 256)) := by
  constructor
  · intro h
    obtain ⟨s, hs, hV⟩ := shr_cycle config rand_value chip8 X Y hX hY h
    rw [if_pos hex] at hV
    refine ⟨s, hs, ?_⟩
    rw [hV]
    exact flag_then_result _ _ _ _
  · intro h
    obtain ⟨s, hs, hV⟩ := shl_cycle config rand_value chip8 X Y hX hY h
    rw [if_pos hex] at hV
    refine ⟨s, hs, ?_⟩
    rw [hV]
    exact flag_then_result _ _ _ _

/-- C24 witness: with `V[10] = 0xC5` and `V[11] = 0xA3`, `8AB6` gives `V[15] = 1` and
`V[10] = 0x51`, and `8ABE` gives `V[15] = 1` and `V[10] = 0x46`. -/
theorem C24_shifts_read_second_register_witness :
    (∃ s, emulate_instructions default_config 0 (logic_example 0x8AB6) = .ok s ∧
      s.V 15 = 1 ∧ s.V 10 = 0x51) ∧
    (∃ s, emulate_instructions default_config 0 (logic_example 0x8ABE) = .ok s ∧
      s.V 15 = 1 ∧ s.V 10 = 0x46) := by
  obtain ⟨s, hs, hflag, hres⟩ :=
    (C24_shifts_read_second_register default_config rfl 0 (logic_example 0x8AB6) 10 11
      (by decide) (by decide)).1 (by decide)
  obtain ⟨t, ht, htflag, htres⟩ :=
    (C24_shifts_read_second_register default_config rfl 0 (logic_example 0x8ABE) 10 11
      (by decide) (by decide)).2 (by decide)
  exact ⟨⟨s, hs, hflag, hres (by decide)⟩, ⟨t, ht, htflag, htres (by decide)⟩⟩

/-- C25: OR (`8XY1`), AND (`8XY2`) and XOR (`8XY3`).  Under the `CHIP8` setting the flag
register `V[15]` is left at 0 and, when `X` is not 15, `V[X]` is the bitwise OR, AND or
XOR of the old `V[X]` and the old `V[Y]`.  Under any other setting only `V[X]` is written,
so the flag register is not zeroed: it keeps its value when `X` is not 15. -/
theorem C25_logic_ops_reset_flag (config : CONFIG_T) (rand_value : Nat) (chip8 : CHIP_8)
    (X Y : Nat) (hX : X < 16) (hY : Y < 16) :
    (holds_instruction chip8 (0x80 + X) (Y * 16 + 1) →
      ∃ s, emulate_instructions config rand_value chip8 = .ok s ∧
        (config.current_ex = CHIP8 →
          s.V 15 = 0 ∧ (X ≠ 15 → s.V X = chip8.V X ||| chip8.V Y)) ∧
        (config.current_ex ≠ CHIP8 →
          s.V = store chip8.V X (chip8.V X ||| chip8.V Y) ∧
          (X ≠ 15 → s.V 15 = chip8.V 15))) ∧
    (holds_instruction chip8 (0x80 + X) (Y * 16 + 2) →
      ∃ s, emulate_instructions config rand_value chip8 = .ok s ∧
        (config.current_ex = CHIP8 →
          s.V 15 = 0 ∧ (X ≠ 15 → s.V X = chip8.V X &&& chip8.V Y)) ∧
        (config.current_ex ≠ CHIP8 →
          s.V = store chip8.V X (chip8.V X &&& chip8.V Y) ∧
          (X ≠ 15 → s.V 15 = chip8.V 15))) ∧
    (holds_instruction chip8 (0x80 + X) (Y * 16 + 3) →
      ∃ s, emulate_instructions config rand_value chip8 = .ok s ∧
        (config.current_ex = CHIP8 →
          s.V 15 = 0 ∧ (X ≠ 15 → s.V X = chip8.V X ^^^ chip8.V Y)) ∧
        (config.current_ex ≠ CHIP8 →
          s.V = store chip8.V X (chip8.V X ^^^ chip8.V Y) ∧
          (X ≠ 15 → s.V 15 = chip8.V 15))) := by
  refine ⟨fun h => ?_, fun h => ?_, fun h => ?_⟩
  · obtain ⟨s, hs, hV⟩ := or_cycle config rand_value chip8 X Y hX hY h
    refine ⟨s, hs, fun hex => ?_, fun hex => ?_⟩
    · rw [hV, if_pos hex]
      exact flag_then_result _ _ _ _
    · rw [hV, if_neg hex]
      exact ⟨rfl, fun hne => store_other _ _ _ _ (Ne.symm hne)⟩
  · obtain ⟨s, hs, hV⟩ := and_cycle config rand_value chip8 X Y hX hY h
    refine ⟨s, hs, fun hex => ?_, fun hex => ?_⟩
    · rw [hV, if_pos hex]
      exact flag_then_result _ _ _ _
    · rw [hV, if_neg hex]
      exact ⟨rfl, fun hne => store_other _ _ _ _ (Ne.symm hne)⟩
  · obtain ⟨s, hs, hV⟩ := xor_cycle config rand_value chip8 X Y hX hY h
    refine ⟨s, hs, fun hex => ?_, fun hex => ?_⟩
    · rw [hV, if_pos hex]
      exact flag_then_result _ _ _ _
    · rw [hV, if_neg hex]
      exact ⟨rfl, fun hne => store_other _ _ _ _ (Ne.symm hne)⟩

/-- C25 witness: with `V[10] = 0xC5`, `V[11] = 0xA3` and `V[15] = 0x5A`, `8AB1` under the
`CHIP8` setting gives `V[10] = 0xE7` and `V[15] = 0`; under another setting `8AB2` gives
`V[10] = 0x81` and leaves `V[15] = 0x5A`. -/
theorem C25_logic_ops_reset_flag_witness :
    (∃ s, emulate_instructions default_config 0 (logic_example 0x8AB1) = .ok s ∧
      s.V 15 = 0 ∧ s.V 10 = 0xE7) ∧
    (∃ s, emulate_instructions other_config 0 (logic_example 0x8AB2) = .ok s ∧
      s.V 15 = 0x5A ∧ s.V 10 = 0x81) ∧
    (∃ s, emulate_instructions default_config 0 (logic_example 0x8AB3) = .ok s ∧
      s.V 15 = 0 ∧ s.V 10 = 0x66) := by
  obtain ⟨s, hs, hs1, _⟩ :=
    (C25_logic_ops_reset_flag default_config 0 (logic_example 0x8AB1) 10 11 (by decide)
      (by decide)).1 (by decide)
  obtain ⟨t, ht, _, ht2⟩ :=
    (C25_logic_ops_reset_flag other_config 0 (logic_example 0x8AB2) 10 11 (by decide)
      (by decide)).2.1 (by decide)
  obtain ⟨u, hu, hu1, _⟩ :=
    (C25_logic_ops_reset_flag default_config 0 (logic_example 0x8AB3) 10 11 (by decide)
      (by decide)).2.2 (by decide)
  refine ⟨⟨s, hs, (hs1 rfl).1, (hs1 rfl).2 (by decide)⟩, ⟨t, ht, ?_, ?_⟩,
    ⟨u, hu, (hu1 rfl).1, (hu1 rfl).2 (by decide)⟩⟩
  · exact (ht2 (by decide)).2 (by decide)
  · rw [(ht2 (by decide)).1]
    rfl

/-- C28: flag written last.  When the destination of ADD (`8FY4`), SUB (`8FY5`), SHR
(`8FY6`), SUBN (`8FY7`) or SHL (`8FYE`) is the flag register, `V[15]` ends as the flag of
the operation, computed from the operands as they were before it: the carry of
`V[15] + V[Y]`, the no-borrow flag of `V[15] - V[Y]` or of `V[Y] - V[15]`, the lowest bit
or bit 7 of the shifted operand (`V[Y]` under the `CHIP8` setting, the old `V[15]`
otherwise).  It is 0 or 1, not the arithmetic result. -/
theorem C28_flag_written_last (config : CONFIG_T) (rand_value : Nat) (chip8 : CHIP_8)
    (Y : Nat) (hY : Y < 16) :
    (holds_instruction chip8 0x8F (Y * 16 + 4) →
      ∃ s, emulate_instructions config rand_value chip8 = .ok s ∧
        s.V 15 = (if (chip8.V 15 + chip8.V Y) % 65536 > 255 then 1 else 0) ∧
        (registers_in_range chip8 →
          s.V 15 = if chip8.V 15 + chip8.V Y > 255 then 1 else 0)) ∧
    (holds_instruction chip8 0x8F (Y * 16 + 5) →
      ∃ s, emulate_instructions config rand_value chip8 = .ok s ∧
        s.V 15 = if chip8.V Y ≤ chip8.V 15 then 1 else 0) ∧
    (holds_instruction chip8 0x8F (Y * 16 + 6) →
      ∃ s, emulate_instructions config rand_value chip8 = .ok s ∧
        s.V 15 = (if config.current_ex = CHIP8 then chip8.V Y else chip8.V 15) % 2) ∧
    (holds_instruction chip8 0x8F (Y * 16 + 7) →
      ∃ s, emulate_instructions config rand_value chip8 = .ok s ∧
        s.V 15 = if chip8.V 15 ≤ chip8.V Y then 1 else 0) ∧
    (holds_instruction chip8 0x8F (Y * 16 + 0xE) →
      ∃ s, emulate_instructions config rand_value chip8 = .ok s ∧
        s.V 15 = (if config.current_ex = CHIP8 then chip8.V Y else chip8.V 15) / 128 % 2) := by
  refine ⟨fun h => ?_, fun h => ?_, fun h => ?_, fun h => ?_, fun h => ?_⟩
  · obtain ⟨s, hs, hV⟩ := add_cycle config rand_value chip8 15 Y (by decide) hY h
    refine ⟨s, hs, ?_, fun hr => ?_⟩
    · rw [hV]
      exact store_same _ _ _
    · have h15 := hr 15
      have hy := hr Y
      rw [hV, store_same, Nat.mod_eq_of_lt (by omega)]
  · obtain ⟨s, hs, hV⟩ := sub_cycle config rand_value chip8 15 Y (by decide) hY h
    refine ⟨s, hs, ?_⟩
    rw [hV]
    exact store_same _ _ _
  · obtain ⟨s, hs, hV⟩ := shr_cycle config rand_value chip8 15 Y (by decide) hY h
    refine ⟨s, hs, ?_⟩
    rw [hV]
    exact store_same _ _ _
  · obtain ⟨s, hs, hV⟩ := subn_cycle config rand_value chip8 15 Y (by decide) hY h
    refine ⟨s, hs, ?_⟩
    rw [hV]
    exact store_same _ _ _
  · obtain ⟨s, hs, hV⟩ := shl_cycle config rand_value chip8 15 Y (by decide) hY h
    refine ⟨s, hs, ?_⟩
    rw [hV]
    exact store_same _ _ _

theorem logic_example_in_range (opcode : Nat) : registers_in_range (logic_example opcode) := by
  intro r
  simp only [logic_example]
  split_ifs <;> omega

/-- C28 witness: with `V[11] = 0xA3` and `V[15] = 0x5A`, under the default setting: `8FB4`
(sum `0xFD`) leaves `V[15] = 0`, `8FB5` (borrow) leaves 0, `8FB6` leaves the lowest bit 1
of `0xA3`, `8FB7` (no borrow) leaves 1, and `8FBE` leaves bit 7 of `0xA3`, which is 1. -/
theorem C28_flag_written_last_witness :
    (∃ s, emulate_instructions default_config 0 (logic_example 0x8FB4) = .ok s ∧ s.V 15 = 0) ∧
    (∃ s, emulate_instructions default_config 0 (logic_example 0x8FB5) = .ok s ∧ s.V 15 = 0) ∧
    (∃ s, emulate_instructions default_config 0 (logic_example 0x8FB6) = .ok s ∧ s.V 15 = 1) ∧
    (∃ s, emulate_instructions default_config 0 (logic_example 0x8FB7) = .ok s ∧ s.V 15 = 1) ∧
    (∃ s, emulate_instructions default_config 0 (logic_example 0x8FBE) = .ok s ∧ s.V 15 = 1) := by
  obtain ⟨s4, h4, _, e4⟩ :=
    (C28_flag_written_last default_config 0 (logic_example 0x8FB4) 11 (by decide)).1
      (by decide)
  obtain ⟨s5, h5, e5⟩ :=
    (C28_flag_written_last default_config 0 (logic_example 0x8FB5) 11 (by decide)).2.1
      (by decide)
  obtain ⟨s6, h6, e6⟩ :=
    (C28_flag_written_last default_config 0 (logic_example 0x8FB6) 11 (by decide)).2.2.1
      (by decide)
  obtain ⟨s7, h7, e7⟩ :=
    (C28_flag_written_last default_config 0 (logic_example 0x8FB7) 11 (by decide)).2.2.2.1
      (by decide)
  obtain ⟨s8, h8, e8⟩ :=
    (C28_flag_written_last default_config 0 (logic_example 0x8FBE) 11 (by decide)).2.2.2.2
      (by decide)
  exact ⟨⟨s4, h4, e4 (logic_example_in_range _)⟩, ⟨s5, h5, e5⟩, ⟨s6, h6, e6⟩, ⟨s7, h7, e7⟩, ⟨s8, h8, e8⟩⟩

/-! ## Register dump and load, one at a time -/

/-- C27: register dump and register load with `I + X` inside memory.  `FX55` writes
`V[i]` to `memory[I + i]` for every `i` in `0..X`, changes no other byte of memory and no
register; `FX65` reads `V[i]` from `memory[I + i]` for every `i` in `0..X`, changes no
memory and no register above `X`.  Under the `CHIP8` setting either leaves the index
register at `I + X + 1`; under any other setting it stays `I`. -/
theorem C27_dump_and_load_with_index (config : CONFIG_T) (rand_value : Nat)
    (chip8 : CHIP_8) (X : Nat) (hX : X < 16) (hI : chip8.I + X ≤ 4095) :
    (holds_instruction chip8 (0xF0 + X) 0x55 →
      ∃ s, emulate_instructions config rand_value chip8 = .ok s ∧
        (∀ i, i ≤ X → s.ram (chip8.I + i) = chip8.V i) ∧
        (∀ a, (a < chip8.I ∨ chip8.I + X < a) → s.ram a = chip8.ram a) ∧
        s.V = chip8.V ∧
        (config.current_ex = CHIP8 → s.I = chip8.I + X + 1) ∧
        (config.current_ex ≠ CHIP8 → s.I = chip8.I)) ∧
    (holds_instruction chip8 (0xF0 + X) 0x65 →
      ∃ s, emulate_instructions config rand_value chip8 = .ok s ∧
        (∀ i, i ≤ X → s.V i = chip8.ram (chip8.I + i)) ∧
        s.ram = chip8.ram ∧
        (∀ r, X < r → s.V r = chip8.V r) ∧
        (config.current_ex = CHIP8 → s.I = chip8.I + X + 1) ∧
        (config.current_ex ≠ CHIP8 → s.I = chip8.I)) := by
  constructor
  · intro h
    obtain ⟨s, hs, hV, _, hsI, hnew, hold⟩ := dump_cycle config rand_value chip8 X hX hI h
    refine ⟨s, hs, hnew, hold, hV, fun hex => ?_, fun hex => ?_⟩
    · rw [hsI, if_pos hex]
    · rw [hsI, if_neg hex]
  · intro h
    obtain ⟨s, hs, hram, _, hsI, hnew, hold⟩ := load_cycle config rand_value chip8 X hX hI h
    refine ⟨s, hs, hnew, hram, hold, fun hex => ?_, fun hex => ?_⟩
    · rw [hsI, if_pos hex]
    · rw [hsI, if_neg hex]

/-- C27 witness: `F355` with `I = 0x300` and `V[r] = 10 * r + 7` leaves `memory[0x303] = 37`
and `I = 0x304` under the default setting and `I = 0x300` under another; `F165` with the
bytes `12 34` at `0x300` leaves `V[1] = 0x34`, `V[5] = 9` and `I = 0x302`, or `I = 0x300`
under another setting. -/
theorem C27_dump_and_load_with_index_witness :
    (∃ s, emulate_instructions default_config 0 dump_load_example = .ok s ∧
      s.ram 0x303 = 37 ∧ s.ram 0x304 = 0 ∧ s.I = 0x304) ∧
    (∃ s, emulate_instructions other_config 0 dump_load_example = .ok s ∧ s.I = 0x300) ∧
    (∃ s, emulate_instructions default_config 0 load_example = .ok s ∧
      s.V 1 = 0x34 ∧ s.V 5 = 9 ∧ s.I = 0x302) ∧
    (∃ s, emulate_instructions other_config 0 load_example = .ok s ∧ s.I = 0x300) := by
  obtain ⟨s, hs, hnew, hold, _, hsI, _⟩ :=
    (C27_dump_and_load_with_index default_config 0 dump_load_example 3 (by decide)
      (by decide)).1 (by decide)
  obtain ⟨t, ht, _, _, _, _, htI⟩ :=
    (C27_dump_and_load_with_index other_config 0 dump_load_example 3 (by decide)
      (by decide)).1 (by decide)
  obtain ⟨u, hu, hunew, _, huold, huI, _⟩ :=
    (C27_dump_and_load_with_index default_config 0 load_example 1 (by decide)
      (by decide)).2 (by decide)
  obtain ⟨w, hw, _, _, _, _, hwI⟩ :=
    (C27_dump_and_load_with_index other_config 0 load_example 1 (by decide)
      (by decide)).2 (by decide)
  refine ⟨⟨s, hs, hnew 3 (by decide), ?_, hsI rfl⟩, ⟨t, ht, htI (by decide)⟩,
    ⟨u, hu, ?_, ?_, huI rfl⟩, ⟨w, hw, hwI (by decide)⟩⟩
  · rw [hold 0x304 (Or.inr (by decide))]
    rfl
  · rw [hunew 1 (by decide)]
    rfl
  · rw [huold 5 (by decide)]
    rfl

/-! ## Draw-sprite against its reference definition -/

/-- The sprite loop on the 64 by 32 display, when the rows that are not clipped at the
bottom edge lie inside `ram`: the rows below the edge are never read. -/
theorem draw_rows_blit_clipped (config : CONFIG_T) (hw : config.window_width = 64)
    (hh : config.window_height = 32) (orig_X : Nat) (hX : orig_X < 64) :
    ∀ (n i Y_coord : Nat) (s : CHIP_8), Y_coord < 32 →
      s.I + i + min n (32 - Y_coord) ≤ 4096 →
      ∃ t, draw_rows config orig_X n i Y_coord s = .ok t ∧
        Blit s t (rows_mask s.ram s.I orig_X n i Y_coord) := by
  intro n
  induction n with
  | zero =>
    intro i Y_coord s _ _
    exact ⟨s, rfl, (Blit.none s).congr (fun k => (rows_mask_zero _ _ _ _ _ k).symm)⟩
  | succ n ih =>
    intro i Y_coord s hY hI
    have hrd : ram_read s (s.I + i) = .ok (s.ram (s.I + i)) := by
      rw [ram_read, if_pos (by omega)]
    obtain ⟨s1, hs1, hb1⟩ := draw_row_blit config hw (s.ram (s.I + i)) Y_coord hY 8 orig_X s hX
    have hY1 : (Y_coord + 1) % 256 = Y_coord + 1 := by omega
    rw [draw_rows_succ, hrd]
    simp only [hs1, hY1, hh]
    by_cases hlast : Y_coord + 1 ≥ 32
    · rw [if_pos hlast]
      refine ⟨s1, rfl, hb1.congr (fun k => ?_)⟩
      rw [rows_mask_succ _ _ _ _ _ _ _ hY, rows_mask_below _ _ _ _ _ _ _ (Or.inr hlast),
        Bool.or_false]
    · rw [if_neg hlast]
      obtain ⟨t, ht, hb2⟩ := ih (i + 1) (Y_coord + 1) s1 (by omega)
        (by rw [hb1.I_eq]; omega)
      rw [hb1.ram_eq, hb1.I_eq] at hb2
      refine ⟨t, ht, (hb1.comp hb2 (fun k hk => ?_)).congr (fun k => ?_)⟩
      · exact rows_mask_below _ _ _ _ _ _ _ (Or.inl (by rw [row_mask_row hk]; omega))
      · exact (rows_mask_succ _ _ _ _ _ _ _ hY).symm

/-- One cycle on draw-sprite `DXYN` on the 64 by 32 display when the sprite rows that are
drawn (the first `min N (32 - V[Y] % 32)` of them) lie inside `ram`. -/
theorem draw_cycle_clipped (config : CONFIG_T) (hw : config.window_width = 64)
    (hh : config.window_height = 32) (rand_value : Nat) (chip8 : CHIP_8) (X Y N : Nat)
    (hX : X < 16) (hY : Y < 16) (hN : N < 16)
    (hI : chip8.I + min N (32 - chip8.V Y % 32) ≤ 4096)
    (h : holds_instruction chip8 (0xD0 + X) (Y * 16 + N)) :
    ∃ t, emulate_instructions config rand_value chip8 = .ok t ∧
      ∀ i, t.display i = xor (chip8.display i) (sprite_cells chip8 X Y N i) := by
  rw [emulate_instructions_fetched config rand_value chip8 13 X Y N (by omega) hX hY hN h,
    execute_family_D config rand_value (fetched chip8 13 X Y N)
      (fetched_family chip8 13 X Y N (by omega) hX hY hN)]
  have hx64 : chip8.V X % 64 % 256 = chip8.V X % 64 := by omega
  have hy32 : chip8.V Y % 32 % 256 = chip8.V Y % 32 := by omega
  have hcfg : ¬ (config.window_width = 0 ∨ config.window_height = 0) := by omega
  have hdraw : draw_sprite config (fetched chip8 13 X Y N) =
      draw_rows config (chip8.V X % 64) N 0 (chip8.V Y % 32)
        { fetched chip8 13 X Y N with V := store chip8.V 0xF 0 } := by
    unfold draw_sprite
    rw [if_neg hcfg]
    show draw_rows config (chip8.V X % config.window_width % 256) N 0
        (chip8.V Y % config.window_height % 256) _ = _
    rw [hw, hh, hx64, hy32]
    rfl
  rw [hdraw]
  obtain ⟨t, ht, hb⟩ := draw_rows_blit_clipped config hw hh (chip8.V X % 64) (by omega) N 0
    (chip8.V Y % 32) { fetched chip8 13 X Y N with V := store chip8.V 0xF 0 } (by omega)
    (by show chip8.I + 0 + min N (32 - chip8.V Y % 32) ≤ 4096; omega)
  exact ⟨t, ht, hb.display⟩

/-- The bit test of the source, `sprite_data & (1 << j)`, is bit `j` of the byte. -/
theorem sprite_bit_eq_testBit (sprite_data j : Nat) :
    sprite_bit sprite_data j = sprite_data.testBit j := by
  unfold sprite_bit
  rw [Nat.one_shiftLeft, Nat.and_two_pow]
  cases hb : sprite_data.testBit j
  · simp
  · simp

/-- The cells the source flips are those of the reference definition. -/
theorem sprite_cells_eq_reference (chip8 : CHIP_8) (X Y N x y : Nat) (hx : x < 64) :
    sprite_cells chip8 X Y N (y * 64 + x) = reference_sprite_bit chip8 X Y N x y := by
  have hdiv : (y * 64 + x) / 64 = y := by omega
  have hmod : (y * 64 + x) % 64 = x := by omega
  unfold sprite_cells rows_mask reference_sprite_bit
  rw [hdiv, hmod, sprite_bit_eq_testBit]
  dsimp only []
  by_cases hc : chip8.V X % 64 ≤ x ∧ x < min (chip8.V X % 64 + 8) 64 ∧
      chip8.V Y % 32 ≤ y ∧ y < min (chip8.V Y % 32 + N) 32
  · have hc2 : chip8.V Y % 32 ≤ y ∧ y < chip8.V Y % 32 + N ∧ y < 32 ∧
        chip8.V X % 64 ≤ x ∧ x < chip8.V X % 64 + 8 := by omega
    rw [if_pos hc, decide_eq_true hc2, Bool.true_and, Nat.add_zero]
  · have hc2 : ¬ (chip8.V Y % 32 ≤ y ∧ y < chip8.V Y % 32 + N ∧ y < 32 ∧
        chip8.V X % 64 ≤ x ∧ x < chip8.V X % 64 + 8) := by omega
    rw [if_neg hc, decide_eq_false hc2, Bool.false_and]

/-- C23: draw-sprite `DXYN` on the 64 by 32 display agrees with its reference
definition.  When the sprite rows that are drawn lie inside memory, the new value of
every framebuffer cell `(x, y)` is the old value XOR `reference_sprite_bit`: bit
`7 - (x - x0)` of `memory[I + (y - y0)]` inside the rectangle that starts at
`(x0, y0) = (V[X] mod 64, V[Y] mod 32)` and is clipped at the right and the bottom edge,
and false outside it.  In particular no cell left of `x0` or above `y0` changes. -/
theorem C23_draw_matches_reference (config : CONFIG_T) (hw : config.window_width = 64)
    (hh : config.window_height = 32) (rand_value : Nat) (chip8 : CHIP_8) (X Y N : Nat)
    (hX : X < 16) (hY : Y < 16) (hN : N < 16)
    (hI : chip8.I + min N (32 - chip8.V Y % 32) ≤ 4096)
    (h : holds_instruction chip8 (0xD0 + X) (Y * 16 + N)) :
    ∃ t, emulate_instructions config rand_value chip8 = .ok t ∧
      (∀ x y, x < 64 → y < 32 →
        t.display (y * 64 + x) =
          xor (chip8.display (y * 64 + x)) (reference_sprite_bit chip8 X Y N x y)) ∧
      (∀ x y, x < 64 → y < 32 → (x < chip8.V X % 64 ∨ y < chip8.V Y % 32) →
        t.display (y * 64 + x) = chip8.display (y * 64 + x)) := by
  obtain ⟨t, ht, hdisp⟩ := draw_cycle_clipped config hw hh rand_value chip8 X Y N hX hY hN hI h
  refine ⟨t, ht, fun x y hx _ => ?_, fun x y hx _ hout => ?_⟩
  · rw [hdisp, sprite_cells_eq_reference chip8 X Y N x y hx]
  · have hc : ¬ (chip8.V X % 64 ≤ x ∧ x < min (chip8.V X % 64 + 8) 64 ∧
        chip8.V Y % 32 ≤ y ∧ y < min (chip8.V Y % 32 + N) 32) := by omega
    rw [hdisp, sprite_cells_eq_reference chip8 X Y N x y hx]
    unfold reference_sprite_bit
    dsimp only []
    rw [if_neg hc, Bool.xor_false]

/-- C23 witness: `D012` with `V[0] = 62`, `V[1] = 31`, the sprite bytes `F0 90` and the
cell at column 62 of row 31 lit.  That cell goes off, the cell at column 63 goes on, and
the cell at column 0 of row 31, where the third sprite bit would land by wrap-around,
stays off. -/
theorem C23_draw_matches_reference_witness :
    ∃ t, emulate_instructions default_config 0 draw_example = .ok t ∧
      t.display (31 * 64 + 62) = false ∧ t.display (31 * 64 + 63) = true ∧
      t.display (31 * 64 + 0) = false := by
  obtain ⟨t, ht, hdisp, hout⟩ :=
    C23_draw_matches_reference default_config rfl rfl 0 draw_example 0 1 2 (by decide)
      (by decide) (by decide) (by decide) (by decide)
  refine ⟨t, ht, ?_, ?_, ?_⟩
  · rw [hdisp 62 31 (by decide) (by decide)]
    decide
  · rw [hdisp 63 31 (by decide) (by decide)]
    decide
  · rw [hout 0 31 (by decide) (by decide) (Or.inl (by decide))]
    decide

end KOBZ
